import Mathlib

/-!
# GPS track simulator

A shallow embedding of `Shared/GPSSimulator.cpp`: the streaming reader over a buffered
GPX track log, the three-point interpolation window, and the timer-driven tick handler.

The Qt and ArcGIS value types the simulator uses (`QString`, `QTime`, `QTimer`, `QFile`,
`QXmlStreamReader`, `Point`, `LineSegment`, `QLineF`) are modelled by small structures that
follow their documented behaviour.  Member functions of `GPSSimulator` become functions on
an explicit state record; the `positionUpdateAvailable` signal becomes a list of emitted
events returned next to the new state.
-/

set_option autoImplicit false
set_option linter.unusedVariables false
set_option maxRecDepth 100000

/-! ## Text helpers (`QString`) -/

/-- White space as `QChar::isSpace` sees it in the ASCII range. -/
def isSpace (c : Char) : Bool :=
  c.toNat == 32 || (9 ≤ c.toNat && c.toNat ≤ 13)

/-- `QString::trimmed`: white space removed from both ends. -/
def trimmed (s : List Char) : List Char :=
  ((s.dropWhile isSpace).reverse.dropWhile isSpace).reverse

/-- Value of a run of decimal digits, most significant first; `none` when a character is
not a digit. The accumulator holds the value of the digits read so far. -/
def digitsValue : Nat → List Char → Option Nat
  | acc, [] => some acc
  | acc, c :: cs => if c.isDigit then digitsValue (10 * acc + (c.toNat - 48)) cs else none

/-- A non-empty run of decimal digits and its value. -/
def parseDigits (s : List Char) : Option Nat :=
  if s.isEmpty then none else digitsValue 0 s

def INT_MIN : Int := -2147483648

def INT_MAX : Int := 2147483647

/-- `QString::toInt` in base 10: surrounding white space is ignored, one sign is allowed,
and the result is `0` when the text is not a number or does not fit an `int`. -/
def toInt (s : List Char) : Int :=
  let body (negative : Bool) (ds : List Char) : Int :=
    match parseDigits ds with
    | none => 0
    | some n =>
      let v : Int := if negative then -(n : Int) else (n : Int)
      if INT_MIN ≤ v ∧ v ≤ INT_MAX then v else 0
  match trimmed s with
  | '-' :: ds => body true ds
  | '+' :: ds => body false ds
  | ds => body false ds

/-- Fields of a text split at every occurrence of the separator; empty fields count. -/
def splitFields (sep : Char) : List Char → List (List Char)
  | [] => [[]]
  | c :: cs =>
    if c = sep then [] :: splitFields sep cs
    else
      match splitFields sep cs with
      | [] => [[c]]
      | f :: fs => (c :: f) :: fs

/-- `QString::section(sep, i, i)` with the default flags: field number `i` of the text,
the empty text when there is no such field. -/
def sectionAt (s : List Char) (sep : Char) (i : Nat) : List Char :=
  (splitFields sep s).getD i []

/-- `QString::right(n)`: the last `n` characters. -/
def right (s : List Char) (n : Nat) : List Char :=
  s.drop (s.length - n)

/-- `QString::left(n)`: the first `n` characters. -/
def left (s : List Char) (n : Nat) : List Char :=
  s.take n

/-- `QString::toDouble` for plain decimal notation (sign, digits, optional fraction),
`0` for any other text. The value is kept as an exact decimal; binary rounding and
exponent notation are not modelled. -/
def toDouble (s : List Char) : Rat :=
  let body (negative : Bool) (ds : List Char) : Rat :=
    let ip := ds.takeWhile (fun c => c != '.')
    let fp := (ds.dropWhile (fun c => c != '.')).drop 1
    if ip.isEmpty && fp.isEmpty then 0
    else
      match digitsValue 0 ip, digitsValue 0 fp with
      | some a, some b =>
        let m : Int := (a * 10 ^ fp.length + b : Nat)
        mkRat (if negative then -m else m) (10 ^ fp.length)
      | _, _ => 0
  match trimmed s with
  | '-' :: ds => body true ds
  | '+' :: ds => body false ds
  | ds => body false ds

/-- `QString::compare(other) == 0` with the default case sensitivity. -/
def sameText (a b : String) : Bool :=
  a == b

/-- `QString::compare(other, Qt::CaseInsensitive) == 0`, case folding limited to ASCII. -/
def sameTextCaseInsensitive (a b : String) : Bool :=
  a.data.map Char.toLower == b.data.map Char.toLower

/-! ## Time of day (`QTime`) -/

def NullTime : Int := -1

def MSECS_PER_DAY : Int := 86400000

/-- A `QTime`: milliseconds since midnight, `NullTime` for a null time. -/
structure QTime where
  mds : Int
deriving DecidableEq, Repr

namespace QTime

/-- The default-constructed, null time. -/
def null : QTime := ⟨NullTime⟩

def isValid (t : QTime) : Bool :=
  decide (NullTime < t.mds ∧ t.mds < MSECS_PER_DAY)

/-- `QTime::ds`: the milliseconds, a null time counting as midnight. -/
def ds (t : QTime) : Int :=
  if t.mds = NullTime then 0 else t.mds

/-- `QTime::isValid(h, m, s, ms)`; the casts to unsigned reject negative fields. -/
def isValidHMS (h m s ms : Int) : Bool :=
  decide (0 ≤ h ∧ h < 24 ∧ 0 ≤ m ∧ m < 60 ∧ 0 ≤ s ∧ s < 60 ∧ 0 ≤ ms ∧ ms < 1000)

/-- `QTime::setHMS`: the time becomes null when the fields are not a time of day. -/
def setHMS (h m s ms : Int) : QTime :=
  if isValidHMS h m s ms then ⟨(h * 3600 + m * 60 + s) * 1000 + ms⟩ else ⟨NullTime⟩

/-- `QTime::addMSecs`: wraps around midnight; a time that is not valid gives a null time. -/
def addMSecs (t : QTime) (ms : Int) : QTime :=
  if t.isValid then
    if ms < 0 then
      let negdays := (MSECS_PER_DAY - ms) / MSECS_PER_DAY
      ⟨(t.ds + ms + negdays * MSECS_PER_DAY) % MSECS_PER_DAY⟩
    else
      ⟨(t.ds + ms) % MSECS_PER_DAY⟩
  else null

/-- `QTime::msecsTo`: `0` when either time is not valid. -/
def msecsTo (t u : QTime) : Int :=
  if !t.isValid || !u.isValid then 0 else u.ds - t.ds

/-- `operator>` on `QTime` compares the stored milliseconds. -/
def gt (t u : QTime) : Bool :=
  decide (t.mds > u.mds)

end QTime

/-- Two-complement wrap of an `int` product (overflow is undefined in C++; the usual
machine behaviour is modelled). -/
def wrapInt32 (x : Int) : Int :=
  (x + 2147483648) % 4294967296 - 2147483648

/-! ## Timer (`QTimer`) -/

structure QTimer where
  active : Bool
  interval : Int
deriving DecidableEq, Repr

namespace QTimer

/-- `QTimer::start(msec)`. -/
def startWith (t : QTimer) (msec : Int) : QTimer :=
  { t with active := true, interval := msec }

/-- `QTimer::start()`. -/
def start (t : QTimer) : QTimer :=
  { t with active := true }

/-- `QTimer::stop()`. -/
def stop (t : QTimer) : QTimer :=
  { t with active := false }

def isActive (t : QTimer) : Bool :=
  t.active

end QTimer

/-! ## Geometry (`Point`, `LineSegment`, `QLineF`) -/

inductive SpatialReference
  | wgs84
deriving DecidableEq, Repr

/-- An ArcGIS `Point`: empty when default-constructed, else coordinates with a reference. -/
inductive Point
  | empty
  | xy (x y : Rat) (sr : SpatialReference)
deriving DecidableEq

namespace Point

def isEmpty : Point → Bool
  | empty => true
  | xy _ _ _ => false

end Point

/-- An ArcGIS `LineSegment` through its two end points. -/
structure LineSegment where
  startPoint : Point
  endPoint : Point
deriving DecidableEq

namespace LineSegment

/-- The default-constructed segment. -/
def empty : LineSegment := ⟨Point.empty, Point.empty⟩

/-- `LineSegment(start, end, spatialReference)`. -/
def ofPoints (p q : Point) (sr : SpatialReference) : LineSegment := ⟨p, q⟩

end LineSegment

structure QLineF where
  x1 : Rat
  y1 : Rat
  x2 : Rat
  y2 : Rat
deriving DecidableEq

/-- A `double` heading. The trigonometry of `QLineF::angleTo` is not evaluated: a heading
is either the literal `0` or the angle from the line through a segment to a reference line. -/
inductive Heading
  | zero
  | angleTo (segment : LineSegment) (reference : QLineF)
deriving DecidableEq

/-- The `double` quotient `val1 / val2` of two millisecond counts. Both counts are below
`2^27` in size, so they are exact as doubles and the rounded quotient compares with `0.5`,
`0.1` and `0.9` as the exact quotient does; a zero divisor gives an infinity or NaN. -/
structure NormalizedTime where
  val1 : Int
  val2 : Int
deriving DecidableEq, Repr

namespace NormalizedTime

/-- Test `val1 / val2 <= a / b` for a positive `b`; false for `+inf` and NaN. -/
def le (n : NormalizedTime) (a b : Int) : Bool :=
  if 0 < n.val2 then decide (n.val1 * b ≤ a * n.val2)
  else if n.val2 < 0 then decide (a * n.val2 ≤ n.val1 * b)
  else decide (n.val1 < 0)

/-- Test `val1 / val2 < a / b` for a positive `b`; false for `+inf` and NaN. -/
def lt (n : NormalizedTime) (a b : Int) : Bool :=
  if 0 < n.val2 then decide (n.val1 * b < a * n.val2)
  else if n.val2 < 0 then decide (a * n.val2 < n.val1 * b)
  else decide (n.val1 < 0)

/-- Test `val1 / val2 > a / b` for a positive `b`; false for `-inf` and NaN. -/
def gt (n : NormalizedTime) (a b : Int) : Bool :=
  if 0 < n.val2 then decide (a * n.val2 < n.val1 * b)
  else if n.val2 < 0 then decide (n.val1 * b < a * n.val2)
  else decide (0 < n.val1)

end NormalizedTime

/-- Payload of the `positionUpdateAvailable` signal. -/
structure PositionUpdate where
  position : Point
  orientation : Heading
deriving DecidableEq

/-! ## XML stream reader (`QXmlStreamReader`) -/

/-- A token the reader delivers from inside a document. -/
inductive Token
  | StartDocument
  | StartElement (name : String) (attributes : List (String × String))
  | EndElement (name : String)
  | Characters (text : String)
  | Comment (text : String)
  | DTD (text : String)
  | EntityReference (name : String) (text : String)
  | ProcessingInstruction (target : String) (data : String)
deriving DecidableEq, Repr

/-- Buffered file contents (`QByteArray`), held as the token sequence the reader delivers
for them. `complete` tells whether the document ends well-formed (the reader then reports
`EndDocument`) or breaks off (the reader then reports `Invalid`). -/
structure Document where
  tokens : List Token
  complete : Bool
deriving DecidableEq, Repr

/-- What the reader is positioned on. -/
inductive Current
  | NoToken
  | Invalid
  | EndDocument
  | token (t : Token)
deriving DecidableEq, Repr

/-- A `QXmlStreamReader`: the current token and the tokens of the added data not read yet. -/
structure QXmlStreamReader where
  current : Current
  pending : List Token
  complete : Bool
deriving DecidableEq, Repr

/-- `QXmlStreamAttributes::value(name)`: the empty text when the attribute is absent. -/
def attributeValue : List (String × String) → String → String
  | [], _ => ""
  | (k, v) :: rest, key => if k = key then v else attributeValue rest key

namespace QXmlStreamReader

/-- `clear()` followed by `addData(data)`: positioned before the first token of the data. -/
def clearAndAddData (data : Document) : QXmlStreamReader :=
  ⟨Current.NoToken, data.tokens, data.complete⟩

def atEnd (r : QXmlStreamReader) : Bool :=
  match r.current with
  | Current.Invalid => true
  | Current.EndDocument => true
  | _ => false

def hasError (r : QXmlStreamReader) : Bool :=
  match r.current with
  | Current.Invalid => true
  | _ => false

def isStartElement (r : QXmlStreamReader) : Bool :=
  match r.current with
  | Current.token (Token.StartElement _ _) => true
  | _ => false

def isEndElement (r : QXmlStreamReader) : Bool :=
  match r.current with
  | Current.token (Token.EndElement _) => true
  | _ => false

/-- `name()`: the local name of a start element, end element or entity reference. -/
def name (r : QXmlStreamReader) : String :=
  match r.current with
  | Current.token (Token.StartElement n _) => n
  | Current.token (Token.EndElement n) => n
  | Current.token (Token.EntityReference n _) => n
  | _ => ""

def attributes (r : QXmlStreamReader) : List (String × String) :=
  match r.current with
  | Current.token (Token.StartElement _ a) => a
  | _ => []

/-- `raiseError`: the reader becomes `Invalid` and stays so. -/
def raiseError (r : QXmlStreamReader) : QXmlStreamReader :=
  { r with current := Current.Invalid }

/-- `readNext()`: an invalid reader stays invalid; past the last token the reader reports
`EndDocument` for a complete document and `Invalid` otherwise. -/
def readNext (r : QXmlStreamReader) : QXmlStreamReader :=
  match r.current with
  | Current.Invalid => r
  | Current.EndDocument => { r with current := Current.Invalid }
  | _ =>
    match r.pending with
    | [] => { r with current := if r.complete then Current.EndDocument else Current.Invalid }
    | t :: ts => { r with current := Current.token t, pending := ts }

/-- Loop of `readNextStartElement()`. -/
def readNextStartElementLoop : Nat → QXmlStreamReader → Bool × QXmlStreamReader
  | 0, r => (false, r)
  | fuel + 1, r =>
    let r := r.readNext
    if r.current = Current.Invalid then (false, r)
    else if r.isEndElement then (false, r)
    else if r.isStartElement then (true, r)
    else readNextStartElementLoop fuel r

/-- `readNextStartElement()`: reads on to the next start element; stops with `false` on an
end element or at the end. The loop runs at most once per pending token and twice more. -/
def readNextStartElement (r : QXmlStreamReader) : Bool × QXmlStreamReader :=
  readNextStartElementLoop (r.pending.length + 2) r

/-- Loop of `readElementText()` with the default `ErrorOnUnexpectedElement` behaviour. -/
def readElementTextLoop : Nat → QXmlStreamReader → String → String × QXmlStreamReader
  | 0, r, result => (result, r)
  | fuel + 1, r, result =>
    let r := r.readNext
    match r.current with
    | Current.token (Token.Characters t) => readElementTextLoop fuel r (result ++ t)
    | Current.token (Token.EntityReference _ t) => readElementTextLoop fuel r (result ++ t)
    | Current.token (Token.EndElement _) => (result, r)
    | Current.token (Token.ProcessingInstruction _ _) => readElementTextLoop fuel r result
    | Current.token (Token.Comment _) => readElementTextLoop fuel r result
    | _ => (result, r.raiseError)

/-- `readElementText()`: on a start element, the text up to the next end element; any
other token in between raises an error. The loop runs at most once per pending token and
once more. -/
def readElementText (r : QXmlStreamReader) : String × QXmlStreamReader :=
  if r.isStartElement then readElementTextLoop (r.pending.length + 1) r "" else ("", r)

end QXmlStreamReader

/-! ## Files (`QFile`) -/

/-- The files the simulator can see: which paths exist, and the contents of those that
can be opened for reading. -/
structure FileSystem where
  fileExists : String → Bool
  readable : String → Option Document

structure QFile where
  fileName : String
  isOpen : Bool
deriving DecidableEq, Repr

/-! ## The simulator state -/

structure GPSSimulator where
  m_gpxFile : QFile
  m_gpxData : Document
  m_gpxReader : QXmlStreamReader
  m_timer : QTimer
  m_timerInterval : Int
  m_playbackMultiplier : Int
  m_currentSegment : LineSegment
  m_nextSegment : LineSegment
  m_latestPoint : Point
  m_startHeadingDelta : Heading
  m_endHeadingDelta : Heading
  m_currentTime : QTime
  m_segmentStartTime : QTime
  m_segmentEndTime : QTime
  m_nextSegmentEndTime : QTime
  m_isStarted : Bool
  m_angleOffset : QLineF
deriving DecidableEq

namespace GPSSimulator

/-- Loop of `gotoNextPositionElement`. -/
def gotoNextPositionElementLoop : Nat → QXmlStreamReader → Bool × QXmlStreamReader
  | 0, r => (false, r)
  | fuel + 1, r =>
    if !r.atEnd && !r.hasError then
      if r.isStartElement && sameText r.name "trkpt" then (true, r)
      else gotoNextPositionElementLoop fuel r.readNext
    else (false, r)

/-- `gotoNextPositionElement`: reads on until the reader is on a `trkpt` start element.
Only the reader is touched. The loop tests the reader at most once per pending token and
twice more. -/
def gotoNextPositionElement (r : QXmlStreamReader) : Bool × QXmlStreamReader :=
  gotoNextPositionElementLoop (r.pending.length + 2) r

/-- The text of a `time` element turned into a time of day, as `getNextPoint` does it. -/
def parseTimeString (timeString : List Char) : QTime :=
  let hours := toInt (right (sectionAt timeString ':' 0) 2)
  let minutes := toInt (sectionAt timeString ':' 1)
  let seconds := toInt (left (sectionAt timeString ':' 2) 2)
  QTime.setHMS hours minutes seconds 0

/-- One pass through the body of the `while` loop of `getNextPoint`, up to its closing
`readNext`: an `ele` start element is ignored, a `time` start element sets the time. -/
def timeElementStep (r : QXmlStreamReader) (time : QTime) : QTime × QXmlStreamReader :=
  if r.isStartElement then
    if sameTextCaseInsensitive r.name "ele" then (time, r)
    else if sameTextCaseInsensitive r.name "time" then
      let res := r.readElementText
      (parseTimeString res.1.data, res.2)
    else (time, r)
  else (time, r)

/-- The `while` loop of `getNextPoint` that looks for the `time` child element. -/
def timeElementLoop : Nat → QXmlStreamReader → QTime → QTime × QXmlStreamReader
  | 0, r, time => (time, r)
  | fuel + 1, r, time =>
    if !sameTextCaseInsensitive r.name "trkpt" && !r.atEnd then
      let body := timeElementStep r time
      timeElementLoop fuel body.2.readNext body.1
    else (time, r)

/-- Body of `getNextPoint` on the two members it uses, `m_latestPoint` (read) and
`m_gpxReader` (read and advanced); the fuel bounds the recursion on a discarded point. -/
def getNextPointRec (latestPoint : Point) :
    Nat → QXmlStreamReader → QTime → Point × QTime × QXmlStreamReader
  | 0, r, time => (Point.empty, time, r)
  | fuel + 1, r, time =>
    let found := gotoNextPositionElement r
    if !found.1 then (Point.empty, time, found.2)
    else
      let r := found.2
      let attrs := r.attributes
      let x := toDouble (attributeValue attrs "lon").data
      let y := toDouble (attributeValue attrs "lat").data
      let point := Point.xy x y SpatialReference.wgs84
      if point = latestPoint then
        getNextPointRec latestPoint fuel r.readNext time
      else
        let r := r.readNextStartElement.2
        let res := timeElementLoop (r.pending.length + 2) r time
        (point, res.1, res.2)

/-- `getNextPoint(QTime&)`: the next point of the log, the updated time argument and the
state with the advanced reader. Each recursive call follows a `readNext`, so one call per
pending token and two more suffice. -/
def getNextPoint (s : GPSSimulator) (time : QTime) : Point × QTime × GPSSimulator :=
  let res := getNextPointRec s.m_latestPoint (s.m_gpxReader.pending.length + 2) s.m_gpxReader time
  (res.1, res.2.1, { s with m_gpxReader := res.2.2 })

/-- `heading`: the angle from the line through the segment to `m_angleOffset`. -/
def heading (s : GPSSimulator) (segment : LineSegment) : Heading :=
  Heading.angleTo segment s.m_angleOffset

def initializeInterpolationValues (s : GPSSimulator) : Bool × GPSSimulator :=
  let r1 := getNextPoint s s.m_segmentStartTime
  let pt1 := r1.1
  let s := { r1.2.2 with m_segmentStartTime := r1.2.1 }
  let r2 := getNextPoint s s.m_segmentEndTime
  let pt2 := r2.1
  let s := { r2.2.2 with m_segmentEndTime := r2.2.1 }
  let r3 := getNextPoint s s.m_nextSegmentEndTime
  let pt3 := r3.1
  let s := { r3.2.2 with m_nextSegmentEndTime := r3.2.1 }
  if pt1.isEmpty || pt2.isEmpty || pt3.isEmpty then (false, s)
  else
    let s := { s with m_currentSegment := LineSegment.ofPoints pt1 pt2 SpatialReference.wgs84 }
    let s := { s with m_nextSegment := LineSegment.ofPoints pt2 pt3 SpatialReference.wgs84 }
    let s := { s with m_startHeadingDelta := Heading.zero }
    let s := { s with m_endHeadingDelta := heading s s.m_currentSegment }
    let s := { s with m_currentTime := s.m_segmentStartTime }
    (true, s)

def startSimulation (s : GPSSimulator) : GPSSimulator :=
  let res := initializeInterpolationValues s
  if !res.1 then res.2
  else
    let s := res.2
    let s := { s with m_timer := s.m_timer.startWith s.m_timerInterval }
    { s with m_isStarted := true }

def pauseSimulation (s : GPSSimulator) : GPSSimulator :=
  { s with m_timer := s.m_timer.stop }

def resumeSimulation (s : GPSSimulator) : GPSSimulator :=
  { s with m_timer := s.m_timer.start }

def isActive (s : GPSSimulator) : Bool :=
  s.m_timer.isActive

def isStarted (s : GPSSimulator) : Bool :=
  s.m_isStarted

/-- `getInterpolatedOrientation`: the three branches of the source. The segment the source
builds from `currentPosition` in the first two branches is never read. -/
def getInterpolatedOrientation (s : GPSSimulator) (currentPosition : Point)
    (normalizedTime : NormalizedTime) : Heading :=
  if normalizedTime.lt 1 10 then
    heading s s.m_currentSegment
  else if normalizedTime.gt 9 10 then
    heading s s.m_currentSegment
  else
    heading s s.m_currentSegment

def updateInterpolationParameters (s : GPSSimulator) : Bool × GPSSimulator :=
  let s := { s with m_segmentStartTime := s.m_segmentEndTime }
  let s := { s with m_segmentEndTime := s.m_nextSegmentEndTime }
  let res := getNextPoint s s.m_nextSegmentEndTime
  let newPt := res.1
  let s := { res.2.2 with m_nextSegmentEndTime := res.2.1 }
  if newPt.isEmpty then (false, s)
  else
    let s := { s with m_currentSegment := s.m_nextSegment }
    let s := { s with m_nextSegment :=
      LineSegment.ofPoints s.m_currentSegment.endPoint newPt SpatialReference.wgs84 }
    let s := { s with m_startHeadingDelta := s.m_endHeadingDelta }
    let s := { s with m_endHeadingDelta := heading s s.m_currentSegment }
    (true, s)

/-- The clock advance that opens `handleTimerEvent`. -/
def advanceClock (s : GPSSimulator) : GPSSimulator :=
  { s with m_currentTime :=
      s.m_currentTime.addMSecs (wrapInt32 (s.m_timer.interval * s.m_playbackMultiplier)) }

/-- The slot `handleTimerEvent`: the new state and the `positionUpdateAvailable` events
emitted by this call. -/
def handleTimerEvent (s : GPSSimulator) : GPSSimulator × List PositionUpdate :=
  let s := advanceClock s
  let upd :=
    if s.m_currentTime.gt s.m_segmentEndTime then updateInterpolationParameters s
    else (true, s)
  if !upd.1 then
    let s := upd.2
    let s := { s with m_gpxReader := QXmlStreamReader.clearAndAddData s.m_gpxData }
    ((initializeInterpolationValues s).2, [])
  else
    let s := upd.2
    let val1 := s.m_segmentStartTime.msecsTo s.m_currentTime
    let val2 := s.m_segmentStartTime.msecsTo s.m_segmentEndTime
    let normalizedTime : NormalizedTime := ⟨val1, val2⟩
    let currentPosition :=
      if normalizedTime.le 1 2 then s.m_currentSegment.startPoint
      else s.m_currentSegment.endPoint
    let currentOrientation := getInterpolatedOrientation s currentPosition normalizedTime
    (s, [⟨currentPosition, currentOrientation⟩])

def gpxFile (s : GPSSimulator) : String :=
  s.m_gpxFile.fileName

def setGpxFile (fs : FileSystem) (s : GPSSimulator) (fileName : String) :
    Bool × GPSSimulator :=
  if !fs.fileExists fileName then (false, s)
  else
    let s := if s.m_gpxFile.isOpen then { s with m_gpxFile := { s.m_gpxFile with isOpen := false } }
             else s
    let s := { s with m_gpxFile := { s.m_gpxFile with fileName := fileName } }
    match fs.readable fileName with
    | none => (false, s)
    | some contents =>
      let s := { s with m_gpxFile := { s.m_gpxFile with isOpen := true } }
      let s := { s with m_gpxData := contents }
      let s := { s with m_gpxReader := QXmlStreamReader.clearAndAddData s.m_gpxData }
      let s := { s with m_gpxFile := { s.m_gpxFile with isOpen := false } }
      let s := { s with m_isStarted := false }
      (true, s)

def timerInterval (s : GPSSimulator) : Int :=
  s.m_timerInterval

def setTimerInterval (s : GPSSimulator) (ms : Int) : GPSSimulator :=
  { s with m_timerInterval := ms }

def playbackMultiplier (s : GPSSimulator) : Int :=
  s.m_playbackMultiplier

def setPlaybackMultiplier (s : GPSSimulator) (val : Int) : GPSSimulator :=
  { s with m_playbackMultiplier := val }

/-- The default constructor. The header with the in-class initialisers is not part of the
sources, so the initial interval and multiplier are parameters; members the constructor
does not name are default-constructed (`m_latestPoint` is the empty point, the times are
null), and no member function assigns `m_latestPoint` afterwards. -/
def create (timerInterval playbackMultiplier : Int) : GPSSimulator :=
  { m_gpxFile := ⟨"", false⟩
    m_gpxData := ⟨[], false⟩
    m_gpxReader := ⟨Current.NoToken, [], false⟩
    m_timer := ⟨false, 0⟩
    m_timerInterval := timerInterval
    m_playbackMultiplier := playbackMultiplier
    m_currentSegment := LineSegment.empty
    m_nextSegment := LineSegment.empty
    m_latestPoint := Point.empty
    m_startHeadingDelta := Heading.zero
    m_endHeadingDelta := Heading.zero
    m_currentTime := QTime.null
    m_segmentStartTime := QTime.null
    m_segmentEndTime := QTime.null
    m_nextSegmentEndTime := QTime.null
    m_isStarted := false
    m_angleOffset := ⟨-180, 0, 180, 0⟩ }

/-- Repeated ticks, collecting the emitted events in order. -/
def runTicks : Nat → GPSSimulator → GPSSimulator × List PositionUpdate
  | 0, s => (s, [])
  | n + 1, s =>
    let first := handleTimerEvent s
    let others := runTicks n first.1
    (others.1, first.2 ++ others.2)

end GPSSimulator

/-! ## Vocabulary of the statements -/

/-- A `trkpt` start element: what `gotoNextPositionElement` stops on. -/
def Token.isTrkpt : Token → Bool
  | Token.StartElement n _ => sameText n "trkpt"
  | _ => false

/-- A `time` start element: what makes `getNextPoint` read a time text. -/
def Token.isTimeStart : Token → Bool
  | Token.StartElement n _ => sameTextCaseInsensitive n "time"
  | _ => false

/-- The name `QXmlStreamReader::name()` reports on a token. -/
def Token.name : Token → String
  | Token.StartElement n _ => n
  | Token.EndElement n => n
  | Token.EntityReference n _ => n
  | _ => ""

/-- A token named `trkpt` in any letter case: what ends the search for the time element. -/
def Token.namedTrkpt (t : Token) : Bool :=
  sameTextCaseInsensitive t.name "trkpt"

/-- Number of point records (`trkpt` start elements) among the tokens. -/
def pointRecords (l : List Token) : Nat :=
  l.countP Token.isTrkpt

/-- The tokens directly after a start element are character data, entity references,
comments or processing instructions up to an end element: `readElementText` succeeds. -/
def textTerminated : List Token → Bool
  | [] => false
  | Token.EndElement _ :: _ => true
  | Token.Characters _ :: ts => textTerminated ts
  | Token.EntityReference _ _ :: ts => textTerminated ts
  | Token.Comment _ :: ts => textTerminated ts
  | Token.ProcessingInstruction _ _ :: ts => textTerminated ts
  | _ :: _ => false

/-- Every `time` start element among the tokens holds text only. -/
def timesAreText : List Token → Bool
  | [] => true
  | t :: ts => (!t.isTimeStart || textTerminated ts) && timesAreText ts

/-- The tokens the reader is on or has still to read. -/
def QXmlStreamReader.stream (r : QXmlStreamReader) : List Token :=
  match r.current with
  | Current.token t => t :: r.pending
  | _ => r.pending

/-- Point records the reader is on or has still to read. -/
def QXmlStreamReader.remaining (r : QXmlStreamReader) : Nat :=
  pointRecords r.stream

/-- The reader is on a `trkpt` start element. -/
def QXmlStreamReader.onPointRecord (r : QXmlStreamReader) : Bool :=
  r.isStartElement && sameText r.name "trkpt"

/-- A reader that is at its end has no point record left unread: it stopped at the end
of the data, not on an error raised in the middle. -/
def QXmlStreamReader.sound (r : QXmlStreamReader) : Bool :=
  !r.atEnd || pointRecords r.pending == 0

/-- What `getNextPoint` relies on to read on without an error: the reader did not stop
in the middle of the data, and every `time` element ahead holds text only. -/
def QXmlStreamReader.textTimes (r : QXmlStreamReader) : Bool :=
  r.sound && timesAreText r.stream

namespace GPSSimulator

/-- The first fetch of `initializeInterpolationValues`, on the members it uses. -/
def fetch1 (s : GPSSimulator) : Point × QTime × QXmlStreamReader :=
  getNextPointRec s.m_latestPoint (s.m_gpxReader.pending.length + 2) s.m_gpxReader
    s.m_segmentStartTime

/-- The second fetch, from where the first left the reader. -/
def fetch2 (s : GPSSimulator) : Point × QTime × QXmlStreamReader :=
  getNextPointRec s.m_latestPoint ((fetch1 s).2.2.pending.length + 2) (fetch1 s).2.2
    s.m_segmentEndTime

/-- The third fetch, from where the second left the reader. -/
def fetch3 (s : GPSSimulator) : Point × QTime × QXmlStreamReader :=
  getNextPointRec s.m_latestPoint ((fetch2 s).2.2.pending.length + 2) (fetch2 s).2.2
    s.m_nextSegmentEndTime

end GPSSimulator

/-- The interpolation window of §3 of the specification. -/
structure InterpolationWindow where
  currentSegment : LineSegment
  nextSegment : LineSegment
  segmentStartTime : QTime
  segmentEndTime : QTime
  nextSegmentEndTime : QTime
  startHeadingDelta : Heading
  endHeadingDelta : Heading
deriving DecidableEq

namespace GPSSimulator

def window (s : GPSSimulator) : InterpolationWindow :=
  { currentSegment := s.m_currentSegment
    nextSegment := s.m_nextSegment
    segmentStartTime := s.m_segmentStartTime
    segmentEndTime := s.m_segmentEndTime
    nextSegmentEndTime := s.m_nextSegmentEndTime
    startHeadingDelta := s.m_startHeadingDelta
    endHeadingDelta := s.m_endHeadingDelta }

/-- The tick triggers a loop restart: the advanced clock is past `m_segmentEndTime` and
`updateInterpolationParameters` fails. -/
def loopRestart (s : GPSSimulator) : Bool :=
  (advanceClock s).m_currentTime.gt (advanceClock s).m_segmentEndTime &&
    !(updateInterpolationParameters (advanceClock s)).1

/-- The state `handleTimerEvent` hands to `initializeInterpolationValues` on a loop
restart: the window already shifted by the failed update, the reader rewound. -/
def rewound (s : GPSSimulator) : GPSSimulator :=
  { (updateInterpolationParameters (advanceClock s)).2 with
      m_gpxReader := QXmlStreamReader.clearAndAddData s.m_gpxData }

/-- The state with its three window times reset to null. -/
def withNullTimes (s : GPSSimulator) : GPSSimulator :=
  { s with m_segmentStartTime := QTime.null, m_segmentEndTime := QTime.null,
           m_nextSegmentEndTime := QTime.null }

/-- Each of the first three point records carries a time text that reads as a valid time
of day: initialising from null times leaves three valid window times. -/
def readsThreeTimes (s : GPSSimulator) : Bool :=
  (initializeInterpolationValues (withNullTimes s)).2.m_segmentStartTime.isValid &&
  (initializeInterpolationValues (withNullTimes s)).2.m_segmentEndTime.isValid &&
  (initializeInterpolationValues (withNullTimes s)).2.m_nextSegmentEndTime.isValid

end GPSSimulator

/-- The members no tick writes: file, buffered data, timer, interval, multiplier,
`m_latestPoint`, started flag and reference line. -/
def sameSetup (a b : GPSSimulator) : Prop :=
  a.m_gpxFile = b.m_gpxFile ∧ a.m_gpxData = b.m_gpxData ∧ a.m_timer = b.m_timer ∧
  a.m_timerInterval = b.m_timerInterval ∧ a.m_playbackMultiplier = b.m_playbackMultiplier ∧
  a.m_latestPoint = b.m_latestPoint ∧ a.m_isStarted = b.m_isStarted ∧
  a.m_angleOffset = b.m_angleOffset

/-! ## Example logs -/

/-- A point record with its time child: `<trkpt lat lon><time>text</time></trkpt>`. -/
def trackPoint (lon lat time : String) : List Token :=
  [Token.StartElement "trkpt" [("lat", lat), ("lon", lon)],
   Token.StartElement "time" [], Token.Characters time, Token.EndElement "time",
   Token.EndElement "trkpt"]

/-- A point record without children: `<trkpt lat lon/>`. -/
def bareTrackPoint (lon lat : String) : List Token :=
  [Token.StartElement "trkpt" [("lat", lat), ("lon", lon)], Token.EndElement "trkpt"]

/-- A complete GPX document around the given track content. -/
def gpxDocument (content : List Token) : Document :=
  ⟨[Token.StartDocument, Token.StartElement "gpx" [], Token.StartElement "trk" [],
    Token.StartElement "trkseg" []] ++ content ++
   [Token.EndElement "trkseg", Token.EndElement "trk", Token.EndElement "gpx"], true⟩

def pointA : Point := Point.xy 4 52 SpatialReference.wgs84

def pointB : Point := Point.xy 5 53 SpatialReference.wgs84

def pointC : Point := Point.xy 6 54 SpatialReference.wgs84

/-- The log of the specification examples: A at 0 s, B at 10 s, C at 20 s. -/
def exampleLog : Document :=
  gpxDocument (trackPoint "4.0" "52.0" "2017-01-01T00:00:00Z" ++
    trackPoint "5.0" "53.0" "2017-01-01T00:00:10Z" ++
    trackPoint "6.0" "54.0" "2017-01-01T00:00:20Z")

/-- One readable track, one file that exists but cannot be opened; no other path exists. -/
def exampleFiles : FileSystem :=
  { fileExists := fun p => p == "track.gpx" || p == "locked.gpx"
    readable := fun p => if p == "track.gpx" then some exampleLog else none }

/-- A simulator with the example track set as its source. -/
def exampleSimulator (timerInterval playbackMultiplier : Int) : GPSSimulator :=
  (GPSSimulator.setGpxFile exampleFiles
    (GPSSimulator.create timerInterval playbackMultiplier) "track.gpx").2

/-- A simulator created with a 1000 ms interval and multiplier 1 whose buffered data and
reader hold the given document. -/
def simulatorOn (log : Document) : GPSSimulator :=
  { GPSSimulator.create 1000 1 with
      m_gpxFile := ⟨"track.gpx", false⟩
      m_gpxData := log
      m_gpxReader := QXmlStreamReader.clearAndAddData log }

/-- Three point records, the `time` element of the first holding a child element. -/
def nestedTimeLog : Document :=
  gpxDocument ([Token.StartElement "trkpt" [("lat", "52.0"), ("lon", "4.0")],
      Token.StartElement "time" [], Token.StartElement "b" [], Token.EndElement "b",
      Token.EndElement "time", Token.EndElement "trkpt"] ++
    trackPoint "5.0" "53.0" "2017-01-01T00:00:10Z" ++
    trackPoint "6.0" "54.0" "2017-01-01T00:00:20Z")

/-- A log that crosses midnight: A at 23:59:50, B at 23:59:59, C at 00:00:05. -/
def midnightLog : Document :=
  gpxDocument (trackPoint "4.0" "52.0" "2017-01-01T23:59:50Z" ++
    trackPoint "5.0" "53.0" "2017-01-01T23:59:59Z" ++
    trackPoint "6.0" "54.0" "2017-01-02T00:00:05Z")

/-- A, A again, B, C: two consecutive records with identical longitude and latitude. -/
def duplicateLog : Document :=
  gpxDocument (trackPoint "4.0" "52.0" "2017-01-01T00:00:00Z" ++
    trackPoint "4.0" "52.0" "2017-01-01T00:00:05Z" ++
    trackPoint "5.0" "53.0" "2017-01-01T00:00:10Z" ++
    trackPoint "6.0" "54.0" "2017-01-01T00:00:20Z")

/-- The log `duplicateLog` with the duplicate record removed. -/
def dedupedLog : Document :=
  gpxDocument (trackPoint "4.0" "52.0" "2017-01-01T00:00:00Z" ++
    trackPoint "5.0" "53.0" "2017-01-01T00:00:10Z" ++
    trackPoint "6.0" "54.0" "2017-01-01T00:00:20Z")

/-- A at 0 s, B without a time element, C at 20 s. -/
def missingTimeLog : Document :=
  gpxDocument (trackPoint "4.0" "52.0" "2017-01-01T00:00:00Z" ++
    bareTrackPoint "5.0" "53.0" ++
    trackPoint "6.0" "54.0" "2017-01-01T00:00:20Z")

/-- The clock values over the first ten ticks of the example, multiplier 2, interval 500. -/
def exampleClock : List Int :=
  (List.range 11).map
    (fun n => (GPSSimulator.runTicks n (GPSSimulator.startSimulation (exampleSimulator 500 2))).1.m_currentTime.mds)

/-- A log with two point records only. -/
def twoPointLog : Document :=
  gpxDocument (trackPoint "4.0" "52.0" "2017-01-01T00:00:00Z" ++
    trackPoint "5.0" "53.0" "2017-01-01T00:00:10Z")

namespace GPSSimulator

/-- The fetch of `updateInterpolationParameters`, on the members it uses. -/
def fetchNext (s : GPSSimulator) : Point × QTime × QXmlStreamReader :=
  getNextPointRec s.m_latestPoint (s.m_gpxReader.pending.length + 2) s.m_gpxReader
    s.m_nextSegmentEndTime

/-- The states reached after a successful `initializeInterpolationValues` by ticks and
successful `updateInterpolationParameters` calls, in any order. -/
inductive Running : GPSSimulator → Prop
  | initialized (s : GPSSimulator) (hok : (initializeInterpolationValues s).1 = true) :
      Running (initializeInterpolationValues s).2
  | ticked (s : GPSSimulator) (hs : Running s) : Running (handleTimerEvent s).1
  | updated (s : GPSSimulator) (hs : Running s)
      (hok : (updateInterpolationParameters s).1 = true) :
      Running (updateInterpolationParameters s).2

end GPSSimulator

def pointD : Point := Point.xy 7 55 SpatialReference.wgs84

/-- A at 0 s, B at 10 s, C at 20 s, D at 30 s. -/
def fourPointLog : Document :=
  gpxDocument (trackPoint "4.0" "52.0" "2017-01-01T00:00:00Z" ++
    trackPoint "5.0" "53.0" "2017-01-01T00:00:10Z" ++
    trackPoint "6.0" "54.0" "2017-01-01T00:00:20Z" ++
    trackPoint "7.0" "55.0" "2017-01-01T00:00:30Z")

namespace GPSSimulator

/-- The three window times are valid times of day in strictly increasing order. -/
def timesIncreasing (s : GPSSimulator) : Bool :=
  s.m_segmentStartTime.isValid && s.m_segmentEndTime.isValid &&
  s.m_nextSegmentEndTime.isValid &&
  decide (s.m_segmentStartTime.mds < s.m_segmentEndTime.mds) &&
  decide (s.m_segmentEndTime.mds < s.m_nextSegmentEndTime.mds)

/-- The states reached after a successful `initializeInterpolationValues` by successful
`updateInterpolationParameters` calls, every fetched time being a valid time of day later
than the time fetched before it. -/
inductive AdvancedInOrder : GPSSimulator → Prop
  | initialized (s : GPSSimulator) (hok : (initializeInterpolationValues s).1 = true)
      (h1 : (fetch1 s).2.1.isValid = true) (h2 : (fetch2 s).2.1.isValid = true)
      (h3 : (fetch3 s).2.1.isValid = true)
      (h12 : (fetch1 s).2.1.mds < (fetch2 s).2.1.mds)
      (h23 : (fetch2 s).2.1.mds < (fetch3 s).2.1.mds) :
      AdvancedInOrder (initializeInterpolationValues s).2
  | updated (s : GPSSimulator) (hs : AdvancedInOrder s)
      (hok : (updateInterpolationParameters s).1 = true)
      (hv : (fetchNext s).2.1.isValid = true)
      (hlt : s.m_nextSegmentEndTime.mds < (fetchNext s).2.1.mds) :
      AdvancedInOrder (updateInterpolationParameters s).2

end GPSSimulator

/-- A and B both at 00:00:00, C at 00:00:10. -/
def sameTimeLog : Document :=
  gpxDocument (trackPoint "4.0" "52.0" "2017-01-01T00:00:00Z" ++
    trackPoint "5.0" "53.0" "2017-01-01T00:00:00Z" ++
    trackPoint "6.0" "54.0" "2017-01-01T00:00:10Z")

/-- The value of a decimal digit character. -/
def digit (c : Char) : Nat :=
  c.toNat - 48

namespace GPSSimulator

/-- The normalized time `handleTimerEvent` computes in the state it emits from: the
quotient of `m_segmentStartTime.msecsTo(m_currentTime)` and
`m_segmentStartTime.msecsTo(m_segmentEndTime)`. -/
def normalizedTime (s : GPSSimulator) : NormalizedTime :=
  ⟨s.m_segmentStartTime.msecsTo s.m_currentTime,
   s.m_segmentStartTime.msecsTo s.m_segmentEndTime⟩

end GPSSimulator

/-- The four-point log played at 25 times the speed: 25 s of log per tick of 1000 ms. -/
def fastSimulator : GPSSimulator :=
  GPSSimulator.setPlaybackMultiplier (simulatorOn fourPointLog) 25

/-- The simulator on `nestedTimeLog` after one `getNextPoint`: the nested element in the
first `time` element has put the reader in its error state. -/
def erroredSimulator : GPSSimulator :=
  (GPSSimulator.getNextPoint (simulatorOn nestedTimeLog) QTime.null).2.2

/-- The point `getNextPoint` builds on a `trkpt` start element, from its `lon` and `lat`
attributes. -/
def Token.pointOf : Token → Option Point
  | Token.StartElement n attrs =>
    if sameText n "trkpt" then
      some (Point.xy (toDouble (attributeValue attrs "lon").data)
        (toDouble (attributeValue attrs "lat").data) SpatialReference.wgs84)
    else none
  | _ => none

/-- The points of the point records among the tokens, in the order of the log. -/
def logPoints (l : List Token) : List Point :=
  l.filterMap Token.pointOf

/-- The points of the point records the reader can still deliver: none once it is at its
end or in its error state. -/
def QXmlStreamReader.ahead (r : QXmlStreamReader) : List Point :=
  if r.atEnd then [] else logPoints r.stream

namespace GPSSimulator

/-- The window sits on three consecutive points `a`, `b`, `c` of the points `P` of a log:
the current segment joins `a` and `b`, the next segment `b` and `c`, and the points after
`c` are those still ahead of the reader, unless the reader ran into an error. -/
def OnLog (P : List Point) (s : GPSSimulator) : Prop :=
  ∃ (pre : List Point) (a b c : Point) (rest : List Point),
    P = pre ++ a :: b :: c :: rest ∧
    s.m_currentSegment = ⟨a, b⟩ ∧ s.m_nextSegment = ⟨b, c⟩ ∧
    (s.m_gpxReader.ahead = rest ∨ s.m_gpxReader.ahead = [])

end GPSSimulator

/-- C2: for every simulator state and every path that does not exist, `setGpxFile`
returns false and leaves the whole state unchanged. -/
theorem setGpxFile_missing_path (fs : FileSystem) (s : GPSSimulator) (path : String)
    (h : fs.fileExists path = false) :
    GPSSimulator.setGpxFile fs s path = (false, s) := by
  simp [GPSSimulator.setGpxFile, h]

/-- C2, the specification example: `missing.log` after a valid source was set. -/
theorem setGpxFile_missing_path_witness :
    exampleFiles.fileExists "missing.log" = false ∧
    GPSSimulator.setGpxFile exampleFiles (exampleSimulator 1000 1) "missing.log"
      = (false, exampleSimulator 1000 1) :=
  ⟨by decide, setGpxFile_missing_path exampleFiles (exampleSimulator 1000 1) "missing.log"
    (by decide)⟩

/-- C3 as stated fails: with `track.gpx` configured, `setGpxFile "locked.gpx"` (a path that
exists but cannot be opened) returns false, yet `gpxFile` then reports `locked.gpx`. -/
theorem setGpxFile_unreadable_changes_name :
    exampleFiles.fileExists "locked.gpx" = true ∧
    exampleFiles.readable "locked.gpx" = none ∧
    GPSSimulator.gpxFile (exampleSimulator 1000 1) = "track.gpx" ∧
    (GPSSimulator.setGpxFile exampleFiles (exampleSimulator 1000 1) "locked.gpx").1 = false ∧
    GPSSimulator.gpxFile
      (GPSSimulator.setGpxFile exampleFiles (exampleSimulator 1000 1) "locked.gpx").2
      = "locked.gpx" := by
  decide

/-- C3 amended: for every state and every path that exists but cannot be opened,
`setGpxFile` returns false and changes nothing but `m_gpxFile`, which is left closed and
named after the new path; buffered data, reader, started flag, window and clock are
intact, and `gpxFile` reports the new path. -/
theorem setGpxFile_unreadable_path (fs : FileSystem) (s : GPSSimulator) (path : String)
    (hex : fs.fileExists path = true) (hopen : fs.readable path = none) :
    GPSSimulator.setGpxFile fs s path = (false, { s with m_gpxFile := ⟨path, false⟩ }) ∧
    GPSSimulator.gpxFile (GPSSimulator.setGpxFile fs s path).2 = path := by
  cases hop : s.m_gpxFile.isOpen <;>
    simp [GPSSimulator.setGpxFile, GPSSimulator.gpxFile, hex, hopen, hop]

/-- C3 amended, at `locked.gpx` after `track.gpx` was set. -/
theorem setGpxFile_unreadable_path_witness :
    GPSSimulator.setGpxFile exampleFiles (exampleSimulator 1000 1) "locked.gpx"
      = (false, { exampleSimulator 1000 1 with m_gpxFile := ⟨"locked.gpx", false⟩ }) ∧
    GPSSimulator.gpxFile
      (GPSSimulator.setGpxFile exampleFiles (exampleSimulator 1000 1) "locked.gpx").2
      = "locked.gpx" :=
  setGpxFile_unreadable_path exampleFiles (exampleSimulator 1000 1) "locked.gpx"
    (by decide) (by decide)

/-- C4: for every path that exists and can be opened, `setGpxFile` returns true; afterwards
the buffered data is the file's contents, the reader holds exactly that data and stands
before its first token, and `isStarted` is false. -/
theorem setGpxFile_readable_path (fs : FileSystem) (s : GPSSimulator) (path : String)
    (contents : Document)
    (hex : fs.fileExists path = true) (hopen : fs.readable path = some contents) :
    (GPSSimulator.setGpxFile fs s path).1 = true ∧
    (GPSSimulator.setGpxFile fs s path).2.m_gpxData = contents ∧
    (GPSSimulator.setGpxFile fs s path).2.m_gpxReader
      = ⟨Current.NoToken, contents.tokens, contents.complete⟩ ∧
    GPSSimulator.isStarted (GPSSimulator.setGpxFile fs s path).2 = false := by
  simp [GPSSimulator.setGpxFile, GPSSimulator.isStarted, QXmlStreamReader.clearAndAddData,
    hex, hopen]

/-- C4 at `track.gpx` on a freshly constructed simulator. -/
theorem setGpxFile_readable_path_witness :
    (GPSSimulator.setGpxFile exampleFiles (GPSSimulator.create 1000 1) "track.gpx").1 = true ∧
    (GPSSimulator.setGpxFile exampleFiles (GPSSimulator.create 1000 1) "track.gpx").2.m_gpxData
      = exampleLog ∧
    (GPSSimulator.setGpxFile exampleFiles (GPSSimulator.create 1000 1) "track.gpx").2.m_gpxReader
      = ⟨Current.NoToken, exampleLog.tokens, exampleLog.complete⟩ ∧
    GPSSimulator.isStarted
      (GPSSimulator.setGpxFile exampleFiles (GPSSimulator.create 1000 1) "track.gpx").2 = false :=
  setGpxFile_readable_path exampleFiles (GPSSimulator.create 1000 1) "track.gpx" exampleLog
    (by decide) (by decide)

open GPSSimulator

/-! ## The fuel of the loops is enough -/

theorem readNext_atEnd_or_shorter (r : QXmlStreamReader) :
    r.readNext.atEnd = true ∨ r.readNext.pending.length + 1 = r.pending.length := by
  obtain ⟨cur, pend, comp⟩ := r
  cases cur <;> cases pend <;> cases comp <;>
    simp [QXmlStreamReader.readNext, QXmlStreamReader.atEnd]

theorem readNext_pending_le (r : QXmlStreamReader) :
    r.readNext.pending.length ≤ r.pending.length := by
  obtain ⟨cur, pend, comp⟩ := r
  cases cur <;> cases pend <;> cases comp <;>
    simp [QXmlStreamReader.readNext]

theorem readNext_of_atEnd (r : QXmlStreamReader) (h : r.atEnd = true) :
    r.readNext.atEnd = true ∧ r.readNext.current = Current.Invalid := by
  obtain ⟨cur, pend, comp⟩ := r
  cases cur <;> simp_all [QXmlStreamReader.readNext, QXmlStreamReader.atEnd]

theorem gotoLoop_of_atEnd (fuel : Nat) (r : QXmlStreamReader) (h : r.atEnd = true) :
    gotoNextPositionElementLoop fuel r = (false, r) := by
  cases fuel with
  | zero => rfl
  | succ f => simp [gotoNextPositionElementLoop, h]

theorem gotoLoop_succ (fuel : Nat) (r : QXmlStreamReader) (h : r.pending.length + 2 ≤ fuel) :
    gotoNextPositionElementLoop (fuel + 1) r = gotoNextPositionElementLoop fuel r := by
  induction fuel generalizing r with
  | zero => omega
  | succ f ih =>
    conv_lhs => rw [gotoNextPositionElementLoop]
    conv_rhs => rw [gotoNextPositionElementLoop]
    split
    · split
      · rfl
      · rcases readNext_atEnd_or_shorter r with he | hl
        · rw [gotoLoop_of_atEnd _ _ he, gotoLoop_of_atEnd _ _ he]
        · exact ih _ (by omega)
    · rfl

/-- Any fuel from the number of pending tokens plus two on gives the result of
`gotoNextPositionElement`: its loop never stops for lack of fuel. -/
theorem gotoLoop_fuel (fuel : Nat) (r : QXmlStreamReader) (h : r.pending.length + 2 ≤ fuel) :
    gotoNextPositionElementLoop fuel r = gotoNextPositionElement r := by
  induction fuel with
  | zero => omega
  | succ f ih =>
    by_cases hf : r.pending.length + 2 ≤ f
    · rw [gotoLoop_succ f r hf]; exact ih hf
    · have : f + 1 = r.pending.length + 2 := by omega
      rw [this]; rfl

theorem readNextStartElementLoop_of_endDocument (fuel : Nat) (r : QXmlStreamReader)
    (h : r.atEnd = true) :
    QXmlStreamReader.readNextStartElementLoop (fuel + 1) r = (false, r.readNext) := by
  have := readNext_of_atEnd r h
  rw [QXmlStreamReader.readNextStartElementLoop]
  simp [this.2]

theorem readNextStartElementLoop_succ (fuel : Nat) (r : QXmlStreamReader)
    (h : r.pending.length + 2 ≤ fuel) :
    QXmlStreamReader.readNextStartElementLoop (fuel + 1) r
      = QXmlStreamReader.readNextStartElementLoop fuel r := by
  induction fuel generalizing r with
  | zero => omega
  | succ f ih =>
    conv_lhs => rw [QXmlStreamReader.readNextStartElementLoop]
    conv_rhs => rw [QXmlStreamReader.readNextStartElementLoop]
    split
    · rfl
    · split
      · rfl
      · split
        · rfl
        · rcases readNext_atEnd_or_shorter r with he | hl
          · cases f with
            | zero =>
              have := readNext_pending_le r
              omega
            | succ g =>
              rw [readNextStartElementLoop_of_endDocument _ _ he,
                readNextStartElementLoop_of_endDocument _ _ he]
          · exact ih _ (by omega)

/-- Any fuel from the number of pending tokens plus two on gives the result of
`readNextStartElement`. -/
theorem readNextStartElementLoop_fuel (fuel : Nat) (r : QXmlStreamReader)
    (h : r.pending.length + 2 ≤ fuel) :
    QXmlStreamReader.readNextStartElementLoop fuel r = r.readNextStartElement := by
  induction fuel with
  | zero => omega
  | succ f ih =>
    by_cases hf : r.pending.length + 2 ≤ f
    · rw [readNextStartElementLoop_succ f r hf]; exact ih hf
    · have : f + 1 = r.pending.length + 2 := by omega
      rw [this]; rfl

theorem readNext_token_shorter (r : QXmlStreamReader) (t : Token)
    (h : r.readNext.current = Current.token t) :
    r.readNext.pending.length + 1 = r.pending.length := by
  rcases readNext_atEnd_or_shorter r with he | hl
  · simp [QXmlStreamReader.atEnd, h] at he
  · exact hl

theorem readElementTextLoop_succ (fuel : Nat) (r : QXmlStreamReader) (acc : String)
    (h : r.pending.length + 1 ≤ fuel) :
    QXmlStreamReader.readElementTextLoop (fuel + 1) r acc
      = QXmlStreamReader.readElementTextLoop fuel r acc := by
  induction fuel generalizing r acc with
  | zero => omega
  | succ f ih =>
    conv_lhs => rw [QXmlStreamReader.readElementTextLoop]
    conv_rhs => rw [QXmlStreamReader.readElementTextLoop]
    split
    · rename_i hc
      exact ih _ _ (by have := readNext_token_shorter r _ hc; omega)
    · rename_i hc
      exact ih _ _ (by have := readNext_token_shorter r _ hc; omega)
    · rfl
    · rename_i hc
      exact ih _ _ (by have := readNext_token_shorter r _ hc; omega)
    · rename_i hc
      exact ih _ _ (by have := readNext_token_shorter r _ hc; omega)
    · rfl

/-- Any fuel from the number of pending tokens plus one on gives the result of
`readElementText` on a start element. -/
theorem readElementTextLoop_fuel (fuel : Nat) (r : QXmlStreamReader)
    (hstart : r.isStartElement = true) (h : r.pending.length + 1 ≤ fuel) :
    QXmlStreamReader.readElementTextLoop fuel r "" = r.readElementText := by
  induction fuel with
  | zero => omega
  | succ f ih =>
    by_cases hf : r.pending.length + 1 ≤ f
    · rw [readElementTextLoop_succ f r "" hf]; exact ih hf
    · have : f + 1 = r.pending.length + 1 := by omega
      rw [this]
      simp [QXmlStreamReader.readElementText, hstart]

theorem raiseError_pending (r : QXmlStreamReader) : r.raiseError.pending = r.pending := rfl

theorem readElementTextLoop_pending_le (fuel : Nat) (r : QXmlStreamReader) (acc : String) :
    (QXmlStreamReader.readElementTextLoop fuel r acc).2.pending.length ≤ r.pending.length := by
  induction fuel generalizing r acc with
  | zero => exact Nat.le_refl _
  | succ f ih =>
    rw [QXmlStreamReader.readElementTextLoop]
    have h0 := readNext_pending_le r
    split
    · exact Nat.le_trans (ih _ _) h0
    · exact Nat.le_trans (ih _ _) h0
    · exact h0
    · exact Nat.le_trans (ih _ _) h0
    · exact Nat.le_trans (ih _ _) h0
    · exact h0

theorem readElementText_pending_le (r : QXmlStreamReader) :
    r.readElementText.2.pending.length ≤ r.pending.length := by
  unfold QXmlStreamReader.readElementText
  split
  · exact readElementTextLoop_pending_le _ _ _
  · exact Nat.le_refl _

theorem timeElementStep_pending_le (r : QXmlStreamReader) (time : QTime) :
    (timeElementStep r time).2.pending.length ≤ r.pending.length := by
  unfold timeElementStep
  split
  · split
    · exact Nat.le_refl _
    · split
      · exact readElementText_pending_le r
      · exact Nat.le_refl _
  · exact Nat.le_refl _

theorem timeElementLoop_of_atEnd (fuel : Nat) (r : QXmlStreamReader) (time : QTime)
    (h : r.atEnd = true) : timeElementLoop fuel r time = (time, r) := by
  cases fuel with
  | zero => rfl
  | succ f => simp [timeElementLoop, h]

theorem timeElementLoop_succ (fuel : Nat) (r : QXmlStreamReader) (time : QTime)
    (h : r.pending.length + 2 ≤ fuel) :
    timeElementLoop (fuel + 1) r time = timeElementLoop fuel r time := by
  induction fuel generalizing r time with
  | zero => omega
  | succ f ih =>
    conv_lhs => rw [timeElementLoop]
    conv_rhs => rw [timeElementLoop]
    split
    · dsimp only
      rcases readNext_atEnd_or_shorter (timeElementStep r time).2 with he | hl
      · rw [timeElementLoop_of_atEnd _ _ _ he, timeElementLoop_of_atEnd _ _ _ he]
      · exact ih _ _ (by have := timeElementStep_pending_le r time; omega)
    · rfl

/-- Any fuel from the number of pending tokens plus two on gives the result the loop has
in `getNextPoint`. -/
theorem timeElementLoop_fuel (fuel : Nat) (r : QXmlStreamReader) (time : QTime)
    (h : r.pending.length + 2 ≤ fuel) :
    timeElementLoop fuel r time = timeElementLoop (r.pending.length + 2) r time := by
  induction fuel with
  | zero => omega
  | succ f ih =>
    by_cases hf : r.pending.length + 2 ≤ f
    · rw [timeElementLoop_succ f r time hf]; exact ih hf
    · have : f + 1 = r.pending.length + 2 := by omega
      rw [this]

theorem gotoLoop_pending_le (fuel : Nat) (r : QXmlStreamReader) :
    (gotoNextPositionElementLoop fuel r).2.pending.length ≤ r.pending.length := by
  induction fuel generalizing r with
  | zero => exact Nat.le_refl _
  | succ f ih =>
    rw [gotoNextPositionElementLoop]
    split
    · split
      · exact Nat.le_refl _
      · exact Nat.le_trans (ih _) (readNext_pending_le r)
    · exact Nat.le_refl _

theorem getNextPointRec_of_atEnd (latest : Point) (fuel : Nat) (r : QXmlStreamReader)
    (time : QTime) (h : r.atEnd = true) :
    getNextPointRec latest fuel r time = (Point.empty, time, r) := by
  cases fuel with
  | zero => rfl
  | succ f =>
    rw [getNextPointRec]
    simp [gotoNextPositionElement, gotoLoop_of_atEnd _ _ h]

theorem getNextPointRec_succ (latest : Point) (fuel : Nat) (r : QXmlStreamReader)
    (time : QTime) (h : r.pending.length + 2 ≤ fuel) :
    getNextPointRec latest (fuel + 1) r time = getNextPointRec latest fuel r time := by
  induction fuel generalizing r with
  | zero => omega
  | succ f ih =>
    conv_lhs => rw [getNextPointRec]
    conv_rhs => rw [getNextPointRec]
    dsimp only
    split
    · rfl
    · split
      · rcases readNext_atEnd_or_shorter (gotoNextPositionElement r).2 with he | hl
        · rw [getNextPointRec_of_atEnd _ _ _ _ he, getNextPointRec_of_atEnd _ _ _ _ he]
        · exact ih _ (by
            have : (gotoNextPositionElement r).2.pending.length ≤ r.pending.length :=
              gotoLoop_pending_le _ r
            omega)
      · rfl

/-- Any fuel from the number of pending tokens plus two on gives the result of
`getNextPoint`: the recursion on discarded points never stops for lack of fuel. -/
theorem getNextPointRec_fuel (latest : Point) (fuel : Nat) (r : QXmlStreamReader)
    (time : QTime) (h : r.pending.length + 2 ≤ fuel) :
    getNextPointRec latest fuel r time
      = getNextPointRec latest (r.pending.length + 2) r time := by
  induction fuel with
  | zero => omega
  | succ f ih =>
    by_cases hf : r.pending.length + 2 ≤ f
    · rw [getNextPointRec_succ latest f r time hf]; exact ih hf
    · have : f + 1 = r.pending.length + 2 := by omega
      rw [this]

/-! ## The tick handler -/


theorem getNextPoint_frame (s : GPSSimulator) (time : QTime) :
    (getNextPoint s time).2.2 = { s with m_gpxReader := (getNextPoint s time).2.2.m_gpxReader } := by
  simp [getNextPoint]

theorem updateInterpolationParameters_gpxData (s : GPSSimulator) :
    (updateInterpolationParameters s).2.m_gpxData = s.m_gpxData := by
  unfold updateInterpolationParameters
  simp only [getNextPoint]
  split <;> rfl

theorem updateInterpolationParameters_currentTime (s : GPSSimulator) :
    (updateInterpolationParameters s).2.m_currentTime = s.m_currentTime := by
  unfold updateInterpolationParameters
  simp only [getNextPoint]
  split <;> rfl

theorem handleTimerEvent_restart (s : GPSSimulator) (h : loopRestart s = true) :
    handleTimerEvent s = ((initializeInterpolationValues (rewound s)).2, []) := by
  have h1 : (advanceClock s).m_currentTime.gt (advanceClock s).m_segmentEndTime = true := by
    simp [loopRestart] at h; exact h.1
  have h2 : (updateInterpolationParameters (advanceClock s)).1 = false := by
    simp [loopRestart] at h; exact h.2
  have h3 : (updateInterpolationParameters (advanceClock s)).2.m_gpxData = s.m_gpxData := by
    rw [updateInterpolationParameters_gpxData]; rfl
  simp [handleTimerEvent, h1, h2, rewound, h3]

/-- The state in which a tick that does not restart the loop emits its event. -/
theorem handleTimerEvent_emit (s : GPSSimulator) (h : loopRestart s = false) :
    ∃ s2 : GPSSimulator,
      s2.m_currentTime = (advanceClock s).m_currentTime ∧
      handleTimerEvent s =
        (s2, [⟨if (NormalizedTime.mk (s2.m_segmentStartTime.msecsTo s2.m_currentTime)
                    (s2.m_segmentStartTime.msecsTo s2.m_segmentEndTime)).le 1 2
                then s2.m_currentSegment.startPoint else s2.m_currentSegment.endPoint,
               heading s2 s2.m_currentSegment⟩]) := by
  by_cases h1 : (advanceClock s).m_currentTime.gt (advanceClock s).m_segmentEndTime = true
  · have h2 : (updateInterpolationParameters (advanceClock s)).1 = true := by
      simp [loopRestart, h1] at h; exact h
    refine ⟨(updateInterpolationParameters (advanceClock s)).2,
      updateInterpolationParameters_currentTime _, ?_⟩
    simp [handleTimerEvent, h1, h2, getInterpolatedOrientation]
  · refine ⟨advanceClock s, rfl, ?_⟩
    simp [handleTimerEvent, h1, getInterpolatedOrientation]

/-- C5: for every state, a call of `handleTimerEvent` that triggers a loop restart (the
advanced clock is past `m_segmentEndTime` and `updateInterpolationParameters` fails) emits
no event, rewinds the reader to the start of the buffered data and re-runs
`initializeInterpolationValues`; every other call emits exactly one event. -/
theorem handleTimerEvent_emission (s : GPSSimulator) :
    (loopRestart s = true →
      (handleTimerEvent s).2 = [] ∧
      (handleTimerEvent s).1 = (initializeInterpolationValues (rewound s)).2 ∧
      (rewound s).m_gpxReader = ⟨Current.NoToken, s.m_gpxData.tokens, s.m_gpxData.complete⟩) ∧
    (loopRestart s = false → (handleTimerEvent s).2.length = 1) := by
  constructor
  · intro h
    rw [handleTimerEvent_restart s h]
    exact ⟨rfl, rfl, rfl⟩
  · intro h
    obtain ⟨s2, _, h2⟩ := handleTimerEvent_emit s h
    rw [h2]; rfl

theorem QTime.addMSecs_range (t : QTime) (ms : Int) :
    (t.addMSecs ms).mds = NullTime ∨ (t.addMSecs ms).isValid = true := by
  unfold QTime.addMSecs
  split
  · right
    split
    · simp only [QTime.isValid, NullTime, MSECS_PER_DAY, decide_eq_true_eq]
      constructor
      · have := Int.emod_nonneg (t.ds + ms + (86400000 - ms) / 86400000 * 86400000)
          (show (86400000 : Int) ≠ 0 by decide)
        omega
      · exact Int.emod_lt_of_pos _ (by decide)
    · simp only [QTime.isValid, NullTime, MSECS_PER_DAY, decide_eq_true_eq]
      constructor
      · have := Int.emod_nonneg (t.ds + ms) (show (86400000 : Int) ≠ 0 by decide)
        omega
      · exact Int.emod_lt_of_pos _ (by decide)
  · left; rfl

theorem QTime.ds_of_isValid (t : QTime) (h : t.isValid = true) : t.ds = t.mds := by
  simp only [QTime.isValid, NullTime, decide_eq_true_eq] at h
  simp only [QTime.ds, NullTime]
  split
  · omega
  · rfl

/-- A positive `msecsTo` means two valid times, the first before the second. -/
theorem QTime.msecsTo_pos (t u : QTime) (h : 0 < t.msecsTo u) :
    t.isValid = true ∧ u.isValid = true ∧ t.mds < u.mds := by
  unfold QTime.msecsTo at h
  split at h
  · omega
  · rename_i hv
    simp only [Bool.or_eq_true, Bool.not_eq_true', not_or, Bool.not_eq_false] at hv
    rw [QTime.ds_of_isValid _ hv.1, QTime.ds_of_isValid _ hv.2] at h
    exact ⟨hv.1, hv.2, by omega⟩

/-- On a positive divisor the model comparison with one half is the comparison of the
exact quotient. -/
theorem NormalizedTime.le_half_iff (v1 v2 : Int) (h : 0 < v2) :
    (NormalizedTime.mk v1 v2).le 1 2 = true ↔ ((v1 : ℚ) / (v2 : ℚ) ≤ 1 / 2) := by
  have h2 : (0 : ℚ) < (v2 : ℚ) := by exact_mod_cast h
  simp only [NormalizedTime.le, h, if_true, decide_eq_true_eq]
  rw [div_le_iff₀ h2]
  constructor
  · intro hh
    have : ((v1 * 2 : Int) : ℚ) ≤ ((1 * v2 : Int) : ℚ) := by exact_mod_cast hh
    push_cast at this
    linarith
  · intro hh
    have : ((v1 * 2 : Int) : ℚ) ≤ ((1 * v2 : Int) : ℚ) := by
      push_cast
      linarith
    exact_mod_cast this

/-- The position a tick emits, in terms of the exact quotient of the elapsed times. -/
theorem emitted_position_eq (s : GPSSimulator) (e : PositionUpdate)
    (hemit : (handleTimerEvent s).2 = [e])
    (hbefore : 0 < (handleTimerEvent s).1.m_segmentStartTime.msecsTo
      (handleTimerEvent s).1.m_segmentEndTime) :
    e.position =
      if (((handleTimerEvent s).1.m_currentTime.mds
            - (handleTimerEvent s).1.m_segmentStartTime.mds : Int) : ℚ)
          / (((handleTimerEvent s).1.m_segmentEndTime.mds
            - (handleTimerEvent s).1.m_segmentStartTime.mds : Int) : ℚ) ≤ 1 / 2
      then (handleTimerEvent s).1.m_currentSegment.startPoint
      else (handleTimerEvent s).1.m_currentSegment.endPoint := by
  have hr : loopRestart s = false := by
    cases hc : loopRestart s
    · rfl
    · rw [handleTimerEvent_restart s hc] at hemit
      simp at hemit
  obtain ⟨s2, hcur, heq⟩ := handleTimerEvent_emit s hr
  rw [heq] at hemit hbefore ⊢
  simp only at hbefore ⊢
  simp only [List.cons.injEq, and_true] at hemit
  subst hemit
  simp only
  obtain ⟨hstart, hend, hlt⟩ := QTime.msecsTo_pos _ _ hbefore
  have hv2 : s2.m_segmentStartTime.msecsTo s2.m_segmentEndTime
      = s2.m_segmentEndTime.mds - s2.m_segmentStartTime.mds := by
    simp [QTime.msecsTo, hstart, hend, QTime.ds_of_isValid]
  have hpos : 0 < s2.m_segmentEndTime.mds - s2.m_segmentStartTime.mds := by omega
  have hstart0 : 0 ≤ s2.m_segmentStartTime.mds := by
    simp only [QTime.isValid, NullTime, decide_eq_true_eq] at hstart
    omega
  rw [hv2]
  rcases (by rw [hcur]; exact QTime.addMSecs_range _ _ :
      s2.m_currentTime.mds = NullTime ∨ s2.m_currentTime.isValid = true) with hnull | hval
  · -- a null clock: the code takes the elapsed time as zero
    have hinv : s2.m_currentTime.isValid = false := by
      simp [QTime.isValid, hnull, NullTime]
    have hv1 : s2.m_segmentStartTime.msecsTo s2.m_currentTime = 0 := by
      simp [QTime.msecsTo, hinv]
    rw [hv1]
    have hA : (NormalizedTime.mk 0 (s2.m_segmentEndTime.mds - s2.m_segmentStartTime.mds)).le 1 2
        = true := by
      rw [NormalizedTime.le_half_iff _ _ hpos]
      have : (0 : ℚ) < ((s2.m_segmentEndTime.mds - s2.m_segmentStartTime.mds : Int) : ℚ) := by
        exact_mod_cast hpos
      simp only [Int.cast_zero, zero_div]
      norm_num
    have hB : ((s2.m_currentTime.mds - s2.m_segmentStartTime.mds : Int) : ℚ)
        / ((s2.m_segmentEndTime.mds - s2.m_segmentStartTime.mds : Int) : ℚ) ≤ 1 / 2 := by
      have hd : (0 : ℚ) < ((s2.m_segmentEndTime.mds - s2.m_segmentStartTime.mds : Int) : ℚ) := by
        exact_mod_cast hpos
      have hn : ((s2.m_currentTime.mds - s2.m_segmentStartTime.mds : Int) : ℚ) ≤ 0 := by
        have : s2.m_currentTime.mds - s2.m_segmentStartTime.mds ≤ 0 := by
          rw [hnull]; simp only [NullTime]; omega
        exact_mod_cast this
      have := div_nonpos_of_nonpos_of_nonneg hn hd.le
      linarith
    rw [if_pos hA, if_pos hB]
  · have hv1 : s2.m_segmentStartTime.msecsTo s2.m_currentTime
        = s2.m_currentTime.mds - s2.m_segmentStartTime.mds := by
      simp [QTime.msecsTo, hstart, hval, QTime.ds_of_isValid]
    rw [hv1]
    by_cases hc : (NormalizedTime.mk (s2.m_currentTime.mds - s2.m_segmentStartTime.mds)
        (s2.m_segmentEndTime.mds - s2.m_segmentStartTime.mds)).le 1 2 = true
    · rw [if_pos hc, if_pos ((NormalizedTime.le_half_iff _ _ hpos).1 hc)]
    · rw [if_neg hc, if_neg (fun h => hc ((NormalizedTime.le_half_iff _ _ hpos).2 h))]

theorem wrapInt32_of_small (x : Int) (h0 : 0 ≤ x) (h1 : x < 2147483648) : wrapInt32 x = x := by
  unfold wrapInt32
  rw [Int.emod_eq_of_lt (by omega) (by omega)]
  omega

/-- The clock advance of a tick that stays before midnight and does not restart the loop. -/
theorem clock_advance_eq (s : GPSSimulator)
    (hint : 0 < s.m_timer.interval) (hmul : 1 ≤ s.m_playbackMultiplier)
    (hvalid : s.m_currentTime.isValid = true)
    (hday : s.m_currentTime.mds + s.m_timer.interval * s.m_playbackMultiplier < MSECS_PER_DAY)
    (hr : loopRestart s = false) :
    (handleTimerEvent s).1.m_currentTime.mds
      = s.m_currentTime.mds + s.m_timer.interval * s.m_playbackMultiplier ∧
    s.m_currentTime.mds < (handleTimerEvent s).1.m_currentTime.mds := by
  obtain ⟨s2, hcur, heq⟩ := handleTimerEvent_emit s hr
  rw [heq]
  simp only
  rw [hcur]
  have hp : 0 < s.m_timer.interval * s.m_playbackMultiplier :=
    Int.mul_pos hint (by omega)
  have hv := hvalid
  simp only [QTime.isValid, NullTime, decide_eq_true_eq] at hv
  simp only [MSECS_PER_DAY] at hday hv
  have hw : wrapInt32 (s.m_timer.interval * s.m_playbackMultiplier)
      = s.m_timer.interval * s.m_playbackMultiplier :=
    wrapInt32_of_small _ (by omega) (by omega)
  have hadd : (advanceClock s).m_currentTime.mds
      = s.m_currentTime.mds + s.m_timer.interval * s.m_playbackMultiplier := by
    simp only [advanceClock, hw, QTime.addMSecs, hvalid, if_true]
    rw [if_neg (by omega)]
    simp only [QTime.ds_of_isValid _ hvalid, MSECS_PER_DAY]
    exact Int.emod_eq_of_lt (by omega) (by omega)
  rw [hadd]
  omega

/-- C7 amended: for every state with a positive timer interval, a multiplier of at least 1
and a valid `m_currentTime` such that the advance stays before midnight, a tick that does
not restart the loop leaves `m_currentTime` later by exactly interval times multiplier
milliseconds. With multiplier 2 and interval 500 ms the example clock advances 1000 ms per
tick and reaches 10 s, the end of the first segment, after ten ticks. -/
theorem handleTimerEvent_clock :
    (∀ s : GPSSimulator, 0 < s.m_timer.interval → 1 ≤ s.m_playbackMultiplier →
      s.m_currentTime.isValid = true →
      s.m_currentTime.mds + s.m_timer.interval * s.m_playbackMultiplier < MSECS_PER_DAY →
      loopRestart s = false →
      (handleTimerEvent s).1.m_currentTime.mds
        = s.m_currentTime.mds + s.m_timer.interval * s.m_playbackMultiplier ∧
      s.m_currentTime.mds < (handleTimerEvent s).1.m_currentTime.mds) ∧
    exampleClock = [0, 1000, 2000, 3000, 4000, 5000, 6000, 7000, 8000, 9000, 10000] ∧
    (startSimulation (exampleSimulator 500 2)).m_segmentEndTime = ⟨10000⟩ :=
  ⟨clock_advance_eq, by decide, by decide⟩

/-- C7 amended, at the first tick of the example with multiplier 2 and interval 500 ms. -/
theorem handleTimerEvent_clock_witness :
    (handleTimerEvent (startSimulation (exampleSimulator 500 2))).1.m_currentTime.mds
      = (startSimulation (exampleSimulator 500 2)).m_currentTime.mds
        + (startSimulation (exampleSimulator 500 2)).m_timer.interval
          * (startSimulation (exampleSimulator 500 2)).m_playbackMultiplier ∧
    (startSimulation (exampleSimulator 500 2)).m_currentTime.mds
      < (handleTimerEvent (startSimulation (exampleSimulator 500 2))).1.m_currentTime.mds :=
  handleTimerEvent_clock.1 (startSimulation (exampleSimulator 500 2))
    (by decide) (by decide) (by decide) (by decide) (by decide)

/-- C7 as stated fails: on the log A (23:59:50), B (23:59:59), C (00:00:05) the tenth tick
does not restart the loop, yet it takes `m_currentTime` from 23:59:59 to 00:00:00. -/
theorem clock_wraps_at_midnight :
    0 < (runTicks 9 (startSimulation (simulatorOn midnightLog))).1.m_timer.interval ∧
    1 ≤ (runTicks 9 (startSimulation (simulatorOn midnightLog))).1.m_playbackMultiplier ∧
    loopRestart (runTicks 9 (startSimulation (simulatorOn midnightLog))).1 = false ∧
    (runTicks 9 (startSimulation (simulatorOn midnightLog))).1.m_currentTime = ⟨86399000⟩ ∧
    (handleTimerEvent (runTicks 9 (startSimulation (simulatorOn midnightLog))).1).1.m_currentTime
      = ⟨0⟩ := by
  decide

/-- C6: on every tick that emits, with `m_segmentStartTime` before `m_segmentEndTime`
(a positive `msecsTo`, the divisor the code uses), the emitted position is the start point
of the current segment when
(currentTime - segmentStartTime) / (segmentEndTime - segmentStartTime) is at most 1/2 and
its end point otherwise, the times being those after the tick. On the example log A (0 s),
B (10 s), C (20 s) with interval 1000 ms and multiplier 1, ticks 1 to 5 emit A and ticks 6
to 10 emit B. -/
theorem handleTimerEvent_step_position :
    (∀ (s : GPSSimulator) (e : PositionUpdate),
      (handleTimerEvent s).2 = [e] →
      0 < (handleTimerEvent s).1.m_segmentStartTime.msecsTo
        (handleTimerEvent s).1.m_segmentEndTime →
      e.position =
        if (((handleTimerEvent s).1.m_currentTime.mds
              - (handleTimerEvent s).1.m_segmentStartTime.mds : Int) : ℚ)
            / (((handleTimerEvent s).1.m_segmentEndTime.mds
              - (handleTimerEvent s).1.m_segmentStartTime.mds : Int) : ℚ) ≤ 1 / 2
        then (handleTimerEvent s).1.m_currentSegment.startPoint
        else (handleTimerEvent s).1.m_currentSegment.endPoint) ∧
    ((runTicks 10 (startSimulation (exampleSimulator 1000 1))).2.map (fun e => e.position)
      = [pointA, pointA, pointA, pointA, pointA, pointB, pointB, pointB, pointB, pointB]) :=
  ⟨emitted_position_eq, by decide⟩

/-- C6 at the sixth tick of the example: clock 6 s in the segment from 0 s to 10 s, the
emitted position is B. -/
theorem handleTimerEvent_step_position_witness :
    pointB =
      if (((handleTimerEvent (runTicks 5 (startSimulation (exampleSimulator 1000 1))).1).1.m_currentTime.mds
            - (handleTimerEvent (runTicks 5 (startSimulation (exampleSimulator 1000 1))).1).1.m_segmentStartTime.mds : Int) : ℚ)
          / (((handleTimerEvent (runTicks 5 (startSimulation (exampleSimulator 1000 1))).1).1.m_segmentEndTime.mds
            - (handleTimerEvent (runTicks 5 (startSimulation (exampleSimulator 1000 1))).1).1.m_segmentStartTime.mds : Int) : ℚ) ≤ 1 / 2
      then (handleTimerEvent (runTicks 5 (startSimulation (exampleSimulator 1000 1))).1).1.m_currentSegment.startPoint
      else (handleTimerEvent (runTicks 5 (startSimulation (exampleSimulator 1000 1))).1).1.m_currentSegment.endPoint :=
  handleTimerEvent_step_position.1 (runTicks 5 (startSimulation (exampleSimulator 1000 1))).1
    ⟨pointB, Heading.angleTo ⟨pointA, pointB⟩ ⟨-180, 0, 180, 0⟩⟩
    (by decide) (by decide)

/-! ## Starting the simulation -/

/-! ## Counting point records along the reader -/

theorem pointRecords_cons (t : Token) (l : List Token) :
    pointRecords (t :: l) = pointRecords l + (if t.isTrkpt then 1 else 0) := by
  simp [pointRecords, List.countP_cons]

theorem pointRecords_nil : pointRecords [] = 0 := rfl

theorem sameText_caseInsensitive (a b : String) (h : sameText a b = true) :
    sameTextCaseInsensitive a b = true := by
  simp only [sameText, beq_iff_eq] at h
  subst h
  simp [sameTextCaseInsensitive]

theorem QXmlStreamReader.readNext_remaining (r : QXmlStreamReader) :
    r.readNext.remaining + (if r.onPointRecord then 1 else 0) = r.remaining := by
  obtain ⟨cur, pend, comp⟩ := r
  cases cur with
  | NoToken =>
    cases pend <;> cases comp <;>
      simp [readNext, remaining, stream, onPointRecord, isStartElement, pointRecords_nil]
  | Invalid => simp [readNext, remaining, stream, onPointRecord, isStartElement]
  | EndDocument => simp [readNext, remaining, stream, onPointRecord, isStartElement]
  | token t =>
    cases pend with
    | nil =>
      cases t <;> cases comp <;>
        simp [readNext, remaining, stream, onPointRecord, isStartElement, name,
          pointRecords_cons, pointRecords_nil, Token.isTrkpt]
    | cons t2 ts =>
      cases t <;>
        simp [readNext, remaining, stream, onPointRecord, isStartElement, name,
          pointRecords_cons, Token.isTrkpt]

theorem QXmlStreamReader.readNext_remaining_le (r : QXmlStreamReader) :
    r.readNext.remaining ≤ r.remaining := by
  have := r.readNext_remaining
  omega

theorem QXmlStreamReader.readNext_remaining_eq (r : QXmlStreamReader)
    (h : r.onPointRecord = false) : r.readNext.remaining = r.remaining := by
  have := r.readNext_remaining
  simp [h] at this
  exact this

theorem gotoLoop_remaining (fuel : Nat) (r : QXmlStreamReader) :
    (gotoNextPositionElementLoop fuel r).2.remaining = r.remaining := by
  induction fuel generalizing r with
  | zero => rfl
  | succ n ih =>
    unfold gotoNextPositionElementLoop
    split
    · split
      · rfl
      · rename_i h
        rw [ih]
        exact r.readNext_remaining_eq (by simpa [QXmlStreamReader.onPointRecord] using h)
    · rfl

theorem gotoLoop_found (fuel : Nat) (r : QXmlStreamReader)
    (h : (gotoNextPositionElementLoop fuel r).1 = true) :
    (gotoNextPositionElementLoop fuel r).2.onPointRecord = true := by
  induction fuel generalizing r with
  | zero => simp [gotoNextPositionElementLoop] at h
  | succ n ih =>
    unfold gotoNextPositionElementLoop at h ⊢
    split
    · split
      · rename_i h1 h2
        simpa [QXmlStreamReader.onPointRecord] using h2
      · rename_i h1 h2
        simp only [h1, h2, if_true, if_false] at h
        exact ih _ h
    · rename_i h1
      simp [h1] at h

theorem readNextStartElementLoop_remaining (fuel : Nat) (r : QXmlStreamReader)
    (h : r.onPointRecord = false) :
    (QXmlStreamReader.readNextStartElementLoop fuel r).2.remaining = r.remaining := by
  induction fuel generalizing r with
  | zero => rfl
  | succ n ih =>
    unfold QXmlStreamReader.readNextStartElementLoop
    simp only
    split
    · exact r.readNext_remaining_eq h
    · split
      · exact r.readNext_remaining_eq h
      · split
        · exact r.readNext_remaining_eq h
        · rename_i h1 h2 h3
          rw [ih]
          · exact r.readNext_remaining_eq h
          · simp [QXmlStreamReader.onPointRecord, h3]

theorem readNextStartElement_remaining (r : QXmlStreamReader) (h : r.onPointRecord = true) :
    r.readNextStartElement.2.remaining + 1 = r.remaining := by
  have h0 := r.readNext_remaining
  simp only [h, if_true] at h0
  unfold QXmlStreamReader.readNextStartElement QXmlStreamReader.readNextStartElementLoop
  simp only
  split
  · exact h0
  · split
    · exact h0
    · split
      · exact h0
      · rename_i h1 h2 h3
        rw [readNextStartElementLoop_remaining]
        · exact h0
        · simp [QXmlStreamReader.onPointRecord, h3]

theorem raiseError_remaining_le (r : QXmlStreamReader) :
    r.raiseError.remaining ≤ r.remaining := by
  obtain ⟨cur, pend, comp⟩ := r
  cases cur <;>
    simp [QXmlStreamReader.raiseError, QXmlStreamReader.remaining, QXmlStreamReader.stream,
      pointRecords_cons]

theorem readElementTextLoop_remaining_le (fuel : Nat) (r : QXmlStreamReader) (acc : String) :
    (QXmlStreamReader.readElementTextLoop fuel r acc).2.remaining ≤ r.remaining := by
  induction fuel generalizing r acc with
  | zero => exact Nat.le_refl _
  | succ n ih =>
    unfold QXmlStreamReader.readElementTextLoop
    simp only
    have h0 := r.readNext_remaining_le
    split
    · exact Nat.le_trans (ih _ _) h0
    · exact Nat.le_trans (ih _ _) h0
    · exact h0
    · exact Nat.le_trans (ih _ _) h0
    · exact Nat.le_trans (ih _ _) h0
    · exact Nat.le_trans (raiseError_remaining_le _) h0

theorem readElementText_remaining_le (r : QXmlStreamReader) :
    r.readElementText.2.remaining ≤ r.remaining := by
  unfold QXmlStreamReader.readElementText
  split
  · exact readElementTextLoop_remaining_le _ _ _
  · exact Nat.le_refl _

theorem timeElementStep_remaining_le (r : QXmlStreamReader) (time : QTime) :
    (timeElementStep r time).2.remaining ≤ r.remaining := by
  unfold timeElementStep
  split
  · split
    · exact Nat.le_refl _
    · split
      · exact readElementText_remaining_le r
      · exact Nat.le_refl _
  · exact Nat.le_refl _

theorem timeElementLoop_remaining_le (fuel : Nat) (r : QXmlStreamReader) (time : QTime) :
    (timeElementLoop fuel r time).2.remaining ≤ r.remaining := by
  induction fuel generalizing r time with
  | zero => exact Nat.le_refl _
  | succ n ih =>
    unfold timeElementLoop
    split
    · exact Nat.le_trans (ih _ _)
        (Nat.le_trans (QXmlStreamReader.readNext_remaining_le _)
          (timeElementStep_remaining_le r time))
    · exact Nat.le_refl _

/-- A point that `getNextPoint` returns uses up one point record of the log. -/
theorem getNextPointRec_consumes (latest : Point) (fuel : Nat) (r : QXmlStreamReader)
    (time : QTime) (h : (getNextPointRec latest fuel r time).1.isEmpty = false) :
    (getNextPointRec latest fuel r time).2.2.remaining + 1 ≤ r.remaining := by
  induction fuel generalizing r with
  | zero => simp [getNextPointRec, Point.isEmpty] at h
  | succ n ih =>
    unfold getNextPointRec at h ⊢
    simp only at h ⊢
    have hrem : (gotoNextPositionElement r).2.remaining = r.remaining :=
      gotoLoop_remaining _ r
    split
    · rename_i hf
      simp [hf, Point.isEmpty] at h
    · rename_i hf
      have hon : (gotoNextPositionElement r).2.onPointRecord = true :=
        gotoLoop_found _ r (by simpa using hf)
      simp only [hf] at h
      split
      · rename_i hdup
        simp only [hdup, if_true] at h
        have h1 := ih _ h
        have h2 := (gotoNextPositionElement r).2.readNext_remaining_le
        omega
      · have h1 := readNextStartElement_remaining _ hon
        have h2 := timeElementLoop_remaining_le
          ((gotoNextPositionElement r).2.readNextStartElement.2.pending.length + 2)
          (gotoNextPositionElement r).2.readNextStartElement.2 time
        dsimp only
        omega


/-! ## Logs whose time elements hold text -/

theorem timesAreText_tail (t : Token) (ts : List Token) (h : timesAreText (t :: ts) = true) :
    timesAreText ts = true := by
  simp only [timesAreText, Bool.and_eq_true] at h
  exact h.2

theorem timesAreText_suffix (l1 l2 : List Token) (hs : l1 <:+ l2)
    (h : timesAreText l2 = true) : timesAreText l1 = true := by
  induction l2 with
  | nil =>
    have : l1 = [] := List.eq_nil_of_suffix_nil hs
    subst this; rfl
  | cons t ts ih =>
    rcases List.suffix_cons_iff.1 hs with heq | hs2
    · subst heq; exact h
    · exact ih hs2 (timesAreText_tail t ts h)

theorem QXmlStreamReader.readNext_stream_suffix (r : QXmlStreamReader) :
    r.readNext.stream <:+ r.stream := by
  obtain ⟨cur, pend, comp⟩ := r
  cases cur <;> cases pend <;> cases comp <;>
    simp [readNext, stream, List.suffix_cons, List.suffix_refl, List.nil_suffix]

theorem QXmlStreamReader.readNext_sound (r : QXmlStreamReader) (h : r.sound = true) :
    r.readNext.sound = true := by
  obtain ⟨cur, pend, comp⟩ := r
  cases cur <;> cases pend <;> cases comp <;>
    simp_all [readNext, sound, atEnd, pointRecords_nil]

theorem QXmlStreamReader.readNext_textTimes (r : QXmlStreamReader) (h : r.textTimes = true) :
    r.readNext.textTimes = true := by
  simp only [textTimes, Bool.and_eq_true] at h ⊢
  exact ⟨r.readNext_sound h.1, timesAreText_suffix _ _ r.readNext_stream_suffix h.2⟩

theorem gotoLoop_textTimes (fuel : Nat) (r : QXmlStreamReader) (h : r.textTimes = true) :
    (gotoNextPositionElementLoop fuel r).2.textTimes = true := by
  induction fuel generalizing r with
  | zero => exact h
  | succ n ih =>
    unfold gotoNextPositionElementLoop
    split
    · split
      · exact h
      · exact ih _ (r.readNext_textTimes h)
    · exact h

theorem remaining_of_atEnd (r : QXmlStreamReader) (h : r.atEnd = true) :
    r.remaining = pointRecords r.pending := by
  obtain ⟨cur, pend, comp⟩ := r
  cases cur <;> simp_all [QXmlStreamReader.atEnd, QXmlStreamReader.remaining,
    QXmlStreamReader.stream]

theorem remaining_of_pending_nil (r : QXmlStreamReader) (h : r.pending = [])
    (hon : r.onPointRecord = false) : r.remaining = 0 := by
  obtain ⟨cur, pend, comp⟩ := r
  simp only at h
  subst h
  cases cur with
  | token t =>
    cases t <;> simp_all [QXmlStreamReader.remaining, QXmlStreamReader.stream,
      QXmlStreamReader.onPointRecord, QXmlStreamReader.isStartElement, QXmlStreamReader.name,
      pointRecords_cons, pointRecords_nil, Token.isTrkpt]
  | _ => simp [QXmlStreamReader.remaining, QXmlStreamReader.stream, pointRecords_nil]

theorem readNext_pending_length (r : QXmlStreamReader) (h : r.atEnd = false)
    (hp : r.pending ≠ []) : r.readNext.pending.length + 1 = r.pending.length := by
  obtain ⟨cur, pend, comp⟩ := r
  cases pend with
  | nil => exact absurd rfl hp
  | cons t ts =>
    cases cur <;> simp_all [QXmlStreamReader.readNext, QXmlStreamReader.atEnd]

/-- With a point record ahead and enough fuel, `gotoNextPositionElement` finds it. -/
theorem gotoLoop_finds (fuel : Nat) (r : QXmlStreamReader) (hs : r.sound = true)
    (hf : r.pending.length + 2 ≤ fuel) (hrem : 1 ≤ r.remaining) :
    (gotoNextPositionElementLoop fuel r).1 = true := by
  induction fuel generalizing r with
  | zero => omega
  | succ n ih =>
    unfold gotoNextPositionElementLoop
    by_cases hend : r.atEnd = true
    · have h0 := remaining_of_atEnd r hend
      simp only [QXmlStreamReader.sound, hend, Bool.not_true, Bool.false_or, beq_iff_eq] at hs
      omega
    · have hend2 : r.atEnd = false := by simpa using hend
      have herr : r.hasError = false := by
        obtain ⟨cur, pend, comp⟩ := r
        cases cur <;> simp_all [QXmlStreamReader.atEnd, QXmlStreamReader.hasError]
      simp only [hend2, herr, Bool.not_false, Bool.and_self, if_true]
      split
      · rfl
      · rename_i hon
        have hon2 : r.onPointRecord = false := by
          simpa [QXmlStreamReader.onPointRecord] using hon
        have hp : r.pending ≠ [] := by
          intro hnil
          have := remaining_of_pending_nil r hnil hon2
          omega
        have hl := readNext_pending_length r hend2 hp
        apply ih _ (r.readNext_sound hs) (by omega)
        rw [r.readNext_remaining_eq hon2]
        exact hrem

theorem readNextStartElementLoop_textTimes (fuel : Nat) (r : QXmlStreamReader)
    (h : r.textTimes = true) :
    (QXmlStreamReader.readNextStartElementLoop fuel r).2.textTimes = true := by
  induction fuel generalizing r with
  | zero => exact h
  | succ n ih =>
    unfold QXmlStreamReader.readNextStartElementLoop
    simp only
    have h1 := r.readNext_textTimes h
    split
    · exact h1
    · split
      · exact h1
      · split
        · exact h1
        · exact ih _ h1

/-- Reading the text of an element that holds text only ends on its end element. -/
theorem readElementTextLoop_text (fuel : Nat) (r : QXmlStreamReader) (acc : String)
    (ht : textTerminated r.pending = true) (hend : r.atEnd = false)
    (hf : r.pending.length ≤ fuel) :
    (QXmlStreamReader.readElementTextLoop fuel r acc).2.atEnd = false ∧
    (QXmlStreamReader.readElementTextLoop fuel r acc).2.onPointRecord = false ∧
    (QXmlStreamReader.readElementTextLoop fuel r acc).2.remaining = pointRecords r.pending ∧
    (QXmlStreamReader.readElementTextLoop fuel r acc).2.stream <:+ r.pending := by
  induction fuel generalizing r acc with
  | zero =>
    have : r.pending = [] := List.length_eq_zero.1 (Nat.le_zero.1 hf)
    rw [this] at ht
    simp [textTerminated] at ht
  | succ n ih =>
    obtain ⟨cur, pend, comp⟩ := r
    cases pend with
    | nil => simp [textTerminated] at ht
    | cons t ts =>
      have hnext : (QXmlStreamReader.mk cur (t :: ts) comp).readNext
          = ⟨Current.token t, ts, comp⟩ := by
        cases cur <;> simp_all [QXmlStreamReader.readNext, QXmlStreamReader.atEnd]
      unfold QXmlStreamReader.readElementTextLoop
      simp only [hnext]
      simp only [List.length_cons, Nat.add_le_add_iff_right] at hf
      cases t with
      | EndElement n =>
        simp [QXmlStreamReader.atEnd, QXmlStreamReader.onPointRecord,
          QXmlStreamReader.isStartElement, QXmlStreamReader.remaining,
          QXmlStreamReader.stream, List.suffix_refl]
      | Characters x =>
        simp only [textTerminated] at ht
        have := ih ⟨Current.token (Token.Characters x), ts, comp⟩ (acc ++ x) ht rfl hf
        simp only at this ⊢
        refine ⟨this.1, this.2.1, ?_, ?_⟩
        · rw [this.2.2.1, pointRecords_cons]; simp [Token.isTrkpt]
        · exact List.suffix_cons_iff.2 (Or.inr this.2.2.2)
      | EntityReference nm x =>
        simp only [textTerminated] at ht
        have := ih ⟨Current.token (Token.EntityReference nm x), ts, comp⟩ (acc ++ x) ht rfl hf
        simp only at this ⊢
        refine ⟨this.1, this.2.1, ?_, ?_⟩
        · rw [this.2.2.1, pointRecords_cons]; simp [Token.isTrkpt]
        · exact List.suffix_cons_iff.2 (Or.inr this.2.2.2)
      | Comment x =>
        simp only [textTerminated] at ht
        have := ih ⟨Current.token (Token.Comment x), ts, comp⟩ acc ht rfl hf
        simp only at this ⊢
        refine ⟨this.1, this.2.1, ?_, ?_⟩
        · rw [this.2.2.1, pointRecords_cons]; simp [Token.isTrkpt]
        · exact List.suffix_cons_iff.2 (Or.inr this.2.2.2)
      | ProcessingInstruction x y =>
        simp only [textTerminated] at ht
        have := ih ⟨Current.token (Token.ProcessingInstruction x y), ts, comp⟩ acc ht rfl hf
        simp only at this ⊢
        refine ⟨this.1, this.2.1, ?_, ?_⟩
        · rw [this.2.2.1, pointRecords_cons]; simp [Token.isTrkpt]
        · exact List.suffix_cons_iff.2 (Or.inr this.2.2.2)
      | StartDocument => simp [textTerminated] at ht
      | StartElement _ _ => simp [textTerminated] at ht
      | DTD _ => simp [textTerminated] at ht

theorem onPointRecord_of_not_named (r : QXmlStreamReader)
    (h : sameTextCaseInsensitive r.name "trkpt" = false) : r.onPointRecord = false := by
  cases hon : r.onPointRecord
  · rfl
  · simp only [QXmlStreamReader.onPointRecord, Bool.and_eq_true] at hon
    rw [sameText_caseInsensitive _ _ hon.2] at h
    exact absurd h (by decide)

theorem timeElementStep_textTimes (r : QXmlStreamReader) (time : QTime)
    (h : r.textTimes = true) (hend : r.atEnd = false) (hon : r.onPointRecord = false) :
    (timeElementStep r time).2.textTimes = true ∧
    (timeElementStep r time).2.remaining = r.remaining ∧
    (timeElementStep r time).2.onPointRecord = false := by
  unfold timeElementStep
  split
  · split
    · exact ⟨h, rfl, hon⟩
    · split
      · rename_i hstart hele htime
        obtain ⟨cur, pend, comp⟩ := r
        cases cur with
        | token t =>
          cases t with
          | StartElement n a =>
            simp only [QXmlStreamReader.textTimes, QXmlStreamReader.stream, timesAreText,
              Bool.and_eq_true, Bool.or_eq_true, Bool.not_eq_true'] at h
            simp only [QXmlStreamReader.name] at htime
            have ht : textTerminated pend = true := by
              rcases h.2.1 with hno | hyes
              · simp [Token.isTimeStart, htime] at hno
              · exact hyes
            have key := readElementTextLoop_text (pend.length + 1)
              ⟨Current.token (Token.StartElement n a), pend, comp⟩ "" ht rfl (Nat.le_succ _)
            simp only [QXmlStreamReader.readElementText, QXmlStreamReader.isStartElement,
              if_true]
            refine ⟨?_, ?_, key.2.1⟩
            · simp only [QXmlStreamReader.textTimes, Bool.and_eq_true]
              refine ⟨by simp [QXmlStreamReader.sound, key.1], ?_⟩
              exact timesAreText_suffix _ _ key.2.2.2 h.2.2
            · rw [key.2.2.1]
              simp only [QXmlStreamReader.onPointRecord, QXmlStreamReader.isStartElement,
                QXmlStreamReader.name, Bool.true_and] at hon
              simp [QXmlStreamReader.remaining, QXmlStreamReader.stream, pointRecords_cons,
                Token.isTrkpt, hon]
          | _ => simp [QXmlStreamReader.isStartElement] at hstart
        | _ => simp [QXmlStreamReader.isStartElement] at hstart
      · exact ⟨h, rfl, hon⟩
  · exact ⟨h, rfl, hon⟩

theorem timeElementLoop_textTimes (fuel : Nat) (r : QXmlStreamReader) (time : QTime)
    (h : r.textTimes = true) :
    (timeElementLoop fuel r time).2.textTimes = true ∧
    (timeElementLoop fuel r time).2.remaining = r.remaining := by
  induction fuel generalizing r time with
  | zero => exact ⟨h, rfl⟩
  | succ n ih =>
    unfold timeElementLoop
    split
    · rename_i hc
      simp only [Bool.and_eq_true, Bool.not_eq_true'] at hc
      have hstep := timeElementStep_textTimes r time h hc.2 (onPointRecord_of_not_named r hc.1)
      have hnext := (timeElementStep r time).2.readNext_textTimes hstep.1
      have hrem := (timeElementStep r time).2.readNext_remaining_eq hstep.2.2
      have := ih (timeElementStep r time).2.readNext (timeElementStep r time).1 hnext
      exact ⟨this.1, by rw [this.2, hrem, hstep.2.1]⟩
    · exact ⟨h, rfl⟩

/-- With a point record ahead, text-only time elements and nothing to discard,
`getNextPoint` returns a point and uses up exactly one point record. -/
theorem getNextPointRec_succeeds (fuel : Nat) (r : QXmlStreamReader) (time : QTime)
    (h : r.textTimes = true) (hrem : 1 ≤ r.remaining) :
    (getNextPointRec Point.empty (fuel + 1) r time).1.isEmpty = false ∧
    (getNextPointRec Point.empty (fuel + 1) r time).2.2.textTimes = true ∧
    (getNextPointRec Point.empty (fuel + 1) r time).2.2.remaining + 1 = r.remaining := by
  have hs : r.sound = true := by
    simp only [QXmlStreamReader.textTimes, Bool.and_eq_true] at h
    exact h.1
  have hfound : (gotoNextPositionElement r).1 = true :=
    gotoLoop_finds _ r hs (Nat.le_refl _) hrem
  have hon : (gotoNextPositionElement r).2.onPointRecord = true :=
    gotoLoop_found _ r hfound
  have hinv : (gotoNextPositionElement r).2.textTimes = true := gotoLoop_textTimes _ r h
  have hcount : (gotoNextPositionElement r).2.remaining = r.remaining := gotoLoop_remaining _ r
  have h1 := readNextStartElement_remaining _ hon
  have h2 := readNextStartElementLoop_textTimes
    ((gotoNextPositionElement r).2.pending.length + 2) _ hinv
  have h3 := timeElementLoop_textTimes
    ((gotoNextPositionElement r).2.readNextStartElement.2.pending.length + 2)
    (gotoNextPositionElement r).2.readNextStartElement.2 time h2
  unfold getNextPointRec
  simp only [hfound, Bool.not_true, Bool.false_eq_true, if_false]
  rw [if_neg (by simp)]
  refine ⟨rfl, h3.1, ?_⟩
  dsimp only
  rw [h3.2]
  omega

/-- `initializeInterpolationValues` spelled out on its three fetches. -/
theorem initialize_eq (s : GPSSimulator) :
    initializeInterpolationValues s =
      if (fetch1 s).1.isEmpty || (fetch2 s).1.isEmpty || (fetch3 s).1.isEmpty then
        (false, { s with
          m_gpxReader := (fetch3 s).2.2
          m_segmentStartTime := (fetch1 s).2.1
          m_segmentEndTime := (fetch2 s).2.1
          m_nextSegmentEndTime := (fetch3 s).2.1 })
      else
        (true, { s with
          m_gpxReader := (fetch3 s).2.2
          m_segmentStartTime := (fetch1 s).2.1
          m_segmentEndTime := (fetch2 s).2.1
          m_nextSegmentEndTime := (fetch3 s).2.1
          m_currentSegment := ⟨(fetch1 s).1, (fetch2 s).1⟩
          m_nextSegment := ⟨(fetch2 s).1, (fetch3 s).1⟩
          m_startHeadingDelta := Heading.zero
          m_endHeadingDelta := Heading.angleTo ⟨(fetch1 s).1, (fetch2 s).1⟩ s.m_angleOffset
          m_currentTime := (fetch1 s).2.1 }) := by
  rfl

theorem initialize_ok_iff (s : GPSSimulator) :
    (initializeInterpolationValues s).1 = true ↔
      ((fetch1 s).1.isEmpty = false ∧ (fetch2 s).1.isEmpty = false ∧
        (fetch3 s).1.isEmpty = false) := by
  rw [initialize_eq]
  split
  · rename_i h
    simp only [Bool.or_eq_true] at h
    constructor
    · intro hh; simp at hh
    · rintro ⟨h1, h2, h3⟩
      rcases h with (h | h) | h <;> simp_all
  · rename_i h
    simp only [Bool.or_eq_true, not_or, Bool.not_eq_true] at h
    simp [h.1.1, h.1.2, h.2]

/-- `initializeInterpolationValues` succeeds only on a reader with three point records. -/
theorem initialize_needs_three (s : GPSSimulator)
    (h : (initializeInterpolationValues s).1 = true) :
    3 ≤ s.m_gpxReader.remaining := by
  obtain ⟨h1, h2, h3⟩ := (initialize_ok_iff s).1 h
  have c1 : (fetch1 s).2.2.remaining + 1 ≤ s.m_gpxReader.remaining :=
    getNextPointRec_consumes _ _ _ _ h1
  have c2 : (fetch2 s).2.2.remaining + 1 ≤ (fetch1 s).2.2.remaining :=
    getNextPointRec_consumes _ _ _ _ h2
  have c3 : (fetch3 s).2.2.remaining + 1 ≤ (fetch2 s).2.2.remaining :=
    getNextPointRec_consumes _ _ _ _ h3
  omega

/-- Three point records ahead, text-only time elements and an empty `m_latestPoint`:
`initializeInterpolationValues` succeeds. -/
theorem initialize_succeeds (s : GPSSimulator) (h : s.m_gpxReader.textTimes = true)
    (hrem : 3 ≤ s.m_gpxReader.remaining) (hlatest : s.m_latestPoint = Point.empty) :
    (initializeInterpolationValues s).1 = true := by
  rw [initialize_ok_iff]
  unfold fetch3 fetch2 fetch1
  rw [hlatest]
  obtain ⟨p1, i1, c1⟩ := getNextPointRec_succeeds (s.m_gpxReader.pending.length + 1)
    s.m_gpxReader s.m_segmentStartTime h (by omega)
  obtain ⟨p2, i2, c2⟩ := getNextPointRec_succeeds
    ((getNextPointRec Point.empty (s.m_gpxReader.pending.length + 1 + 1) s.m_gpxReader
      s.m_segmentStartTime).2.2.pending.length + 1) _ s.m_segmentEndTime i1 (by omega)
  obtain ⟨p3, i3, c3⟩ := getNextPointRec_succeeds
    ((getNextPointRec Point.empty
      ((getNextPointRec Point.empty (s.m_gpxReader.pending.length + 1 + 1) s.m_gpxReader
      s.m_segmentStartTime).2.2.pending.length + 1 + 1) _ s.m_segmentEndTime).2.2.pending.length + 1)
      _ s.m_nextSegmentEndTime i2 (by omega)
  exact ⟨p1, p2, p3⟩

theorem remaining_clearAndAddData (data : Document) :
    (QXmlStreamReader.clearAndAddData data).remaining = pointRecords data.tokens := rfl

theorem textTimes_clearAndAddData (data : Document) (h : timesAreText data.tokens = true) :
    (QXmlStreamReader.clearAndAddData data).textTimes = true := by
  simp [QXmlStreamReader.textTimes, QXmlStreamReader.sound, QXmlStreamReader.atEnd,
    QXmlStreamReader.clearAndAddData, QXmlStreamReader.stream, h]

theorem initialize_timer (s : GPSSimulator) :
    (initializeInterpolationValues s).2.m_timer = s.m_timer ∧
    (initializeInterpolationValues s).2.m_timerInterval = s.m_timerInterval ∧
    (initializeInterpolationValues s).2.m_isStarted = s.m_isStarted := by
  rw [initialize_eq]
  split <;> exact ⟨rfl, rfl, rfl⟩

/-- C1 amended: for every buffered log with the reader at its beginning, (1) if the log
holds at least three `trkpt` start elements, every `time` element of the log holds text
only and `m_latestPoint` is the empty point it is constructed as, `startSimulation` arms
the timer with `m_timerInterval` and sets `isStarted` to true; (2) if the log holds fewer
than three `trkpt` start elements, `startSimulation` leaves the timer and `isStarted` as
they were. -/
theorem startSimulation_three_records (s : GPSSimulator)
    (hcursor : s.m_gpxReader = QXmlStreamReader.clearAndAddData s.m_gpxData) :
    (3 ≤ pointRecords s.m_gpxData.tokens → timesAreText s.m_gpxData.tokens = true →
        s.m_latestPoint = Point.empty →
      (startSimulation s).m_timer = ⟨true, s.m_timerInterval⟩ ∧
      isStarted (startSimulation s) = true) ∧
    (pointRecords s.m_gpxData.tokens < 3 →
      (startSimulation s).m_timer = s.m_timer ∧
      isStarted (startSimulation s) = isStarted s) := by
  have hfr := initialize_timer s
  constructor
  · intro h3 htext hlatest
    have hok : (initializeInterpolationValues s).1 = true :=
      initialize_succeeds s (by rw [hcursor]; exact textTimes_clearAndAddData _ htext)
        (by rw [hcursor, remaining_clearAndAddData]; exact h3) hlatest
    simp [startSimulation, isStarted, hok, QTimer.startWith, hfr.2.1]
  · intro hlt
    have hfail : (initializeInterpolationValues s).1 = false := by
      cases hc : (initializeInterpolationValues s).1
      · rfl
      · have := initialize_needs_three s hc
        rw [hcursor, remaining_clearAndAddData] at this
        omega
    simp [startSimulation, isStarted, hfail, hfr.1, hfr.2.2]

/-- C1 amended, on the three-point example log and on a two-point log. -/
theorem startSimulation_three_records_witness :
    ((startSimulation (exampleSimulator 1000 1)).m_timer = ⟨true, 1000⟩ ∧
      isStarted (startSimulation (exampleSimulator 1000 1)) = true) ∧
    ((startSimulation (simulatorOn twoPointLog)).m_timer = (simulatorOn twoPointLog).m_timer ∧
      isStarted (startSimulation (simulatorOn twoPointLog))
        = isStarted (simulatorOn twoPointLog)) :=
  ⟨(startSimulation_three_records (exampleSimulator 1000 1) (by decide)).1
    (by decide) (by decide) (by decide),
   (startSimulation_three_records (simulatorOn twoPointLog) (by decide)).2 (by decide)⟩

/-- C1 as stated fails: a log with three `trkpt` start elements whose first `time` element
holds a child element makes `readElementText` raise an error, the reader stays invalid, and
`startSimulation` arms no timer and leaves `isStarted` false. -/
theorem startSimulation_nested_time :
    (simulatorOn nestedTimeLog).m_gpxReader
      = QXmlStreamReader.clearAndAddData (simulatorOn nestedTimeLog).m_gpxData ∧
    pointRecords (simulatorOn nestedTimeLog).m_gpxData.tokens = 3 ∧
    (startSimulation (simulatorOn nestedTimeLog)).m_timer.active = false ∧
    isStarted (startSimulation (simulatorOn nestedTimeLog)) = false := by
  decide

/-! ## Looping -/

theorem timeElementStep_reader_indep (r : QXmlStreamReader) (t u : QTime) :
    (timeElementStep r t).2 = (timeElementStep r u).2 ∧
    ((timeElementStep r t).1 = (timeElementStep r u).1 ∨
      ((timeElementStep r t).1 = t ∧ (timeElementStep r u).1 = u)) := by
  unfold timeElementStep
  split
  · split
    · exact ⟨rfl, Or.inr ⟨rfl, rfl⟩⟩
    · split
      · exact ⟨rfl, Or.inl rfl⟩
      · exact ⟨rfl, Or.inr ⟨rfl, rfl⟩⟩
  · exact ⟨rfl, Or.inr ⟨rfl, rfl⟩⟩

/-- The time the loop leaves is either read from the log, the same for every time passed
in, or the time passed in; where the reader ends does not depend on that time. -/
theorem timeElementLoop_indep (fuel : Nat) (r : QXmlStreamReader) (t u : QTime) :
    (timeElementLoop fuel r t).2 = (timeElementLoop fuel r u).2 ∧
    ((timeElementLoop fuel r t).1 = (timeElementLoop fuel r u).1 ∨
      ((timeElementLoop fuel r t).1 = t ∧ (timeElementLoop fuel r u).1 = u)) := by
  induction fuel generalizing r t u with
  | zero => exact ⟨rfl, Or.inr ⟨rfl, rfl⟩⟩
  | succ n ih =>
    unfold timeElementLoop
    split
    · obtain ⟨hr, ht⟩ := timeElementStep_reader_indep r t u
      dsimp only
      rw [hr]
      rcases ht with heq | ⟨h1, h2⟩
      · rw [heq]
        exact ⟨rfl, Or.inl rfl⟩
      · rw [h1, h2]
        exact ih _ t u
    · exact ⟨rfl, Or.inr ⟨rfl, rfl⟩⟩

theorem getNextPointRec_indep (latest : Point) (fuel : Nat) (r : QXmlStreamReader)
    (t u : QTime) :
    (getNextPointRec latest fuel r t).1 = (getNextPointRec latest fuel r u).1 ∧
    (getNextPointRec latest fuel r t).2.2 = (getNextPointRec latest fuel r u).2.2 ∧
    ((getNextPointRec latest fuel r t).2.1 = (getNextPointRec latest fuel r u).2.1 ∨
      ((getNextPointRec latest fuel r t).2.1 = t ∧
        (getNextPointRec latest fuel r u).2.1 = u)) := by
  induction fuel generalizing r with
  | zero => exact ⟨rfl, rfl, Or.inr ⟨rfl, rfl⟩⟩
  | succ n ih =>
    unfold getNextPointRec
    simp only
    split
    · exact ⟨rfl, rfl, Or.inr ⟨rfl, rfl⟩⟩
    · split
      · exact ih _
      · have := timeElementLoop_indep
          ((gotoNextPositionElement r).2.readNextStartElement.2.pending.length + 2)
          (gotoNextPositionElement r).2.readNextStartElement.2 t u
        exact ⟨rfl, this.1, this.2⟩

/-- A time that comes out valid when a null time was passed in was read from the log:
it comes out the same whatever time is passed in. -/
theorem getNextPointRec_time_of_valid (latest : Point) (fuel : Nat) (r : QXmlStreamReader)
    (t : QTime) (h : (getNextPointRec latest fuel r QTime.null).2.1.isValid = true) :
    (getNextPointRec latest fuel r t).2.1 = (getNextPointRec latest fuel r QTime.null).2.1 := by
  rcases (getNextPointRec_indep latest fuel r t QTime.null).2.2 with heq | ⟨_, h2⟩
  · exact heq
  · rw [h2] at h
    exact absurd h (by decide)

/-- `updateInterpolationParameters` spelled out on its fetch. -/
theorem update_eq (s : GPSSimulator) :
    updateInterpolationParameters s =
      if (getNextPointRec s.m_latestPoint (s.m_gpxReader.pending.length + 2) s.m_gpxReader
            s.m_nextSegmentEndTime).1.isEmpty then
        (false, { s with
          m_segmentStartTime := s.m_segmentEndTime
          m_segmentEndTime := s.m_nextSegmentEndTime
          m_nextSegmentEndTime := (getNextPointRec s.m_latestPoint
            (s.m_gpxReader.pending.length + 2) s.m_gpxReader s.m_nextSegmentEndTime).2.1
          m_gpxReader := (getNextPointRec s.m_latestPoint
            (s.m_gpxReader.pending.length + 2) s.m_gpxReader s.m_nextSegmentEndTime).2.2 })
      else
        (true, { s with
          m_segmentStartTime := s.m_segmentEndTime
          m_segmentEndTime := s.m_nextSegmentEndTime
          m_nextSegmentEndTime := (getNextPointRec s.m_latestPoint
            (s.m_gpxReader.pending.length + 2) s.m_gpxReader s.m_nextSegmentEndTime).2.1
          m_gpxReader := (getNextPointRec s.m_latestPoint
            (s.m_gpxReader.pending.length + 2) s.m_gpxReader s.m_nextSegmentEndTime).2.2
          m_currentSegment := s.m_nextSegment
          m_nextSegment := ⟨s.m_nextSegment.endPoint, (getNextPointRec s.m_latestPoint
            (s.m_gpxReader.pending.length + 2) s.m_gpxReader s.m_nextSegmentEndTime).1⟩
          m_startHeadingDelta := s.m_endHeadingDelta
          m_endHeadingDelta := Heading.angleTo s.m_nextSegment s.m_angleOffset }) := by
  rfl

theorem sameSetup_refl (a : GPSSimulator) : sameSetup a a :=
  ⟨rfl, rfl, rfl, rfl, rfl, rfl, rfl, rfl⟩

theorem sameSetup_trans (a b c : GPSSimulator) (h1 : sameSetup a b) (h2 : sameSetup b c) :
    sameSetup a c := by
  obtain ⟨a1, a2, a3, a4, a5, a6, a7, a8⟩ := h1
  obtain ⟨b1, b2, b3, b4, b5, b6, b7, b8⟩ := h2
  exact ⟨a1.trans b1, a2.trans b2, a3.trans b3, a4.trans b4, a5.trans b5, a6.trans b6,
    a7.trans b7, a8.trans b8⟩

theorem initialize_sameSetup (s : GPSSimulator) :
    sameSetup (initializeInterpolationValues s).2 s := by
  rw [initialize_eq]
  split <;> exact sameSetup_refl s

theorem update_sameSetup (s : GPSSimulator) :
    sameSetup (updateInterpolationParameters s).2 s := by
  rw [update_eq]
  split <;> exact sameSetup_refl s

theorem rewound_sameSetup (s : GPSSimulator) : sameSetup (rewound s) s :=
  sameSetup_trans _ _ _ (by exact update_sameSetup (advanceClock s)) (sameSetup_refl s)

theorem handleTimerEvent_sameSetup (s : GPSSimulator) :
    sameSetup (handleTimerEvent s).1 s := by
  cases hr : loopRestart s
  · obtain ⟨s2, hcur, heq⟩ := handleTimerEvent_emit s hr
    by_cases h1 : (advanceClock s).m_currentTime.gt (advanceClock s).m_segmentEndTime = true
    · have : (handleTimerEvent s).1 = (updateInterpolationParameters (advanceClock s)).2 := by
        have h2 : (updateInterpolationParameters (advanceClock s)).1 = true := by
          simp [loopRestart, h1] at hr; exact hr
        simp [handleTimerEvent, h1, h2]
      rw [this]
      exact sameSetup_trans _ _ _ (update_sameSetup _) (sameSetup_refl s)
    · have : (handleTimerEvent s).1 = advanceClock s := by
        simp [handleTimerEvent, h1]
      rw [this]
      exact sameSetup_refl s
  · rw [handleTimerEvent_restart s hr]
    exact sameSetup_trans _ _ _ (initialize_sameSetup _) (rewound_sameSetup s)

theorem runTicks_sameSetup (n : Nat) (s : GPSSimulator) : sameSetup (runTicks n s).1 s := by
  induction n generalizing s with
  | zero => exact sameSetup_refl s
  | succ k ih =>
    unfold runTicks
    exact sameSetup_trans _ _ _ (ih _) (handleTimerEvent_sameSetup s)

theorem fetch1_withNullTimes (a : GPSSimulator)
    (hv : (fetch1 (withNullTimes a)).2.1.isValid = true) :
    fetch1 a = fetch1 (withNullTimes a) := by
  have h := getNextPointRec_indep a.m_latestPoint (a.m_gpxReader.pending.length + 2)
    a.m_gpxReader a.m_segmentStartTime QTime.null
  have ht := getNextPointRec_time_of_valid a.m_latestPoint (a.m_gpxReader.pending.length + 2)
    a.m_gpxReader a.m_segmentStartTime hv
  exact Prod.ext h.1 (Prod.ext ht h.2.1)

theorem fetch2_withNullTimes (a : GPSSimulator) (h1 : fetch1 a = fetch1 (withNullTimes a))
    (hv : (fetch2 (withNullTimes a)).2.1.isValid = true) :
    fetch2 a = fetch2 (withNullTimes a) := by
  have e : fetch2 (withNullTimes a)
      = getNextPointRec a.m_latestPoint ((fetch1 a).2.2.pending.length + 2) (fetch1 a).2.2
          QTime.null := by
    rw [h1]; rfl
  rw [e] at hv ⊢
  have h := getNextPointRec_indep a.m_latestPoint ((fetch1 a).2.2.pending.length + 2)
    (fetch1 a).2.2 a.m_segmentEndTime QTime.null
  have ht := getNextPointRec_time_of_valid a.m_latestPoint
    ((fetch1 a).2.2.pending.length + 2) (fetch1 a).2.2 a.m_segmentEndTime hv
  exact Prod.ext h.1 (Prod.ext ht h.2.1)

theorem fetch3_withNullTimes (a : GPSSimulator) (h2 : fetch2 a = fetch2 (withNullTimes a))
    (hv : (fetch3 (withNullTimes a)).2.1.isValid = true) :
    fetch3 a = fetch3 (withNullTimes a) := by
  have e : fetch3 (withNullTimes a)
      = getNextPointRec a.m_latestPoint ((fetch2 a).2.2.pending.length + 2) (fetch2 a).2.2
          QTime.null := by
    rw [h2]; rfl
  rw [e] at hv ⊢
  have h := getNextPointRec_indep a.m_latestPoint ((fetch2 a).2.2.pending.length + 2)
    (fetch2 a).2.2 a.m_nextSegmentEndTime QTime.null
  have ht := getNextPointRec_time_of_valid a.m_latestPoint
    ((fetch2 a).2.2.pending.length + 2) (fetch2 a).2.2 a.m_nextSegmentEndTime hv
  exact Prod.ext h.1 (Prod.ext ht h.2.1)

theorem initialize_times (s : GPSSimulator) :
    (initializeInterpolationValues s).2.m_segmentStartTime = (fetch1 s).2.1 ∧
    (initializeInterpolationValues s).2.m_segmentEndTime = (fetch2 s).2.1 ∧
    (initializeInterpolationValues s).2.m_nextSegmentEndTime = (fetch3 s).2.1 := by
  rw [initialize_eq]
  split <;> exact ⟨rfl, rfl, rfl⟩

theorem fetches_of_readsThreeTimes (a : GPSSimulator) (h : readsThreeTimes a = true) :
    fetch1 a = fetch1 (withNullTimes a) ∧ fetch2 a = fetch2 (withNullTimes a) ∧
    fetch3 a = fetch3 (withNullTimes a) := by
  simp only [readsThreeTimes, Bool.and_eq_true] at h
  obtain ⟨⟨v1, v2⟩, v3⟩ := h
  have ht := initialize_times (withNullTimes a)
  rw [ht.1] at v1
  rw [ht.2.1] at v2
  rw [ht.2.2] at v3
  have h1 := fetch1_withNullTimes a v1
  have h2 := fetch2_withNullTimes a h1 v2
  exact ⟨h1, h2, fetch3_withNullTimes a h2 v3⟩

theorem withNullTimes_congr (a b : GPSSimulator) (hr : a.m_gpxReader = b.m_gpxReader)
    (hl : a.m_latestPoint = b.m_latestPoint) :
    fetch1 (withNullTimes a) = fetch1 (withNullTimes b) ∧
    fetch2 (withNullTimes a) = fetch2 (withNullTimes b) ∧
    fetch3 (withNullTimes a) = fetch3 (withNullTimes b) := by
  have e1 : fetch1 (withNullTimes a) = fetch1 (withNullTimes b) := by
    simp only [fetch1, withNullTimes, hr, hl]
  have e2 : fetch2 (withNullTimes a) = fetch2 (withNullTimes b) := by
    unfold fetch2
    rw [e1]
    simp only [withNullTimes, hl]
  have e3 : fetch3 (withNullTimes a) = fetch3 (withNullTimes b) := by
    unfold fetch3
    rw [e2]
    simp only [withNullTimes, hl]
  exact ⟨e1, e2, e3⟩

theorem readsThreeTimes_congr (a b : GPSSimulator) (hr : a.m_gpxReader = b.m_gpxReader)
    (hl : a.m_latestPoint = b.m_latestPoint) (h : readsThreeTimes b = true) :
    readsThreeTimes a = true := by
  obtain ⟨e1, e2, e3⟩ := withNullTimes_congr a b hr hl
  have ta := initialize_times (withNullTimes a)
  have tb := initialize_times (withNullTimes b)
  simp only [readsThreeTimes, Bool.and_eq_true] at h ⊢
  rw [ta.1, ta.2.1, ta.2.2, e1, e2, e3, ← tb.1, ← tb.2.1, ← tb.2.2]
  exact h

/-- Two states with the same reader and `m_latestPoint`, on a log whose first three
records carry valid times, make the same three fetches. -/
theorem fetches_agree (a b : GPSSimulator) (hr : a.m_gpxReader = b.m_gpxReader)
    (hl : a.m_latestPoint = b.m_latestPoint) (h : readsThreeTimes b = true) :
    fetch1 a = fetch1 b ∧ fetch2 a = fetch2 b ∧ fetch3 a = fetch3 b := by
  obtain ⟨a1, a2, a3⟩ := fetches_of_readsThreeTimes a (readsThreeTimes_congr a b hr hl h)
  obtain ⟨b1, b2, b3⟩ := fetches_of_readsThreeTimes b h
  obtain ⟨e1, e2, e3⟩ := withNullTimes_congr a b hr hl
  exact ⟨a1.trans (e1.trans b1.symm), a2.trans (e2.trans b2.symm),
    a3.trans (e3.trans b3.symm)⟩

theorem startSimulation_of_ok (s : GPSSimulator)
    (hok : (initializeInterpolationValues s).1 = true) :
    startSimulation s =
      { s with
        m_gpxReader := (fetch3 s).2.2
        m_segmentStartTime := (fetch1 s).2.1
        m_segmentEndTime := (fetch2 s).2.1
        m_nextSegmentEndTime := (fetch3 s).2.1
        m_currentSegment := ⟨(fetch1 s).1, (fetch2 s).1⟩
        m_nextSegment := ⟨(fetch2 s).1, (fetch3 s).1⟩
        m_startHeadingDelta := Heading.zero
        m_endHeadingDelta := Heading.angleTo ⟨(fetch1 s).1, (fetch2 s).1⟩ s.m_angleOffset
        m_currentTime := (fetch1 s).2.1
        m_timer := ⟨true, s.m_timerInterval⟩
        m_isStarted := true } := by
  obtain ⟨h1, h2, h3⟩ := (initialize_ok_iff s).1 hok
  unfold startSimulation
  rw [initialize_eq]
  simp [h1, h2, h3, QTimer.startWith]

/-- A loop restart rebuilds the state `startSimulation` left, when the first three
records of the log carry valid times. -/
theorem restart_rebuilds_start (s0 s : GPSSimulator)
    (hcursor : s0.m_gpxReader = QXmlStreamReader.clearAndAddData s0.m_gpxData)
    (hok : (initializeInterpolationValues s0).1 = true)
    (htimes : readsThreeTimes s0 = true)
    (hsetup : sameSetup s (startSimulation s0))
    (hr : loopRestart s = true) :
    (handleTimerEvent s).1 = startSimulation s0 := by
  rw [handleTimerEvent_restart s hr]
  have hS := startSimulation_of_ok s0 hok
  rw [hS] at hsetup ⊢
  obtain ⟨g1, g2, g3, g4, g5, g6, g7, g8⟩ :=
    sameSetup_trans _ _ _ (rewound_sameSetup s) hsetup
  simp only at g1 g2 g3 g4 g5 g6 g7 g8
  have hreader : (rewound s).m_gpxReader = s0.m_gpxReader := by
    have e1 : (rewound s).m_gpxReader = QXmlStreamReader.clearAndAddData s.m_gpxData := rfl
    have e2 : (rewound s).m_gpxData = s.m_gpxData := (rewound_sameSetup s).2.1
    rw [e1, ← e2, g2, hcursor]
  obtain ⟨f1, f2, f3⟩ := fetches_agree (rewound s) s0 hreader g6 htimes
  obtain ⟨p1, p2, p3⟩ := (initialize_ok_iff s0).1 hok
  rw [initialize_eq, f1, f2, f3]
  simp only [p1, p2, p3, Bool.or_self, Bool.false_eq_true, if_false]
  cases hR : rewound s
  rw [hR] at g1 g2 g3 g4 g5 g6 g7 g8
  simp only at g1 g2 g3 g4 g5 g6 g7 g8
  simp only [g1, g2, g3, g4, g5, g6, g7, g8]

/-- C9 as stated fails: on the log A (0 s), B (no time element), C (20 s) the start
succeeds and the first tick restarts the loop, but the restart leaves `m_segmentEndTime`
at 20 s where `startSimulation` left it null, so the two windows differ. -/
theorem restart_keeps_stale_time :
    (simulatorOn missingTimeLog).m_gpxReader
      = QXmlStreamReader.clearAndAddData (simulatorOn missingTimeLog).m_gpxData ∧
    (initializeInterpolationValues (simulatorOn missingTimeLog)).1 = true ∧
    loopRestart (startSimulation (simulatorOn missingTimeLog)) = true ∧
    (startSimulation (simulatorOn missingTimeLog)).m_segmentEndTime = QTime.null ∧
    (handleTimerEvent (startSimulation (simulatorOn missingTimeLog))).1.m_segmentEndTime
      = ⟨20000⟩ ∧
    window (handleTimerEvent (startSimulation (simulatorOn missingTimeLog))).1
      ≠ window (startSimulation (simulatorOn missingTimeLog)) := by
  decide

/-- C9 amended: for every buffered log on which `startSimulation` from the beginning
succeeds and whose first three point records carry valid times of day, the state right
after a tick that triggers a loop restart is the state right after `startSimulation`
(same window, same clock, same reader), so the ticks that follow emit the same events as
the ticks that followed the start. -/
theorem loop_restart_repeats (s0 : GPSSimulator)
    (hcursor : s0.m_gpxReader = QXmlStreamReader.clearAndAddData s0.m_gpxData)
    (hok : (initializeInterpolationValues s0).1 = true)
    (htimes : readsThreeTimes s0 = true)
    (n : Nat)
    (hr : loopRestart (runTicks n (startSimulation s0)).1 = true) :
    (handleTimerEvent (runTicks n (startSimulation s0)).1).2 = [] ∧
    (handleTimerEvent (runTicks n (startSimulation s0)).1).1 = startSimulation s0 ∧
    window (handleTimerEvent (runTicks n (startSimulation s0)).1).1
      = window (startSimulation s0) ∧
    (handleTimerEvent (runTicks n (startSimulation s0)).1).1.m_currentTime
      = (startSimulation s0).m_currentTime ∧
    ∀ k : Nat, (runTicks k (handleTimerEvent (runTicks n (startSimulation s0)).1).1).2
      = (runTicks k (startSimulation s0)).2 := by
  have hstate := restart_rebuilds_start s0 (runTicks n (startSimulation s0)).1 hcursor hok
    htimes (runTicks_sameSetup n (startSimulation s0)) hr
  refine ⟨?_, hstate, ?_, ?_, ?_⟩
  · rw [handleTimerEvent_restart _ hr]
  · rw [hstate]
  · rw [hstate]
  · intro k
    rw [hstate]

/-- C9 amended, on the example log: the eleventh tick restarts the loop. -/
theorem loop_restart_repeats_witness :
    (handleTimerEvent (runTicks 10 (startSimulation (exampleSimulator 1000 1))).1).2 = [] ∧
    (handleTimerEvent (runTicks 10 (startSimulation (exampleSimulator 1000 1))).1).1
      = startSimulation (exampleSimulator 1000 1) ∧
    window (handleTimerEvent (runTicks 10 (startSimulation (exampleSimulator 1000 1))).1).1
      = window (startSimulation (exampleSimulator 1000 1)) ∧
    (handleTimerEvent (runTicks 10 (startSimulation (exampleSimulator 1000 1))).1).1.m_currentTime
      = (startSimulation (exampleSimulator 1000 1)).m_currentTime ∧
    ∀ k : Nat,
      (runTicks k (handleTimerEvent
        (runTicks 10 (startSimulation (exampleSimulator 1000 1))).1).1).2
      = (runTicks k (startSimulation (exampleSimulator 1000 1))).2 :=
  loop_restart_repeats (exampleSimulator 1000 1) (by decide) (by decide) (by decide) 10
    (by decide)

/-- C8: on the log A, A, B, C the duplicate is not discarded. The window built from it has
the degenerate first segment (A, A) and ends its first segment at the duplicate's time,
while the log without the duplicate gives (A, B); the two windows differ. -/
theorem duplicate_not_discarded :
    (simulatorOn duplicateLog).m_latestPoint = Point.empty ∧
    (initializeInterpolationValues (simulatorOn duplicateLog)).2.m_currentSegment
      = ⟨pointA, pointA⟩ ∧
    (initializeInterpolationValues (simulatorOn dedupedLog)).2.m_currentSegment
      = ⟨pointA, pointB⟩ ∧
    window (initializeInterpolationValues (simulatorOn duplicateLog)).2
      ≠ window (initializeInterpolationValues (simulatorOn dedupedLog)).2 := by
  decide

/-! ## The time output of `getNextPoint` -/

theorem readNext_cons (cur : Current) (t : Token) (ts : List Token) (comp : Bool)
    (h : (QXmlStreamReader.mk cur (t :: ts) comp).atEnd = false) :
    (QXmlStreamReader.mk cur (t :: ts) comp).readNext = ⟨Current.token t, ts, comp⟩ := by
  cases cur <;> simp_all [QXmlStreamReader.readNext, QXmlStreamReader.atEnd]

theorem onPointRecord_token (c : Token) (p : List Token) (comp : Bool) :
    (QXmlStreamReader.mk (Current.token c) p comp).onPointRecord = c.isTrkpt := by
  cases c <;> simp [QXmlStreamReader.onPointRecord, QXmlStreamReader.isStartElement,
    QXmlStreamReader.name, Token.isTrkpt]

/-- From a token before a point record, `gotoNextPositionElement` stops on that record. -/
theorem gotoLoop_positions_token (skipped : List Token)
    (hskip : ∀ t ∈ skipped, t.isTrkpt = false) (T : Token) (hT : T.isTrkpt = true)
    (rest : List Token) (comp : Bool) (c : Token) (p : List Token) (fuel : Nat)
    (hshape : c :: p = skipped ++ T :: rest) (hf : skipped.length + 1 ≤ fuel) :
    gotoNextPositionElementLoop fuel ⟨Current.token c, p, comp⟩
      = (true, ⟨Current.token T, rest, comp⟩) := by
  induction skipped generalizing c p fuel with
  | nil =>
    simp only [List.nil_append, List.cons.injEq] at hshape
    obtain ⟨rfl, rfl⟩ := hshape
    cases fuel with
    | zero => omega
    | succ f =>
      have hon := onPointRecord_token c p comp
      rw [hT] at hon
      simp only [QXmlStreamReader.onPointRecord] at hon
      unfold gotoNextPositionElementLoop
      simp [QXmlStreamReader.atEnd, QXmlStreamReader.hasError, hon]
  | cons k ks ih =>
    simp only [List.cons_append, List.cons.injEq] at hshape
    obtain ⟨rfl, hp⟩ := hshape
    cases fuel with
    | zero => omega
    | succ f =>
      have hk : c.isTrkpt = false := hskip c (List.mem_cons_self _ _)
      have hon := onPointRecord_token c p comp
      rw [hk] at hon
      simp only [QXmlStreamReader.onPointRecord] at hon
      cases p with
      | nil => cases ks <;> simp at hp
      | cons c2 p2 =>
        unfold gotoNextPositionElementLoop
        simp only [QXmlStreamReader.atEnd, QXmlStreamReader.hasError, hon, Bool.not_false,
          Bool.and_self, if_true, Bool.false_eq_true, if_false]
        rw [readNext_cons (Current.token c) c2 p2 comp rfl]
        exact ih (fun t ht => hskip t (List.mem_cons_of_mem _ ht)) c2 p2 f hp
          (by simp only [List.length_cons] at hf; omega)

theorem gotoNextPositionElement_positions (r : QXmlStreamReader) (skipped : List Token)
    (hskip : ∀ t ∈ skipped, t.isTrkpt = false) (T : Token) (hT : T.isTrkpt = true)
    (rest : List Token) (hend : r.atEnd = false)
    (hshape : r.stream = skipped ++ T :: rest) :
    gotoNextPositionElement r = (true, ⟨Current.token T, rest, r.complete⟩) := by
  obtain ⟨cur, pend, comp⟩ := r
  cases cur with
  | token c =>
    simp only [QXmlStreamReader.stream] at hshape
    have hl : skipped.length ≤ pend.length := by
      have := congrArg List.length hshape
      simp only [List.length_cons, List.length_append] at this
      omega
    exact gotoLoop_positions_token skipped hskip T hT rest comp c pend _ hshape (by
      simp only; omega)
  | NoToken =>
    simp only [QXmlStreamReader.stream] at hshape
    cases pend with
    | nil => cases skipped <;> simp at hshape
    | cons c p =>
      have hl : skipped.length ≤ p.length := by
        have := congrArg List.length hshape
        simp only [List.length_cons, List.length_append] at this
        omega
      unfold gotoNextPositionElement gotoNextPositionElementLoop
      simp only [QXmlStreamReader.atEnd, QXmlStreamReader.hasError,
        QXmlStreamReader.isStartElement, Bool.not_false, Bool.and_self, if_true,
        Bool.false_and, Bool.false_eq_true, if_false]
      rw [readNext_cons Current.NoToken c p comp rfl]
      exact gotoLoop_positions_token skipped hskip T hT rest comp c p _ hshape (by
        simp only [List.length_cons]; omega)
  | Invalid => simp [QXmlStreamReader.atEnd] at hend
  | EndDocument => simp [QXmlStreamReader.atEnd] at hend

theorem caseInsensitive_time (n : String) (h : sameTextCaseInsensitive n "time" = true) :
    sameTextCaseInsensitive n "trkpt" = false ∧ sameTextCaseInsensitive n "ele" = false := by
  simp only [sameTextCaseInsensitive, beq_iff_eq] at h
  simp only [sameTextCaseInsensitive, h]
  constructor <;> decide

theorem timeElementStep_of_not_time (c : Token) (p : List Token) (comp : Bool) (time : QTime)
    (hc : c.isTimeStart = false) :
    timeElementStep ⟨Current.token c, p, comp⟩ time = (time, ⟨Current.token c, p, comp⟩) := by
  cases c with
  | StartElement n a =>
    simp only [Token.isTimeStart] at hc
    simp only [timeElementStep, QXmlStreamReader.isStartElement, QXmlStreamReader.name, hc,
      if_true, Bool.false_eq_true, if_false]
    split <;> rfl
  | _ => simp [timeElementStep, QXmlStreamReader.isStartElement]

/-- With no `time` start element before the end tag of the record, the loop leaves the
time as it was passed in. -/
theorem timeElementLoop_no_time (kids : List Token)
    (hkids : ∀ t ∈ kids, t.isTimeStart = false) (rest : List Token) (comp : Bool)
    (c : Token) (p : List Token) (fuel : Nat) (time : QTime)
    (hshape : c :: p = kids ++ Token.EndElement "trkpt" :: rest) :
    (timeElementLoop fuel ⟨Current.token c, p, comp⟩ time).1 = time := by
  induction kids generalizing c p fuel with
  | nil =>
    simp only [List.nil_append, List.cons.injEq] at hshape
    obtain ⟨rfl, rfl⟩ := hshape
    cases fuel with
    | zero => rfl
    | succ f =>
      unfold timeElementLoop
      rw [if_neg]
      simp only [QXmlStreamReader.name, Bool.and_eq_true, Bool.not_eq_true', not_and,
        Bool.not_eq_false]
      intro h
      exact absurd h (by decide)
  | cons k ks ih =>
    simp only [List.cons_append, List.cons.injEq] at hshape
    obtain ⟨rfl, hp⟩ := hshape
    cases fuel with
    | zero => rfl
    | succ f =>
      unfold timeElementLoop
      split
      · rw [timeElementStep_of_not_time c p comp time (hkids c (List.mem_cons_self _ _))]
        dsimp only
        cases p with
        | nil => cases ks <;> simp at hp
        | cons c2 p2 =>
          rw [readNext_cons (Current.token c) c2 p2 comp rfl]
          exact ih (fun t ht => hkids t (List.mem_cons_of_mem _ ht)) c2 p2 f hp
      · rfl

theorem namedTrkpt_of_current (c : Token) (p : List Token) (comp : Bool) :
    sameTextCaseInsensitive (QXmlStreamReader.mk (Current.token c) p comp).name "trkpt"
      = c.namedTrkpt := by
  cases c <;> rfl

/-- With a `time` element ahead in the record and no other one, the loop leaves the time
read from its text. -/
theorem timeElementLoop_reads_time (kids1 kids2 : List Token)
    (hkids1 : ∀ t ∈ kids1, t.isTimeStart = false ∧ t.namedTrkpt = false)
    (hkids2 : ∀ t ∈ kids2, t.isTimeStart = false)
    (tn : String) (ta : List (String × String)) (txt en : String)
    (htn : sameTextCaseInsensitive tn "time" = true)
    (rest : List Token) (comp : Bool) (c : Token) (p : List Token) (fuel : Nat) (time : QTime)
    (hshape : c :: p = kids1 ++ Token.StartElement tn ta :: Token.Characters txt ::
      Token.EndElement en :: (kids2 ++ Token.EndElement "trkpt" :: rest))
    (hf : kids1.length + 1 ≤ fuel) :
    (timeElementLoop fuel ⟨Current.token c, p, comp⟩ time).1 = parseTimeString txt.data := by
  induction kids1 generalizing c p fuel with
  | nil =>
    simp only [List.nil_append, List.cons.injEq] at hshape
    obtain ⟨rfl, rfl⟩ := hshape
    cases fuel with
    | zero => omega
    | succ f =>
      obtain ⟨h1, h2⟩ := caseInsensitive_time tn htn
      unfold timeElementLoop
      simp only [QXmlStreamReader.name, h1, QXmlStreamReader.atEnd, Bool.not_false,
        Bool.and_self, if_true]
      have hstep : timeElementStep ⟨Current.token (Token.StartElement tn ta),
          Token.Characters txt :: Token.EndElement en ::
            (kids2 ++ Token.EndElement "trkpt" :: rest), comp⟩ time
          = (parseTimeString txt.data, ⟨Current.token (Token.EndElement en),
              kids2 ++ Token.EndElement "trkpt" :: rest, comp⟩) := by
        simp [timeElementStep, QXmlStreamReader.isStartElement, QXmlStreamReader.name, h2, htn,
          QXmlStreamReader.readElementText, QXmlStreamReader.readElementTextLoop,
          QXmlStreamReader.readNext]
      rw [hstep]
      dsimp only
      cases hk : kids2 ++ Token.EndElement "trkpt" :: rest with
      | nil => cases kids2 <;> simp at hk
      | cons c2 p2 =>
        rw [readNext_cons (Current.token (Token.EndElement en)) c2 p2 comp rfl]
        exact timeElementLoop_no_time kids2 hkids2 rest comp c2 p2 f _ hk.symm
  | cons k ks ih =>
    simp only [List.cons_append, List.cons.injEq] at hshape
    obtain ⟨rfl, hp⟩ := hshape
    cases fuel with
    | zero => omega
    | succ f =>
      obtain ⟨hc1, hc2⟩ := hkids1 c (List.mem_cons_self _ _)
      unfold timeElementLoop
      rw [namedTrkpt_of_current, hc2]
      simp only [QXmlStreamReader.atEnd, Bool.not_false, Bool.and_self, if_true]
      rw [timeElementStep_of_not_time c p comp time hc1]
      dsimp only
      cases p with
      | nil => cases ks <;> simp at hp
      | cons c2 p2 =>
        rw [readNext_cons (Current.token c) c2 p2 comp rfl]
        exact ih (fun t ht => hkids1 t (List.mem_cons_of_mem _ ht)) c2 p2 f hp
          (by simp only [List.length_cons] at hf; omega)

/-- `getNextPoint` on a reader that stands before a point record, with nothing to
discard: the point of that record, and the time the loop over its children leaves. -/
theorem getNextPoint_on_record (s : GPSSimulator) (time : QTime) (skipped : List Token)
    (attrs : List (String × String)) (after : List Token)
    (hend : s.m_gpxReader.atEnd = false) (hskip : ∀ t ∈ skipped, t.isTrkpt = false)
    (hlatest : s.m_latestPoint = Point.empty)
    (hshape : s.m_gpxReader.stream = skipped ++ Token.StartElement "trkpt" attrs :: after) :
    (getNextPoint s time).1
      = Point.xy (toDouble (attributeValue attrs "lon").data)
          (toDouble (attributeValue attrs "lat").data) SpatialReference.wgs84 ∧
    (getNextPoint s time).2.1
      = (timeElementLoop
          ((QXmlStreamReader.mk (Current.token (Token.StartElement "trkpt" attrs)) after
              s.m_gpxReader.complete).readNextStartElement.2.pending.length + 2)
          (QXmlStreamReader.mk (Current.token (Token.StartElement "trkpt" attrs)) after
              s.m_gpxReader.complete).readNextStartElement.2 time).1 := by
  have hgoto := gotoNextPositionElement_positions s.m_gpxReader skipped hskip
    (Token.StartElement "trkpt" attrs) (by simp [Token.isTrkpt, sameText]) after hend hshape
  unfold getNextPoint getNextPointRec
  simp only [hgoto, hlatest, Bool.not_true, Bool.false_eq_true, if_false,
    QXmlStreamReader.attributes]
  rw [if_neg (by simp)]
  exact ⟨rfl, rfl⟩

/-! ## The text of a time element -/

/-- C5 at two states of the example: the eleventh tick restarts the loop and emits
nothing, the first tick emits one event. -/
theorem handleTimerEvent_emission_witness :
    ((handleTimerEvent (runTicks 10 (startSimulation (exampleSimulator 1000 1))).1).2 = [] ∧
      (handleTimerEvent (runTicks 10 (startSimulation (exampleSimulator 1000 1))).1).1
        = (initializeInterpolationValues
            (rewound (runTicks 10 (startSimulation (exampleSimulator 1000 1))).1)).2 ∧
      (rewound (runTicks 10 (startSimulation (exampleSimulator 1000 1))).1).m_gpxReader
        = ⟨Current.NoToken,
            (runTicks 10 (startSimulation (exampleSimulator 1000 1))).1.m_gpxData.tokens,
            (runTicks 10 (startSimulation (exampleSimulator 1000 1))).1.m_gpxData.complete⟩) ∧
    (handleTimerEvent (startSimulation (exampleSimulator 1000 1))).2.length = 1 :=
  ⟨(handleTimerEvent_emission (runTicks 10 (startSimulation (exampleSimulator 1000 1))).1).1
      (by decide),
   (handleTimerEvent_emission (startSimulation (exampleSimulator 1000 1))).2 (by decide)⟩

/-! ## Pause and resume -/

/-- C12: for every state, `pauseSimulation` followed by `resumeSimulation` leaves the
interpolation window (segments, segment times, heading deltas), the clock (`m_currentTime`,
timer interval, multiplier) and the reader exactly as they were; only the timer is touched,
and it ends up active with its interval unchanged. -/
theorem pause_resume_frame (s : GPSSimulator) :
    window (resumeSimulation (pauseSimulation s)) = window s ∧
    (resumeSimulation (pauseSimulation s)).m_currentTime = s.m_currentTime ∧
    (resumeSimulation (pauseSimulation s)).m_gpxReader = s.m_gpxReader ∧
    (resumeSimulation (pauseSimulation s)).m_playbackMultiplier = s.m_playbackMultiplier ∧
    (resumeSimulation (pauseSimulation s)).m_timer.interval = s.m_timer.interval ∧
    resumeSimulation (pauseSimulation s) = { s with m_timer := ⟨true, s.m_timer.interval⟩ } :=
  ⟨rfl, rfl, rfl, rfl, rfl, rfl⟩

/-! ## The window after initialisation and after an advance -/

/-- C13: whenever `initializeInterpolationValues` succeeds, with (p1, t1), (p2, t2), (p3, t3)
the results of its three `getNextPoint` calls in order, the resulting state has
currentSegment = (p1, p2), nextSegment = (p2, p3), segmentStartTime = t1,
segmentEndTime = t2, nextSegmentEndTime = t3, startHeadingDelta = 0,
endHeadingDelta = heading(currentSegment) and currentTime = segmentStartTime. -/
theorem initialize_window (s : GPSSimulator)
    (hok : (initializeInterpolationValues s).1 = true) :
    (initializeInterpolationValues s).2.m_currentSegment = ⟨(fetch1 s).1, (fetch2 s).1⟩ ∧
    (initializeInterpolationValues s).2.m_nextSegment = ⟨(fetch2 s).1, (fetch3 s).1⟩ ∧
    (initializeInterpolationValues s).2.m_segmentStartTime = (fetch1 s).2.1 ∧
    (initializeInterpolationValues s).2.m_segmentEndTime = (fetch2 s).2.1 ∧
    (initializeInterpolationValues s).2.m_nextSegmentEndTime = (fetch3 s).2.1 ∧
    (initializeInterpolationValues s).2.m_startHeadingDelta = Heading.zero ∧
    (initializeInterpolationValues s).2.m_endHeadingDelta
      = heading (initializeInterpolationValues s).2
          (initializeInterpolationValues s).2.m_currentSegment ∧
    (initializeInterpolationValues s).2.m_currentTime
      = (initializeInterpolationValues s).2.m_segmentStartTime := by
  obtain ⟨h1, h2, h3⟩ := (initialize_ok_iff s).1 hok
  rw [initialize_eq]
  simp [h1, h2, h3, heading]

/-- The three fetches of `initializeInterpolationValues` are its three `getNextPoint`
calls, each made in the state the call before it left. -/
theorem fetches_are_getNextPoint (s : GPSSimulator) :
    fetch1 s = ((getNextPoint s s.m_segmentStartTime).1, (getNextPoint s s.m_segmentStartTime).2.1,
      (getNextPoint s s.m_segmentStartTime).2.2.m_gpxReader) ∧
    fetch2 s =
      ((getNextPoint { (getNextPoint s s.m_segmentStartTime).2.2 with
          m_segmentStartTime := (fetch1 s).2.1 } s.m_segmentEndTime).1,
       (getNextPoint { (getNextPoint s s.m_segmentStartTime).2.2 with
          m_segmentStartTime := (fetch1 s).2.1 } s.m_segmentEndTime).2.1,
       (getNextPoint { (getNextPoint s s.m_segmentStartTime).2.2 with
          m_segmentStartTime := (fetch1 s).2.1 } s.m_segmentEndTime).2.2.m_gpxReader) :=
  ⟨rfl, rfl⟩

/-- C13 on the example log: the window is (A, B), (B, C) with times 0 s, 10 s, 20 s. -/
theorem initialize_window_witness :
    (initializeInterpolationValues (exampleSimulator 1000 1)).2.m_currentSegment
      = ⟨(fetch1 (exampleSimulator 1000 1)).1, (fetch2 (exampleSimulator 1000 1)).1⟩ ∧
    (initializeInterpolationValues (exampleSimulator 1000 1)).2.m_nextSegment
      = ⟨(fetch2 (exampleSimulator 1000 1)).1, (fetch3 (exampleSimulator 1000 1)).1⟩ ∧
    (initializeInterpolationValues (exampleSimulator 1000 1)).2.m_segmentStartTime
      = (fetch1 (exampleSimulator 1000 1)).2.1 ∧
    (initializeInterpolationValues (exampleSimulator 1000 1)).2.m_segmentEndTime
      = (fetch2 (exampleSimulator 1000 1)).2.1 ∧
    (initializeInterpolationValues (exampleSimulator 1000 1)).2.m_nextSegmentEndTime
      = (fetch3 (exampleSimulator 1000 1)).2.1 ∧
    (initializeInterpolationValues (exampleSimulator 1000 1)).2.m_startHeadingDelta
      = Heading.zero ∧
    (initializeInterpolationValues (exampleSimulator 1000 1)).2.m_endHeadingDelta
      = heading (initializeInterpolationValues (exampleSimulator 1000 1)).2
          (initializeInterpolationValues (exampleSimulator 1000 1)).2.m_currentSegment ∧
    (initializeInterpolationValues (exampleSimulator 1000 1)).2.m_currentTime
      = (initializeInterpolationValues (exampleSimulator 1000 1)).2.m_segmentStartTime :=
  initialize_window (exampleSimulator 1000 1) (by decide)

/-- The fetches of the example log: A at 0 s, B at 10 s, C at 20 s. -/
theorem example_fetches :
    ((fetch1 (exampleSimulator 1000 1)).1, (fetch1 (exampleSimulator 1000 1)).2.1)
      = (pointA, ⟨0⟩) ∧
    ((fetch2 (exampleSimulator 1000 1)).1, (fetch2 (exampleSimulator 1000 1)).2.1)
      = (pointB, ⟨10000⟩) ∧
    ((fetch3 (exampleSimulator 1000 1)).1, (fetch3 (exampleSimulator 1000 1)).2.1)
      = (pointC, ⟨20000⟩) := by
  decide

/-- `updateInterpolationParameters` spelled out on `fetchNext`. -/
theorem update_ok_iff (s : GPSSimulator) :
    (updateInterpolationParameters s).1 = true ↔ (fetchNext s).1.isEmpty = false := by
  rw [update_eq]
  unfold fetchNext
  split
  · rename_i h; simp [h]
  · rename_i h; simp [h]

/-- C14: whenever `updateInterpolationParameters` succeeds, with (p_new, t_new) the result
of its `getNextPoint` call, the new state has segmentStartTime = old segmentEndTime,
segmentEndTime = old nextSegmentEndTime, nextSegmentEndTime = t_new, currentSegment = old
nextSegment, nextSegment = (end point of the new currentSegment, p_new), startHeadingDelta
= old endHeadingDelta and endHeadingDelta = heading(new currentSegment); and it returns
false exactly when that call returns the empty point. -/
theorem update_window (s : GPSSimulator) :
    ((updateInterpolationParameters s).1 = true →
      (updateInterpolationParameters s).2.m_segmentStartTime = s.m_segmentEndTime ∧
      (updateInterpolationParameters s).2.m_segmentEndTime = s.m_nextSegmentEndTime ∧
      (updateInterpolationParameters s).2.m_nextSegmentEndTime = (fetchNext s).2.1 ∧
      (updateInterpolationParameters s).2.m_currentSegment = s.m_nextSegment ∧
      (updateInterpolationParameters s).2.m_nextSegment
        = ⟨(updateInterpolationParameters s).2.m_currentSegment.endPoint, (fetchNext s).1⟩ ∧
      (updateInterpolationParameters s).2.m_startHeadingDelta = s.m_endHeadingDelta ∧
      (updateInterpolationParameters s).2.m_endHeadingDelta
        = heading (updateInterpolationParameters s).2
            (updateInterpolationParameters s).2.m_currentSegment) ∧
    ((updateInterpolationParameters s).1 = false ↔ (fetchNext s).1 = Point.empty) ∧
    (fetchNext s = ((getNextPoint { s with m_segmentStartTime := s.m_segmentEndTime,
                                           m_segmentEndTime := s.m_nextSegmentEndTime }
                      s.m_nextSegmentEndTime).1,
                    (getNextPoint { s with m_segmentStartTime := s.m_segmentEndTime,
                                           m_segmentEndTime := s.m_nextSegmentEndTime }
                      s.m_nextSegmentEndTime).2.1,
                    (getNextPoint { s with m_segmentStartTime := s.m_segmentEndTime,
                                           m_segmentEndTime := s.m_nextSegmentEndTime }
                      s.m_nextSegmentEndTime).2.2.m_gpxReader)) := by
  refine ⟨?_, ?_, rfl⟩
  · intro hok
    have hne := (update_ok_iff s).1 hok
    unfold fetchNext at hne
    rw [update_eq]
    simp [hne, heading, fetchNext]
  · have h := update_ok_iff s
    cases hp : (fetchNext s).1 <;> cases hu : (updateInterpolationParameters s).1 <;>
      simp_all [Point.isEmpty]

/-- C14 on the four-point log, right after the start: the advance fetches D at 30 s. -/
theorem update_window_witness :
    (updateInterpolationParameters (startSimulation (simulatorOn fourPointLog))).2.m_segmentStartTime
      = (startSimulation (simulatorOn fourPointLog)).m_segmentEndTime ∧
    (updateInterpolationParameters (startSimulation (simulatorOn fourPointLog))).2.m_segmentEndTime
      = (startSimulation (simulatorOn fourPointLog)).m_nextSegmentEndTime ∧
    (updateInterpolationParameters (startSimulation (simulatorOn fourPointLog))).2.m_nextSegmentEndTime
      = (fetchNext (startSimulation (simulatorOn fourPointLog))).2.1 ∧
    (updateInterpolationParameters (startSimulation (simulatorOn fourPointLog))).2.m_currentSegment
      = (startSimulation (simulatorOn fourPointLog)).m_nextSegment ∧
    (updateInterpolationParameters (startSimulation (simulatorOn fourPointLog))).2.m_nextSegment
      = ⟨(updateInterpolationParameters
            (startSimulation (simulatorOn fourPointLog))).2.m_currentSegment.endPoint,
          (fetchNext (startSimulation (simulatorOn fourPointLog))).1⟩ ∧
    (updateInterpolationParameters (startSimulation (simulatorOn fourPointLog))).2.m_startHeadingDelta
      = (startSimulation (simulatorOn fourPointLog)).m_endHeadingDelta ∧
    (updateInterpolationParameters (startSimulation (simulatorOn fourPointLog))).2.m_endHeadingDelta
      = heading (updateInterpolationParameters (startSimulation (simulatorOn fourPointLog))).2
          (updateInterpolationParameters
            (startSimulation (simulatorOn fourPointLog))).2.m_currentSegment :=
  (update_window (startSimulation (simulatorOn fourPointLog))).1 (by decide)

/-- The advance of the four-point log fetches D at 30 s and gives the window (B, C), (C, D). -/
theorem example_advance :
    (fetchNext (startSimulation (simulatorOn fourPointLog))).1 = pointD ∧
    (fetchNext (startSimulation (simulatorOn fourPointLog))).2.1 = ⟨30000⟩ ∧
    (updateInterpolationParameters (startSimulation (simulatorOn fourPointLog))).2.m_currentSegment
      = ⟨pointB, pointC⟩ ∧
    (updateInterpolationParameters (startSimulation (simulatorOn fourPointLog))).2.m_nextSegment
      = ⟨pointC, pointD⟩ := by
  decide

/-! ## The emitted heading -/

/-- C19: for every state, current position and normalized time (below 0.1, above 0.9 or in
between, an infinity or NaN included), `getInterpolatedOrientation` returns
heading(currentSegment); so the heading of every emitted event is the heading of the
current segment of the state it is emitted from. -/
theorem orientation_is_heading :
    (∀ (s : GPSSimulator) (currentPosition : Point) (normalizedTime : NormalizedTime),
      getInterpolatedOrientation s currentPosition normalizedTime
        = heading s s.m_currentSegment) ∧
    (∀ (s : GPSSimulator) (e : PositionUpdate), (handleTimerEvent s).2 = [e] →
      e.orientation
        = heading (handleTimerEvent s).1 (handleTimerEvent s).1.m_currentSegment) := by
  constructor
  · intro s p n
    unfold getInterpolatedOrientation
    split
    · rfl
    · split <;> rfl
  · intro s e hemit
    have hr : loopRestart s = false := by
      cases hc : loopRestart s
      · rfl
      · rw [handleTimerEvent_restart s hc] at hemit
        simp at hemit
    obtain ⟨s2, _, heq⟩ := handleTimerEvent_emit s hr
    rw [heq] at hemit ⊢
    simp only [List.cons.injEq, and_true] at hemit
    subst hemit
    rfl

/-- C19 at the first tick of the example: the heading is that of the segment (A, B). -/
theorem orientation_is_heading_witness :
    (⟨pointA, Heading.angleTo ⟨pointA, pointB⟩ ⟨-180, 0, 180, 0⟩⟩ : PositionUpdate).orientation
      = heading (handleTimerEvent (startSimulation (exampleSimulator 1000 1))).1
          (handleTimerEvent (startSimulation (exampleSimulator 1000 1))).1.m_currentSegment :=
  orientation_is_heading.2 (startSimulation (exampleSimulator 1000 1))
    ⟨pointA, Heading.angleTo ⟨pointA, pointB⟩ ⟨-180, 0, 180, 0⟩⟩ (by decide)

/-! ## The two segments share a point -/

theorem initialize_segments (s : GPSSimulator) :
    ((initializeInterpolationValues s).1 = true →
      (initializeInterpolationValues s).2.m_currentSegment.endPoint
        = (initializeInterpolationValues s).2.m_nextSegment.startPoint) ∧
    ((initializeInterpolationValues s).1 = false →
      (initializeInterpolationValues s).2.m_currentSegment = s.m_currentSegment ∧
      (initializeInterpolationValues s).2.m_nextSegment = s.m_nextSegment) := by
  rw [initialize_eq]
  split
  · exact ⟨fun h => absurd h (by simp), fun _ => ⟨rfl, rfl⟩⟩
  · exact ⟨fun _ => rfl, fun h => absurd h (by simp)⟩

theorem update_segments (s : GPSSimulator) :
    ((updateInterpolationParameters s).1 = true →
      (updateInterpolationParameters s).2.m_currentSegment.endPoint
        = (updateInterpolationParameters s).2.m_nextSegment.startPoint) ∧
    ((updateInterpolationParameters s).1 = false →
      (updateInterpolationParameters s).2.m_currentSegment = s.m_currentSegment ∧
      (updateInterpolationParameters s).2.m_nextSegment = s.m_nextSegment) := by
  rw [update_eq]
  split
  · exact ⟨fun h => absurd h (by simp), fun _ => ⟨rfl, rfl⟩⟩
  · exact ⟨fun _ => rfl, fun h => absurd h (by simp)⟩

/-- A tick keeps the two segments joined. -/
theorem handleTimerEvent_segments (s : GPSSimulator)
    (h : s.m_currentSegment.endPoint = s.m_nextSegment.startPoint) :
    (handleTimerEvent s).1.m_currentSegment.endPoint
      = (handleTimerEvent s).1.m_nextSegment.startPoint := by
  cases hr : loopRestart s
  · by_cases h1 : (advanceClock s).m_currentTime.gt (advanceClock s).m_segmentEndTime = true
    · have h2 : (updateInterpolationParameters (advanceClock s)).1 = true := by
        simp [loopRestart, h1] at hr; exact hr
      have : (handleTimerEvent s).1 = (updateInterpolationParameters (advanceClock s)).2 := by
        simp [handleTimerEvent, h1, h2]
      rw [this]
      exact (update_segments _).1 h2
    · have : (handleTimerEvent s).1 = advanceClock s := by
        simp [handleTimerEvent, h1]
      rw [this]
      exact h
  · rw [handleTimerEvent_restart s hr]
    have h2 : (updateInterpolationParameters (advanceClock s)).1 = false := by
      simp [loopRestart] at hr; exact hr.2
    have hu := (update_segments (advanceClock s)).2 h2
    have hre : (rewound s).m_currentSegment = s.m_currentSegment ∧
        (rewound s).m_nextSegment = s.m_nextSegment := hu
    cases hi : (initializeInterpolationValues (rewound s)).1
    · obtain ⟨e1, e2⟩ := (initialize_segments (rewound s)).2 hi
      rw [e1, e2, hre.1, hre.2]
      exact h
    · exact (initialize_segments (rewound s)).1 hi

/-- C15: in every state reached after a successful `initializeInterpolationValues` by any
sequence of ticks and successful `updateInterpolationParameters` calls, the end point of
`m_currentSegment` is the start point of `m_nextSegment`. -/
theorem segments_joined (s : GPSSimulator) (h : Running s) :
    s.m_currentSegment.endPoint = s.m_nextSegment.startPoint := by
  induction h with
  | initialized s0 hok => exact (initialize_segments s0).1 hok
  | ticked s0 _ ih => exact handleTimerEvent_segments s0 ih
  | updated s0 _ hok _ => exact (update_segments s0).1 hok

/-- C15 on the four-point log: after the initialisation, an advance and a tick. -/
theorem segments_joined_witness :
    (handleTimerEvent (updateInterpolationParameters
      (initializeInterpolationValues (simulatorOn fourPointLog)).2).2).1.m_currentSegment.endPoint
      = (handleTimerEvent (updateInterpolationParameters
          (initializeInterpolationValues
            (simulatorOn fourPointLog)).2).2).1.m_nextSegment.startPoint :=
  segments_joined _
    (Running.ticked _
      (Running.updated _ (Running.initialized (simulatorOn fourPointLog) (by decide))
        (by decide)))

/-! ## The order of the window times -/

/-- C11 as stated fails: the window times are the times of the log, in whatever order the
log has them. On the log A (23:59:50), B (23:59:59), C (00:00:05) the initialisation
succeeds and leaves `m_nextSegmentEndTime` before `m_segmentEndTime`; on the log
A (00:00:00), B (00:00:00), C (00:00:10) it leaves the divisor of the normalized time
zero. -/
theorem window_times_follow_log :
    (initializeInterpolationValues (simulatorOn midnightLog)).1 = true ∧
    (initializeInterpolationValues (simulatorOn midnightLog)).2.m_segmentEndTime
      = ⟨86399000⟩ ∧
    (initializeInterpolationValues (simulatorOn midnightLog)).2.m_nextSegmentEndTime
      = ⟨5000⟩ ∧
    ¬ ((initializeInterpolationValues (simulatorOn midnightLog)).2.m_segmentEndTime.mds
        < (initializeInterpolationValues (simulatorOn midnightLog)).2.m_nextSegmentEndTime.mds) ∧
    (initializeInterpolationValues (simulatorOn sameTimeLog)).1 = true ∧
    ¬ ((initializeInterpolationValues (simulatorOn sameTimeLog)).2.m_segmentStartTime.mds
        < (initializeInterpolationValues (simulatorOn sameTimeLog)).2.m_segmentEndTime.mds) ∧
    (initializeInterpolationValues (simulatorOn sameTimeLog)).2.m_segmentStartTime.msecsTo
      (initializeInterpolationValues (simulatorOn sameTimeLog)).2.m_segmentEndTime = 0 := by
  decide

theorem timesIncreasing_iff (s : GPSSimulator) :
    timesIncreasing s = true ↔
      (s.m_segmentStartTime.isValid = true ∧ s.m_segmentEndTime.isValid = true ∧
        s.m_nextSegmentEndTime.isValid = true ∧
        s.m_segmentStartTime.mds < s.m_segmentEndTime.mds ∧
        s.m_segmentEndTime.mds < s.m_nextSegmentEndTime.mds) := by
  simp [timesIncreasing, and_assoc]

theorem QTime.msecsTo_of_valid (t u : QTime) (ht : t.isValid = true) (hu : u.isValid = true) :
    t.msecsTo u = u.mds - t.mds := by
  simp [QTime.msecsTo, ht, hu, QTime.ds_of_isValid]

/-- The window times after a successful `updateInterpolationParameters`. -/
theorem update_window_fields (s : GPSSimulator)
    (hok : (updateInterpolationParameters s).1 = true) :
    (updateInterpolationParameters s).2.m_segmentStartTime = s.m_segmentEndTime ∧
    (updateInterpolationParameters s).2.m_segmentEndTime = s.m_nextSegmentEndTime ∧
    (updateInterpolationParameters s).2.m_nextSegmentEndTime = (fetchNext s).2.1 ∧
    (updateInterpolationParameters s).2.m_currentSegment = s.m_nextSegment ∧
    (updateInterpolationParameters s).2.m_nextSegment
      = ⟨s.m_nextSegment.endPoint, (fetchNext s).1⟩ ∧
    (updateInterpolationParameters s).2.m_gpxReader = (fetchNext s).2.2 ∧
    (updateInterpolationParameters s).2.m_currentTime = s.m_currentTime := by
  have hne := (update_ok_iff s).1 hok
  unfold fetchNext at hne
  rw [update_eq]
  simp [hne, fetchNext]

/-- C11 amended: in every state reached after a successful `initializeInterpolationValues`
whose three fetched times are valid times of day in strictly increasing order, followed by
any number of successful `updateInterpolationParameters` calls that each fetch a valid
time later than the `m_nextSegmentEndTime` before the call, segmentStartTime <
segmentEndTime < nextSegmentEndTime (all three valid), so the divisor
`m_segmentStartTime.msecsTo(m_segmentEndTime)` of `handleTimerEvent` is strictly
positive. -/
theorem window_times_in_order (s : GPSSimulator) (h : AdvancedInOrder s) :
    timesIncreasing s = true ∧
    s.m_segmentStartTime.mds < s.m_segmentEndTime.mds ∧
    s.m_segmentEndTime.mds < s.m_nextSegmentEndTime.mds ∧
    0 < s.m_segmentStartTime.msecsTo s.m_segmentEndTime := by
  have key : timesIncreasing s = true := by
    induction h with
    | initialized s0 hok h1 h2 h3 h12 h23 =>
      obtain ⟨t1, t2, t3⟩ := initialize_times s0
      rw [timesIncreasing_iff, t1, t2, t3]
      exact ⟨h1, h2, h3, h12, h23⟩
    | updated s0 _ hok hv hlt ih =>
      obtain ⟨u1, u2, u3, _⟩ := (update_window_fields s0) hok
      rw [timesIncreasing_iff] at ih ⊢
      rw [u1, u2, u3]
      exact ⟨ih.2.1, ih.2.2.1, hv, ih.2.2.2.2, hlt⟩
  obtain ⟨v1, v2, _, l1, l2⟩ := (timesIncreasing_iff s).1 key
  refine ⟨key, l1, l2, ?_⟩
  rw [QTime.msecsTo_of_valid _ _ v1 v2]
  omega

/-- C11 amended, on the four-point log after the initialisation and one advance: the
window times are 10 s, 20 s, 30 s. -/
theorem window_times_in_order_witness :
    timesIncreasing (updateInterpolationParameters
      (initializeInterpolationValues (simulatorOn fourPointLog)).2).2 = true ∧
    (updateInterpolationParameters
      (initializeInterpolationValues (simulatorOn fourPointLog)).2).2.m_segmentStartTime.mds
      < (updateInterpolationParameters
          (initializeInterpolationValues (simulatorOn fourPointLog)).2).2.m_segmentEndTime.mds ∧
    (updateInterpolationParameters
      (initializeInterpolationValues (simulatorOn fourPointLog)).2).2.m_segmentEndTime.mds
      < (updateInterpolationParameters
          (initializeInterpolationValues
            (simulatorOn fourPointLog)).2).2.m_nextSegmentEndTime.mds ∧
    0 < (updateInterpolationParameters
      (initializeInterpolationValues (simulatorOn fourPointLog)).2).2.m_segmentStartTime.msecsTo
        (updateInterpolationParameters
          (initializeInterpolationValues (simulatorOn fourPointLog)).2).2.m_segmentEndTime :=
  window_times_in_order _
    (AdvancedInOrder.updated _
      (AdvancedInOrder.initialized (simulatorOn fourPointLog) (by decide) (by decide)
        (by decide) (by decide) (by decide) (by decide))
      (by decide) (by decide) (by decide))

/-! ## Reading the time text -/

theorem digit_bounds (c : Char) (h : c.isDigit = true) : 48 ≤ c.toNat ∧ c.toNat ≤ 57 := by
  simp only [Char.isDigit, Bool.and_eq_true, decide_eq_true_eq] at h
  obtain ⟨h1, h2⟩ := h
  have a : (48 : UInt32).toNat ≤ c.val.toNat := h1
  have b : c.val.toNat ≤ (57 : UInt32).toNat := h2
  exact ⟨a, b⟩

theorem digit_not_space (c : Char) (h : c.isDigit = true) : isSpace c = false := by
  obtain ⟨a, b⟩ := digit_bounds c h
  simp only [isSpace, Bool.or_eq_false_iff, beq_eq_false_iff_ne, ne_eq, Bool.and_eq_false_iff,
    decide_eq_false_iff_not, not_le]
  omega

theorem digit_ne (c d : Char) (h : c.isDigit = true) (hd : d.toNat < 48 ∨ 57 < d.toNat) :
    c ≠ d := by
  obtain ⟨a, b⟩ := digit_bounds c h
  intro e
  subst e
  omega

/-- `toInt` on a field of two decimal digits. -/
theorem toInt_two_digits (a b : Char) (ha : a.isDigit = true) (hb : b.isDigit = true) :
    toInt [a, b] = ((10 * digit a + digit b : Nat) : Int) := by
  have hsa := digit_not_space a ha
  have hsb := digit_not_space b hb
  have hminus : a ≠ '-' := digit_ne a '-' ha (by decide)
  have hplus : a ≠ '+' := digit_ne a '+' ha (by decide)
  obtain ⟨a1, a2⟩ := digit_bounds a ha
  obtain ⟨b1, b2⟩ := digit_bounds b hb
  have htrim : trimmed [a, b] = [a, b] := by
    simp [trimmed, List.dropWhile, hsa, hsb]
  unfold toInt
  rw [htrim]
  split
  · rename_i ds heq
    simp only [List.cons.injEq] at heq
    exact absurd heq.1 hminus
  · rename_i ds heq
    simp only [List.cons.injEq] at heq
    exact absurd heq.1 hplus
  · simp only [parseDigits, List.isEmpty_cons, Bool.false_eq_true, if_false, digitsValue, ha,
      hb, if_true, digit, INT_MIN, INT_MAX]
    rw [if_pos (by omega)]
    simp

theorem splitFields_ne_nil (sep : Char) (l : List Char) : splitFields sep l ≠ [] := by
  cases l with
  | nil => simp [splitFields]
  | cons c cs =>
    unfold splitFields
    split
    · simp
    · split <;> simp

/-- A prefix without the separator stays in front of the first field. -/
theorem splitFields_append (sep : Char) (p x : List Char) (hp : ∀ c ∈ p, c ≠ sep) :
    splitFields sep (p ++ x)
      = (p ++ (splitFields sep x).headD []) :: (splitFields sep x).tail := by
  induction p with
  | nil =>
    cases h : splitFields sep x with
    | nil => exact absurd h (splitFields_ne_nil sep x)
    | cons f fs => simp [h]
  | cons c cs ih =>
    have hc : c ≠ sep := hp c (List.mem_cons_self _ _)
    have ih2 := ih (fun d hd => hp d (List.mem_cons_of_mem _ hd))
    simp only [List.cons_append]
    rw [splitFields, if_neg hc, ih2]

theorem splitFields_at_sep (sep : Char) (p x : List Char) (hp : ∀ c ∈ p, c ≠ sep) :
    splitFields sep (p ++ sep :: x) = p :: splitFields sep x := by
  rw [splitFields_append sep p (sep :: x) hp]
  simp [splitFields]

/-- The fields of a text of the form P HH:MM:SS T. -/
theorem splitFields_time_text (p t : List Char) (h1 h2 m1 m2 s1 s2 : Char)
    (hp : ∀ c ∈ p, c ≠ ':')
    (hh1 : h1.isDigit = true) (hh2 : h2.isDigit = true)
    (hm1 : m1.isDigit = true) (hm2 : m2.isDigit = true)
    (hs1 : s1.isDigit = true) (hs2 : s2.isDigit = true) :
    splitFields ':' (p ++ h1 :: h2 :: ':' :: m1 :: m2 :: ':' :: s1 :: s2 :: t)
      = (p ++ [h1, h2]) :: [m1, m2] :: ([s1, s2] ++ (splitFields ':' t).headD []) ::
          (splitFields ':' t).tail := by
  have c1 : h1 ≠ ':' := digit_ne h1 ':' hh1 (by decide)
  have c2 : h2 ≠ ':' := digit_ne h2 ':' hh2 (by decide)
  have c3 : m1 ≠ ':' := digit_ne m1 ':' hm1 (by decide)
  have c4 : m2 ≠ ':' := digit_ne m2 ':' hm2 (by decide)
  have c5 : s1 ≠ ':' := digit_ne s1 ':' hs1 (by decide)
  have c6 : s2 ≠ ':' := digit_ne s2 ':' hs2 (by decide)
  have e : p ++ h1 :: h2 :: ':' :: m1 :: m2 :: ':' :: s1 :: s2 :: t
      = (p ++ [h1, h2]) ++ ':' :: ([m1, m2] ++ ':' :: ([s1, s2] ++ t)) := by simp
  have hp2 : ∀ c ∈ p ++ [h1, h2], c ≠ ':' := by
    intro c hc
    simp only [List.mem_append, List.mem_cons, List.mem_singleton, List.not_mem_nil,
      or_false] at hc
    rcases hc with hc | hc | hc
    · exact hp c hc
    · rw [hc]; exact c1
    · rw [hc]; exact c2
  have hm : ∀ c ∈ [m1, m2], c ≠ ':' := by
    intro c hc
    simp only [List.mem_cons, List.mem_singleton, List.not_mem_nil, or_false] at hc
    rcases hc with hc | hc
    · rw [hc]; exact c3
    · rw [hc]; exact c4
  have hs : ∀ c ∈ [s1, s2], c ≠ ':' := by
    intro c hc
    simp only [List.mem_cons, List.mem_singleton, List.not_mem_nil, or_false] at hc
    rcases hc with hc | hc
    · rw [hc]; exact c5
    · rw [hc]; exact c6
  rw [e, splitFields_at_sep ':' _ _ hp2, splitFields_at_sep ':' _ _ hm,
    splitFields_append ':' _ _ hs]

/-- The time of day read from a text of the form P HH:MM:SS T. -/
theorem parseTimeString_time_text (p t : List Char) (h1 h2 m1 m2 s1 s2 : Char)
    (hp : ∀ c ∈ p, c ≠ ':')
    (hh1 : h1.isDigit = true) (hh2 : h2.isDigit = true)
    (hm1 : m1.isDigit = true) (hm2 : m2.isDigit = true)
    (hs1 : s1.isDigit = true) (hs2 : s2.isDigit = true)
    (hhour : 10 * digit h1 + digit h2 < 24) (hmin : 10 * digit m1 + digit m2 < 60)
    (hsec : 10 * digit s1 + digit s2 < 60) :
    parseTimeString (p ++ h1 :: h2 :: ':' :: m1 :: m2 :: ':' :: s1 :: s2 :: t)
      = ⟨(((10 * digit h1 + digit h2 : Nat) : Int) * 3600
          + ((10 * digit m1 + digit m2 : Nat) : Int) * 60
          + ((10 * digit s1 + digit s2 : Nat) : Int)) * 1000⟩ := by
  have hsplit := splitFields_time_text p t h1 h2 m1 m2 s1 s2 hp hh1 hh2 hm1 hm2 hs1 hs2
  have f0 : right (sectionAt (p ++ h1 :: h2 :: ':' :: m1 :: m2 :: ':' :: s1 :: s2 :: t) ':' 0) 2
      = [h1, h2] := by
    simp [sectionAt, hsplit, right]
  have f1 : sectionAt (p ++ h1 :: h2 :: ':' :: m1 :: m2 :: ':' :: s1 :: s2 :: t) ':' 1
      = [m1, m2] := by
    simp [sectionAt, hsplit]
  have f2 : left (sectionAt (p ++ h1 :: h2 :: ':' :: m1 :: m2 :: ':' :: s1 :: s2 :: t) ':' 2) 2
      = [s1, s2] := by
    simp [sectionAt, hsplit, left]
  unfold parseTimeString
  simp only [f0, f1, f2, toInt_two_digits _ _ hh1 hh2, toInt_two_digits _ _ hm1 hm2,
    toInt_two_digits _ _ hs1 hs2]
  unfold QTime.setHMS QTime.isValidHMS
  rw [if_pos (by simp only [decide_eq_true_eq]; omega)]
  simp

/-- The handler of a `time` start element whose text follows: the time output becomes the
time read from the text, and the reader ends on the end element. -/
theorem timeElementStep_time_text (tn : String) (ta : List (String × String))
    (txt en : String) (rest : List Token) (comp : Bool) (time : QTime)
    (htn : sameTextCaseInsensitive tn "time" = true) :
    timeElementStep ⟨Current.token (Token.StartElement tn ta),
        Token.Characters txt :: Token.EndElement en :: rest, comp⟩ time
      = (parseTimeString txt.data, ⟨Current.token (Token.EndElement en), rest, comp⟩) := by
  obtain ⟨_, h2⟩ := caseInsensitive_time tn htn
  simp [timeElementStep, QXmlStreamReader.isStartElement, QXmlStreamReader.name, h2, htn,
    QXmlStreamReader.readElementText, QXmlStreamReader.readElementTextLoop,
    QXmlStreamReader.readNext]

/-- C16: for every time text of the form P HH:MM:SS T, where P holds no colon, HH, MM and SS
are fields of two decimal digits that form a time of day and T is any trailing text, the
handler of the `time` element in `getNextPoint` sets the time output to HH hours,
MM minutes, SS seconds and 0 ms, whatever it held before; `2017-01-01T12:34:56Z` gives
12:34:56. -/
theorem time_text_sets_time (p t : List Char) (h1 h2 m1 m2 s1 s2 : Char)
    (hp : ∀ c ∈ p, c ≠ ':')
    (hh1 : h1.isDigit = true) (hh2 : h2.isDigit = true)
    (hm1 : m1.isDigit = true) (hm2 : m2.isDigit = true)
    (hs1 : s1.isDigit = true) (hs2 : s2.isDigit = true)
    (hhour : 10 * digit h1 + digit h2 < 24) (hmin : 10 * digit m1 + digit m2 < 60)
    (hsec : 10 * digit s1 + digit s2 < 60) :
    (∀ (tn : String) (ta : List (String × String)) (txt en : String) (rest : List Token)
        (comp : Bool) (time : QTime),
      sameTextCaseInsensitive tn "time" = true →
      txt.data = p ++ h1 :: h2 :: ':' :: m1 :: m2 :: ':' :: s1 :: s2 :: t →
      (timeElementStep ⟨Current.token (Token.StartElement tn ta),
          Token.Characters txt :: Token.EndElement en :: rest, comp⟩ time).1
        = QTime.setHMS (10 * digit h1 + digit h2) (10 * digit m1 + digit m2)
            (10 * digit s1 + digit s2) 0 ∧
      (timeElementStep ⟨Current.token (Token.StartElement tn ta),
          Token.Characters txt :: Token.EndElement en :: rest, comp⟩ time).1
        = ⟨(((10 * digit h1 + digit h2 : Nat) : Int) * 3600
            + ((10 * digit m1 + digit m2 : Nat) : Int) * 60
            + ((10 * digit s1 + digit s2 : Nat) : Int)) * 1000⟩) ∧
    parseTimeString "2017-01-01T12:34:56Z".data = QTime.setHMS 12 34 56 0 := by
  refine ⟨?_, by decide⟩
  intro tn ta txt en rest comp time htn htxt
  rw [timeElementStep_time_text tn ta txt en rest comp time htn, htxt]
  have key := parseTimeString_time_text p t h1 h2 m1 m2 s1 s2 hp hh1 hh2 hm1 hm2 hs1 hs2
    hhour hmin hsec
  refine ⟨?_, key⟩
  dsimp only
  rw [key]
  unfold QTime.setHMS QTime.isValidHMS
  rw [if_pos (by simp only [decide_eq_true_eq]; omega)]
  simp

/-- C16 at the text `2017-01-01T12:34:56Z` in a `time` element, read with the time output
at null: the output becomes 12:34:56.000. -/
theorem time_text_sets_time_witness :
    (timeElementStep ⟨Current.token (Token.StartElement "time" []),
        Token.Characters "2017-01-01T12:34:56Z" :: Token.EndElement "time" :: [], true⟩
        QTime.null).1
      = QTime.setHMS (10 * digit '1' + digit '2') (10 * digit '3' + digit '4')
          (10 * digit '5' + digit '6') 0 ∧
    (timeElementStep ⟨Current.token (Token.StartElement "time" []),
        Token.Characters "2017-01-01T12:34:56Z" :: Token.EndElement "time" :: [], true⟩
        QTime.null).1
      = ⟨(((10 * digit '1' + digit '2' : Nat) : Int) * 3600
            + ((10 * digit '3' + digit '4' : Nat) : Int) * 60
            + ((10 * digit '5' + digit '6' : Nat) : Int)) * 1000⟩ :=
  (time_text_sets_time "2017-01-01T".data "Z".data '1' '2' '3' '4' '5' '6'
    (by decide) (by decide) (by decide) (by decide) (by decide) (by decide) (by decide)
    (by decide) (by decide) (by decide)).1 "time" [] "2017-01-01T12:34:56Z" "time" [] true
    QTime.null (by decide) (by decide)

/-! ## The range of the normalized time -/

/-- The two ways a tick that emits comes to its state: the clock advance alone, or the
clock advance and one successful window advance. -/
theorem handleTimerEvent_cases (s : GPSSimulator) (hr : loopRestart s = false) :
    ((advanceClock s).m_currentTime.gt (advanceClock s).m_segmentEndTime = false ∧
      (handleTimerEvent s).1 = advanceClock s) ∨
    ((advanceClock s).m_currentTime.gt (advanceClock s).m_segmentEndTime = true ∧
      (updateInterpolationParameters (advanceClock s)).1 = true ∧
      (handleTimerEvent s).1 = (updateInterpolationParameters (advanceClock s)).2) := by
  by_cases h1 : (advanceClock s).m_currentTime.gt (advanceClock s).m_segmentEndTime = true
  · right
    have h2 : (updateInterpolationParameters (advanceClock s)).1 = true := by
      simp [loopRestart, h1] at hr; exact hr
    exact ⟨h1, h2, by simp [handleTimerEvent, h1, h2]⟩
  · left
    exact ⟨by simpa using h1, by simp [handleTimerEvent, h1]⟩

theorem emits_of_not_restart (s : GPSSimulator) (e : PositionUpdate)
    (hemit : (handleTimerEvent s).2 = [e]) : loopRestart s = false := by
  cases hc : loopRestart s
  · rfl
  · rw [handleTimerEvent_restart s hc] at hemit
    simp at hemit

/-- The position a tick emits is chosen by the normalized time of the state it emits
from. -/
theorem emitted_position_by_normalizedTime (s : GPSSimulator) (e : PositionUpdate)
    (hemit : (handleTimerEvent s).2 = [e]) :
    e.position =
      if (normalizedTime (handleTimerEvent s).1).le 1 2
      then (handleTimerEvent s).1.m_currentSegment.startPoint
      else (handleTimerEvent s).1.m_currentSegment.endPoint := by
  obtain ⟨s2, _, heq⟩ := handleTimerEvent_emit s (emits_of_not_restart s e hemit)
  rw [heq] at hemit ⊢
  simp only [List.cons.injEq, and_true] at hemit
  subst hemit
  rfl

/-- C17 as stated fails: the four-point log (0 s, 10 s, 20 s, 30 s) played with interval
1000 ms and multiplier 25 has increasing window times before and after the first tick; the
tick advances the window once, to the segment from 10 s to 20 s, and emits with the clock
at 25 s: the normalized time is 15000 / 10000, above 1. -/
theorem normalized_time_above_one :
    timesIncreasing (startSimulation fastSimulator) = true ∧
    0 < (startSimulation fastSimulator).m_timer.interval ∧
    1 ≤ (startSimulation fastSimulator).m_playbackMultiplier ∧
    (handleTimerEvent (startSimulation fastSimulator)).2.length = 1 ∧
    timesIncreasing (handleTimerEvent (startSimulation fastSimulator)).1 = true ∧
    normalizedTime (handleTimerEvent (startSimulation fastSimulator)).1 = ⟨15000, 10000⟩ ∧
    (normalizedTime (handleTimerEvent (startSimulation fastSimulator)).1).le 1 1 = false := by
  decide

/-- The state a tick emits from, under increasing window times and a clock that is not
before the segment start and stays before midnight: the elapsed time and the divisor. -/
theorem normalizedTime_bounds (s : GPSSimulator) (e : PositionUpdate)
    (hemit : (handleTimerEvent s).2 = [e])
    (hinc : timesIncreasing s = true)
    (hint : 0 < s.m_timer.interval) (hmul : 1 ≤ s.m_playbackMultiplier)
    (hvalid : s.m_currentTime.isValid = true)
    (hafter : s.m_segmentStartTime.mds ≤ s.m_currentTime.mds)
    (hday : s.m_currentTime.mds + s.m_timer.interval * s.m_playbackMultiplier
      < MSECS_PER_DAY) :
    0 < (normalizedTime (handleTimerEvent s).1).val2 ∧
    0 < (normalizedTime (handleTimerEvent s).1).val1 ∧
    ((handleTimerEvent s).1.m_currentTime.mds ≤ (handleTimerEvent s).1.m_segmentEndTime.mds →
      (normalizedTime (handleTimerEvent s).1).val1
        ≤ (normalizedTime (handleTimerEvent s).1).val2) ∧
    ((advanceClock s).m_currentTime.gt (advanceClock s).m_segmentEndTime = false →
      (handleTimerEvent s).1.m_currentTime.mds
        ≤ (handleTimerEvent s).1.m_segmentEndTime.mds) := by
  have hr := emits_of_not_restart s e hemit
  obtain ⟨hclock, _⟩ := clock_advance_eq s hint hmul hvalid hday hr
  have hp : 0 < s.m_timer.interval * s.m_playbackMultiplier := Int.mul_pos hint (by omega)
  obtain ⟨v1, v2, v3, l1, l2⟩ := (timesIncreasing_iff s).1 hinc
  have hv := hvalid
  simp only [QTime.isValid, NullTime, decide_eq_true_eq] at hv
  have hcv : (handleTimerEvent s).1.m_currentTime.isValid = true := by
    simp only [QTime.isValid, NullTime, decide_eq_true_eq, hclock]
    omega
  have hadv : (advanceClock s).m_currentTime = (handleTimerEvent s).1.m_currentTime := by
    obtain ⟨s2, hcur, heq⟩ := handleTimerEvent_emit s hr
    rw [heq]; exact hcur.symm
  rcases handleTimerEvent_cases s hr with ⟨hgt, hst⟩ | ⟨hgt, hok, hst⟩
  · have e1 : (handleTimerEvent s).1.m_segmentStartTime = s.m_segmentStartTime := by
      rw [hst]; rfl
    have e2 : (handleTimerEvent s).1.m_segmentEndTime = s.m_segmentEndTime := by
      rw [hst]; rfl
    have hle : (handleTimerEvent s).1.m_currentTime.mds ≤ s.m_segmentEndTime.mds := by
      rw [hadv] at hgt
      have : (advanceClock s).m_segmentEndTime = s.m_segmentEndTime := rfl
      rw [this] at hgt
      simp only [QTime.gt, decide_eq_false_iff_not, not_lt, gt_iff_lt] at hgt
      exact hgt
    simp only [normalizedTime, e1, e2]
    rw [QTime.msecsTo_of_valid _ _ v1 hcv, QTime.msecsTo_of_valid _ _ v1 v2]
    refine ⟨by omega, by omega, fun _ => by omega, fun _ => hle⟩
  · obtain ⟨u1, u2, _⟩ := update_window_fields (advanceClock s) hok
    have e1 : (handleTimerEvent s).1.m_segmentStartTime = s.m_segmentEndTime := by
      rw [hst, u1]; rfl
    have e2 : (handleTimerEvent s).1.m_segmentEndTime = s.m_nextSegmentEndTime := by
      rw [hst, u2]; rfl
    have hlt : s.m_segmentEndTime.mds < (handleTimerEvent s).1.m_currentTime.mds := by
      rw [hadv] at hgt
      have : (advanceClock s).m_segmentEndTime = s.m_segmentEndTime := rfl
      rw [this] at hgt
      simp only [QTime.gt, decide_eq_true_eq, gt_iff_lt] at hgt
      exact hgt
    simp only [normalizedTime, e1, e2]
    rw [QTime.msecsTo_of_valid _ _ v2 hcv, QTime.msecsTo_of_valid _ _ v2 v3]
    refine ⟨by omega, by omega, fun h => by omega, fun h => ?_⟩
    rw [h] at hgt
    exact absurd hgt (by decide)

/-- C17, amended: on a tick that emits, from a state whose window times are valid and
strictly increasing, with interval > 0, multiplier ≥ 1 and a valid clock that is not before
the segment start and stays before midnight, the divisor of the normalized time is positive
and the normalized time is positive; it is at most 1 exactly when the advanced clock is
not past the end time of the window the tick emits from, which is the case on every tick
that does not advance the window. -/
theorem normalized_time_range (s : GPSSimulator) (e : PositionUpdate)
    (hemit : (handleTimerEvent s).2 = [e])
    (hinc : timesIncreasing s = true)
    (hint : 0 < s.m_timer.interval) (hmul : 1 ≤ s.m_playbackMultiplier)
    (hvalid : s.m_currentTime.isValid = true)
    (hafter : s.m_segmentStartTime.mds ≤ s.m_currentTime.mds)
    (hday : s.m_currentTime.mds + s.m_timer.interval * s.m_playbackMultiplier
      < MSECS_PER_DAY) :
    0 < (normalizedTime (handleTimerEvent s).1).val2 ∧
    (0 : ℚ) < ((normalizedTime (handleTimerEvent s).1).val1 : ℚ)
      / ((normalizedTime (handleTimerEvent s).1).val2 : ℚ) ∧
    (((normalizedTime (handleTimerEvent s).1).val1 : ℚ)
      / ((normalizedTime (handleTimerEvent s).1).val2 : ℚ) ≤ 1 ↔
      (handleTimerEvent s).1.m_currentTime.mds
        ≤ (handleTimerEvent s).1.m_segmentEndTime.mds) ∧
    ((advanceClock s).m_currentTime.gt (advanceClock s).m_segmentEndTime = false →
      ((normalizedTime (handleTimerEvent s).1).val1 : ℚ)
        / ((normalizedTime (handleTimerEvent s).1).val2 : ℚ) ≤ 1) := by
  obtain ⟨h2, h1, hle, hno⟩ :=
    normalizedTime_bounds s e hemit hinc hint hmul hvalid hafter hday
  have hr := emits_of_not_restart s e hemit
  have q2 : (0 : ℚ) < ((normalizedTime (handleTimerEvent s).1).val2 : ℚ) := by
    exact_mod_cast h2
  have q1 : (0 : ℚ) < ((normalizedTime (handleTimerEvent s).1).val1 : ℚ) := by
    exact_mod_cast h1
  have hiff : ((normalizedTime (handleTimerEvent s).1).val1 : ℚ)
      / ((normalizedTime (handleTimerEvent s).1).val2 : ℚ) ≤ 1 ↔
      (normalizedTime (handleTimerEvent s).1).val1
        ≤ (normalizedTime (handleTimerEvent s).1).val2 := by
    rw [div_le_one q2]
    exact_mod_cast Iff.rfl
  refine ⟨h2, div_pos q1 q2, ?_, fun h => hiff.2 (hle (hno h))⟩
  rw [hiff]
  refine ⟨fun h => ?_, hle⟩
  -- the converse: read the two differences back
  obtain ⟨v1, v2, v3, l1, l2⟩ := (timesIncreasing_iff s).1 hinc
  obtain ⟨hclock, _⟩ := clock_advance_eq s hint hmul hvalid hday hr
  have hp : 0 < s.m_timer.interval * s.m_playbackMultiplier := Int.mul_pos hint (by omega)
  have hv := hvalid
  simp only [QTime.isValid, NullTime, decide_eq_true_eq] at hv
  have hcv : (handleTimerEvent s).1.m_currentTime.isValid = true := by
    simp only [QTime.isValid, NullTime, decide_eq_true_eq, hclock]
    omega
  rcases handleTimerEvent_cases s hr with ⟨hgt, hst⟩ | ⟨hgt, hok, hst⟩
  · have e1 : (handleTimerEvent s).1.m_segmentStartTime = s.m_segmentStartTime := by
      rw [hst]; rfl
    have e2 : (handleTimerEvent s).1.m_segmentEndTime = s.m_segmentEndTime := by
      rw [hst]; rfl
    simp only [normalizedTime, e1, e2] at h
    rw [QTime.msecsTo_of_valid _ _ v1 hcv, QTime.msecsTo_of_valid _ _ v1 v2] at h
    rw [e2]; omega
  · obtain ⟨u1, u2, _⟩ := update_window_fields (advanceClock s) hok
    have e1 : (handleTimerEvent s).1.m_segmentStartTime = s.m_segmentEndTime := by
      rw [hst, u1]; rfl
    have e2 : (handleTimerEvent s).1.m_segmentEndTime = s.m_nextSegmentEndTime := by
      rw [hst, u2]; rfl
    simp only [normalizedTime, e1, e2] at h
    rw [QTime.msecsTo_of_valid _ _ v2 hcv, QTime.msecsTo_of_valid _ _ v2 v3] at h
    rw [e2]; omega

/-- C17 amended, at the first tick of the example (A 0 s, B 10 s, C 20 s, interval
1000 ms, multiplier 1): the tick emits A with the clock at 1 s, and the normalized time
1000 / 10000 lies in (0, 1]. -/
theorem normalized_time_range_witness :
    (0 : ℚ) < ((normalizedTime (handleTimerEvent
        (startSimulation (exampleSimulator 1000 1))).1).val1 : ℚ)
      / ((normalizedTime (handleTimerEvent
        (startSimulation (exampleSimulator 1000 1))).1).val2 : ℚ) ∧
    ((normalizedTime (handleTimerEvent
        (startSimulation (exampleSimulator 1000 1))).1).val1 : ℚ)
      / ((normalizedTime (handleTimerEvent
        (startSimulation (exampleSimulator 1000 1))).1).val2 : ℚ) ≤ 1 :=
  ⟨(normalized_time_range (startSimulation (exampleSimulator 1000 1))
      ⟨pointA, Heading.angleTo ⟨pointA, pointB⟩ ⟨-180, 0, 180, 0⟩⟩
      (by decide) (by decide) (by decide) (by decide) (by decide) (by decide)
      (by decide)).2.1,
   (normalized_time_range (startSimulation (exampleSimulator 1000 1))
      ⟨pointA, Heading.angleTo ⟨pointA, pointB⟩ ⟨-180, 0, 180, 0⟩⟩
      (by decide) (by decide) (by decide) (by decide) (by decide) (by decide)
      (by decide)).2.2.2 (by decide)⟩

/-! ## The next point of the log -/

theorem remaining_pos_of_onPointRecord (r : QXmlStreamReader)
    (h : r.onPointRecord = true) : 1 ≤ r.remaining := by
  rcases r with ⟨cur, p, comp⟩
  cases cur with
  | token t =>
    rw [onPointRecord_token] at h
    simp [QXmlStreamReader.remaining, QXmlStreamReader.stream, pointRecords_cons, h]
  | _ => simp [QXmlStreamReader.onPointRecord, QXmlStreamReader.isStartElement] at h

/-- With nothing to discard, `getNextPoint` fails exactly when the search for a point
record fails. -/
theorem getNextPointRec_empty_iff (fuel : Nat) (r : QXmlStreamReader) (time : QTime) :
    (getNextPointRec Point.empty (fuel + 1) r time).1 = Point.empty ↔
      (gotoNextPositionElement r).1 = false := by
  cases hf : (gotoNextPositionElement r).1 <;> simp [getNextPointRec, hf]

/-- C18 as stated fails: after the first fetch on `nestedTimeLog` the reader is in its
error state; two `trkpt` start elements are still unread, and `getNextPoint` returns the
empty point. -/
theorem getNextPoint_after_error :
    (getNextPoint (simulatorOn nestedTimeLog) QTime.null).1 = pointA ∧
    erroredSimulator.m_gpxReader.hasError = true ∧
    erroredSimulator.m_latestPoint = Point.empty ∧
    pointRecords erroredSimulator.m_gpxReader.stream = 2 ∧
    (getNextPoint erroredSimulator QTime.null).1 = Point.empty := by
  decide

/-- With the reader not stopped on an error with point records unread and nothing to
discard, `getNextPoint` fails exactly when no point record is left, and returns the point
of the first one otherwise. -/
theorem getNextPoint_of_sound (s : GPSSimulator) (time : QTime)
    (hsound : s.m_gpxReader.sound = true) (hlatest : s.m_latestPoint = Point.empty) :
    ((getNextPoint s time).1 = Point.empty ↔ pointRecords s.m_gpxReader.stream = 0) ∧
    (∀ (skipped : List Token) (attrs : List (String × String)) (after : List Token),
      (∀ t ∈ skipped, t.isTrkpt = false) →
      s.m_gpxReader.stream = skipped ++ Token.StartElement "trkpt" attrs :: after →
      (getNextPoint s time).1
        = Point.xy (toDouble (attributeValue attrs "lon").data)
            (toDouble (attributeValue attrs "lat").data) SpatialReference.wgs84) := by
  constructor
  · have hp : (getNextPoint s time).1
        = (getNextPointRec Point.empty (s.m_gpxReader.pending.length + 1 + 1)
            s.m_gpxReader time).1 := by
      simp [getNextPoint, hlatest]
    rw [hp, getNextPointRec_empty_iff]
    constructor
    · intro hnot
      by_contra hne
      have hrem : 1 ≤ s.m_gpxReader.remaining := by
        unfold QXmlStreamReader.remaining; omega
      have := gotoLoop_finds (s.m_gpxReader.pending.length + 2) s.m_gpxReader hsound
        (le_refl _) hrem
      unfold gotoNextPositionElement at hnot
      rw [hnot] at this
      exact absurd this (by decide)
    · intro hzero
      cases hf : (gotoNextPositionElement s.m_gpxReader).1
      · rfl
      · have h1 := gotoLoop_found (s.m_gpxReader.pending.length + 2) s.m_gpxReader hf
        have h2 := remaining_pos_of_onPointRecord _ h1
        rw [gotoLoop_remaining] at h2
        unfold QXmlStreamReader.remaining at h2
        omega
  · intro skipped attrs after hskip hshape
    have hend : s.m_gpxReader.atEnd = false := by
      cases hE : s.m_gpxReader.atEnd
      · rfl
      · exfalso
        have hrem := remaining_of_atEnd s.m_gpxReader hE
        have hz : pointRecords s.m_gpxReader.pending = 0 := by
          simpa [QXmlStreamReader.sound, hE] using hsound
        unfold QXmlStreamReader.remaining at hrem
        rw [hshape] at hrem
        have : 1 ≤ pointRecords (skipped ++ Token.StartElement "trkpt" attrs :: after) := by
          simp only [pointRecords, List.countP_append, List.countP_cons, Token.isTrkpt,
            sameText, beq_self_eq_true, if_true]
          omega
        omega
    exact (getNextPoint_on_record s time skipped attrs after hend hskip hlatest hshape).1

/-- C18, amended: (1) when the reader has not stopped on an error with point records
unread and `m_latestPoint` is the empty point, `getNextPoint` returns the empty point
exactly when no `trkpt` start element is left on or after the cursor, and otherwise the
point built from the `lon` and `lat` attributes of the first one; (2) once the reader is in
its error state, `getNextPoint` returns the empty point whatever is left unread, and leaves
the time output and the reader as they were. -/
theorem getNextPoint_first_record (s : GPSSimulator) (time : QTime) :
    (s.m_gpxReader.sound = true → s.m_latestPoint = Point.empty →
      ((getNextPoint s time).1 = Point.empty ↔ pointRecords s.m_gpxReader.stream = 0) ∧
      (∀ (skipped : List Token) (attrs : List (String × String)) (after : List Token),
        (∀ t ∈ skipped, t.isTrkpt = false) →
        s.m_gpxReader.stream = skipped ++ Token.StartElement "trkpt" attrs :: after →
        (getNextPoint s time).1
          = Point.xy (toDouble (attributeValue attrs "lon").data)
              (toDouble (attributeValue attrs "lat").data) SpatialReference.wgs84)) ∧
    (s.m_gpxReader.hasError = true →
      (getNextPoint s time).1 = Point.empty ∧
      (getNextPoint s time).2.1 = time ∧
      (getNextPoint s time).2.2.m_gpxReader = s.m_gpxReader) := by
  constructor
  · intro hsound hlatest
    exact getNextPoint_of_sound s time hsound hlatest
  · intro herr
    have hend : s.m_gpxReader.atEnd = true := by
      rcases hr : s.m_gpxReader with ⟨cur, p, comp⟩
      rw [hr] at herr
      cases cur <;> simp [QXmlStreamReader.hasError, QXmlStreamReader.atEnd] at herr ⊢
    have h := getNextPointRec_of_atEnd s.m_latestPoint (s.m_gpxReader.pending.length + 2)
      s.m_gpxReader time hend
    simp [getNextPoint, h]

/-- C18 amended, at two states: on the example log before the first read three records are
left and `getNextPoint` returns A, the point of the first one; on the reader in its error
state, with two records unread, it returns the empty point and leaves the time output at
12:00:00. -/
theorem getNextPoint_first_record_witness :
    (¬ (getNextPoint (simulatorOn exampleLog) QTime.null).1 = Point.empty ∧
      (getNextPoint (simulatorOn exampleLog) QTime.null).1
        = Point.xy (toDouble "4.0".data) (toDouble "52.0".data) SpatialReference.wgs84) ∧
    ((getNextPoint erroredSimulator ⟨43200000⟩).1 = Point.empty ∧
      (getNextPoint erroredSimulator ⟨43200000⟩).2.1 = ⟨43200000⟩ ∧
      (getNextPoint erroredSimulator ⟨43200000⟩).2.2.m_gpxReader
        = erroredSimulator.m_gpxReader) :=
  ⟨⟨fun h => absurd (((getNextPoint_first_record (simulatorOn exampleLog) QTime.null).1
        (by decide) (by decide)).1.1 h) (by decide),
    ((getNextPoint_first_record (simulatorOn exampleLog) QTime.null).1
        (by decide) (by decide)).2
      [Token.StartDocument, Token.StartElement "gpx" [], Token.StartElement "trk" [],
        Token.StartElement "trkseg" []]
      [("lat", "52.0"), ("lon", "4.0")]
      ([Token.StartElement "time" [], Token.Characters "2017-01-01T00:00:00Z",
        Token.EndElement "time", Token.EndElement "trkpt"] ++
        trackPoint "5.0" "53.0" "2017-01-01T00:00:10Z" ++
        trackPoint "6.0" "54.0" "2017-01-01T00:00:20Z" ++
        [Token.EndElement "trkseg", Token.EndElement "trk", Token.EndElement "gpx"])
      (by decide) (by decide)⟩,
   (getNextPoint_first_record erroredSimulator ⟨43200000⟩).2 (by decide)⟩

/-! ## The points ahead of the reader -/

theorem logPoints_cons (t : Token) (l : List Token) :
    logPoints (t :: l) = (if t.isTrkpt then (t.pointOf).toList else []) ++ logPoints l := by
  cases t <;> simp [logPoints, List.filterMap_cons, Token.pointOf, Token.isTrkpt]
  split <;> simp_all

theorem logPoints_nil : logPoints [] = [] := rfl

theorem logPoints_length (l : List Token) : (logPoints l).length = pointRecords l := by
  induction l with
  | nil => rfl
  | cons t l ih =>
    rw [logPoints_cons, pointRecords_cons, List.length_append, ih]
    cases t <;> simp [Token.isTrkpt, Token.pointOf]
    split <;> simp_all
    omega

theorem ahead_readNext_of_not (r : QXmlStreamReader) (h : r.onPointRecord = false) :
    r.readNext.ahead = r.ahead := by
  rcases r with ⟨cur, p, comp⟩
  cases cur with
  | token t =>
    rw [onPointRecord_token] at h
    cases p with
    | nil =>
      cases comp <;>
        simp [QXmlStreamReader.readNext, QXmlStreamReader.ahead, QXmlStreamReader.atEnd,
          QXmlStreamReader.stream, logPoints_cons t, h, logPoints_nil]
    | cons t2 ts =>
      simp [QXmlStreamReader.readNext, QXmlStreamReader.ahead, QXmlStreamReader.atEnd,
        QXmlStreamReader.stream, logPoints_cons t, h]
  | NoToken =>
    cases p with
    | nil =>
      cases comp <;>
        simp [QXmlStreamReader.readNext, QXmlStreamReader.ahead, QXmlStreamReader.atEnd,
          QXmlStreamReader.stream, logPoints]
    | cons t2 ts =>
      simp [QXmlStreamReader.readNext, QXmlStreamReader.ahead, QXmlStreamReader.atEnd,
        QXmlStreamReader.stream]
  | Invalid =>
    simp [QXmlStreamReader.readNext, QXmlStreamReader.ahead, QXmlStreamReader.atEnd]
  | EndDocument =>
    simp [QXmlStreamReader.readNext, QXmlStreamReader.ahead, QXmlStreamReader.atEnd]

theorem ahead_of_on (r : QXmlStreamReader) (h : r.onPointRecord = true) :
    r.ahead = Point.xy (toDouble (attributeValue r.attributes "lon").data)
        (toDouble (attributeValue r.attributes "lat").data) SpatialReference.wgs84
      :: logPoints r.pending := by
  rcases r with ⟨cur, p, comp⟩
  cases cur with
  | token t =>
    cases t with
    | StartElement n attrs =>
      simp only [QXmlStreamReader.onPointRecord, QXmlStreamReader.isStartElement,
        QXmlStreamReader.name, Bool.true_and] at h
      simp [QXmlStreamReader.ahead, QXmlStreamReader.atEnd, QXmlStreamReader.stream,
        logPoints_cons, Token.isTrkpt, Token.pointOf, h, QXmlStreamReader.attributes]
    | _ => simp [QXmlStreamReader.onPointRecord, QXmlStreamReader.isStartElement] at h
  | _ => simp [QXmlStreamReader.onPointRecord, QXmlStreamReader.isStartElement] at h

theorem ahead_readNext_of_on (r : QXmlStreamReader) (h : r.onPointRecord = true) :
    r.readNext.ahead = r.ahead.tail := by
  rw [ahead_of_on r h]
  rcases r with ⟨cur, p, comp⟩
  cases cur with
  | token t =>
    cases p with
    | nil =>
      cases comp <;>
        simp [QXmlStreamReader.readNext, QXmlStreamReader.ahead, QXmlStreamReader.atEnd,
          logPoints]
    | cons t2 ts =>
      simp [QXmlStreamReader.readNext, QXmlStreamReader.ahead, QXmlStreamReader.atEnd,
        QXmlStreamReader.stream]
  | _ => simp [QXmlStreamReader.onPointRecord, QXmlStreamReader.isStartElement] at h

theorem gotoLoop_ahead (fuel : Nat) (r : QXmlStreamReader) :
    (gotoNextPositionElementLoop fuel r).2.ahead = r.ahead := by
  induction fuel generalizing r with
  | zero => rfl
  | succ n ih =>
    unfold gotoNextPositionElementLoop
    by_cases hc : (!r.atEnd && !r.hasError) = true
    · by_cases hp : (r.isStartElement && sameText r.name "trkpt") = true
      · simp [hc, hp]
      · have hp2 : r.onPointRecord = false := by
          simpa [QXmlStreamReader.onPointRecord] using hp
        rw [if_pos hc, if_neg hp, ih, ahead_readNext_of_not r hp2]
    · rw [if_neg hc]

theorem onPointRecord_of_not_start (r : QXmlStreamReader) (h : r.isStartElement = false) :
    r.onPointRecord = false := by
  simp [QXmlStreamReader.onPointRecord, h]

theorem readNextStartElementLoop_ahead (fuel : Nat) (r : QXmlStreamReader)
    (h : r.onPointRecord = false) :
    (QXmlStreamReader.readNextStartElementLoop fuel r).2.ahead = r.ahead := by
  induction fuel generalizing r with
  | zero => rfl
  | succ n ih =>
    unfold QXmlStreamReader.readNextStartElementLoop
    simp only
    split
    · exact ahead_readNext_of_not r h
    · split
      · exact ahead_readNext_of_not r h
      · split
        · exact ahead_readNext_of_not r h
        · rename_i _ _ hs
          rw [ih _ (onPointRecord_of_not_start _ (by simpa using hs))]
          exact ahead_readNext_of_not r h

/-- From a point record, `readNextStartElement` leaves the points of the records after
it ahead of the reader. -/
theorem readNextStartElement_ahead (r : QXmlStreamReader) (h : r.onPointRecord = true) :
    r.readNextStartElement.2.ahead = r.ahead.tail := by
  unfold QXmlStreamReader.readNextStartElement QXmlStreamReader.readNextStartElementLoop
  simp only
  split
  · exact ahead_readNext_of_on r h
  · split
    · exact ahead_readNext_of_on r h
    · split
      · exact ahead_readNext_of_on r h
      · rename_i _ _ hs
        rw [readNextStartElementLoop_ahead _ _
          (onPointRecord_of_not_start _ (by simpa using hs))]
        exact ahead_readNext_of_on r h

theorem ahead_raiseError (r : QXmlStreamReader) :
    r.raiseError.ahead = [] ∧ r.raiseError.onPointRecord = false := by
  simp [QXmlStreamReader.raiseError, QXmlStreamReader.ahead, QXmlStreamReader.atEnd,
    QXmlStreamReader.onPointRecord, QXmlStreamReader.isStartElement]

theorem onPointRecord_of_current (r : QXmlStreamReader) (t : Token)
    (hc : r.current = Current.token t) (ht : t.isTrkpt = false) :
    r.onPointRecord = false := by
  rcases r with ⟨cur, p, comp⟩
  simp only at hc
  subst hc
  rw [onPointRecord_token]; exact ht

theorem readElementTextLoop_ahead (fuel : Nat) (r : QXmlStreamReader) (result : String)
    (h : r.onPointRecord = false) :
    (QXmlStreamReader.readElementTextLoop fuel r result).2.onPointRecord = false ∧
    ((QXmlStreamReader.readElementTextLoop fuel r result).2.ahead = r.ahead ∨
      (QXmlStreamReader.readElementTextLoop fuel r result).2.ahead = []) := by
  induction fuel generalizing r result with
  | zero => exact ⟨h, Or.inl rfl⟩
  | succ n ih =>
    have hn := ahead_readNext_of_not r h
    unfold QXmlStreamReader.readElementTextLoop
    simp only
    split
    · rename_i t hc
      have := ih r.readNext (result ++ t) (onPointRecord_of_current _ _ hc rfl)
      rw [hn] at this; exact this
    · rename_i _ t hc
      have := ih r.readNext (result ++ t) (onPointRecord_of_current _ _ hc rfl)
      rw [hn] at this; exact this
    · rename_i _ hc
      exact ⟨onPointRecord_of_current _ _ hc rfl, Or.inl hn⟩
    · rename_i _ _ hc
      have := ih r.readNext result (onPointRecord_of_current _ _ hc rfl)
      rw [hn] at this; exact this
    · rename_i _ hc
      have := ih r.readNext result (onPointRecord_of_current _ _ hc rfl)
      rw [hn] at this; exact this
    · exact ⟨(ahead_raiseError _).2, Or.inr (ahead_raiseError _).1⟩

theorem timeElementStep_ahead (r : QXmlStreamReader) (time : QTime)
    (h : r.onPointRecord = false) :
    (timeElementStep r time).2.onPointRecord = false ∧
    ((timeElementStep r time).2.ahead = r.ahead ∨ (timeElementStep r time).2.ahead = []) := by
  unfold timeElementStep
  split
  · split
    · exact ⟨h, Or.inl rfl⟩
    · split
      · rename_i hs _ _
        simp only [QXmlStreamReader.readElementText, hs, if_true]
        exact readElementTextLoop_ahead _ r "" h
      · exact ⟨h, Or.inl rfl⟩
  · exact ⟨h, Or.inl rfl⟩

theorem timeElementLoop_ahead (fuel : Nat) (r : QXmlStreamReader) (time : QTime) :
    (timeElementLoop fuel r time).2.ahead = r.ahead ∨
      (timeElementLoop fuel r time).2.ahead = [] := by
  induction fuel generalizing r time with
  | zero => exact Or.inl rfl
  | succ n ih =>
    unfold timeElementLoop
    split
    · rename_i hc
      have hname : sameTextCaseInsensitive r.name "trkpt" = false := by
        simp only [Bool.and_eq_true, Bool.not_eq_true'] at hc
        exact hc.1
      have hnot := onPointRecord_of_not_named r hname
      obtain ⟨hb, hab⟩ := timeElementStep_ahead r time hnot
      have hrn := ahead_readNext_of_not _ hb
      simp only
      rcases ih (timeElementStep r time).2.readNext (timeElementStep r time).1 with h1 | h1
      · rw [h1, hrn]; exact hab
      · exact Or.inr h1
    · exact Or.inl rfl

/-- With nothing to discard, `getNextPoint` returns the first point ahead of the reader,
the empty point when there is none, and leaves the points after it ahead of the reader,
or none when the reader ran into an error. -/
theorem getNextPointRec_ahead (fuel : Nat) (r : QXmlStreamReader) (time : QTime) :
    (getNextPointRec Point.empty (fuel + 1) r time).1 = r.ahead.headD Point.empty ∧
    ((getNextPointRec Point.empty (fuel + 1) r time).2.2.ahead = r.ahead.tail ∨
      (getNextPointRec Point.empty (fuel + 1) r time).2.2.ahead = []) := by
  have hA := gotoLoop_ahead (r.pending.length + 2) r
  cases hf : (gotoNextPositionElement r).1
  · have hempty : r.ahead = [] := by
      by_contra hne
      have hend : r.atEnd = false := by
        cases hE : r.atEnd
        · rfl
        · simp [QXmlStreamReader.ahead, hE] at hne
      have hrem : 1 ≤ r.remaining := by
        have hl : 0 < r.ahead.length := List.length_pos.2 hne
        have ha : r.ahead = logPoints r.stream := by simp [QXmlStreamReader.ahead, hend]
        rw [ha, logPoints_length] at hl
        exact hl
      have := gotoLoop_finds (r.pending.length + 2) r
        (by simp [QXmlStreamReader.sound, hend]) (le_refl _) hrem
      unfold gotoNextPositionElement at hf
      rw [hf] at this
      exact absurd this (by decide)
    have h2 : (gotoNextPositionElement r).2.ahead = [] := by
      unfold gotoNextPositionElement; rw [hA, hempty]
    simp [getNextPointRec, hf, hempty, h2]
  · have hon := gotoLoop_found (r.pending.length + 2) r hf
    have hhead := ahead_of_on _ hon
    rw [hA] at hhead
    have htail := readNextStartElement_ahead _ hon
    rw [hA] at htail
    simp only [getNextPointRec, hf, Bool.not_true, Bool.false_eq_true, if_false]
    rw [if_neg (by simp)]
    refine ⟨by rw [hhead]; rfl, ?_⟩
    simp only
    rcases timeElementLoop_ahead
      ((gotoNextPositionElement r).2.readNextStartElement.2.pending.length + 2)
      (gotoNextPositionElement r).2.readNextStartElement.2 time with h1 | h1
    · left; rw [h1]; exact htail
    · right; exact h1

/-! ## The window along the points of the log -/

theorem cons_of_headD (l : List Point) (p : Point) (h : p = l.headD Point.empty)
    (hne : p.isEmpty = false) : l = p :: l.tail := by
  cases l with
  | nil => simp at h; subst h; simp [Point.isEmpty] at hne
  | cons x xs => simp at h; subst h; rfl

/-- The points and the reader of the three fetches do not depend on the window times. -/
theorem fetches_points_agree (a b : GPSSimulator) (hr : a.m_gpxReader = b.m_gpxReader)
    (hl : a.m_latestPoint = b.m_latestPoint) :
    ((fetch1 a).1 = (fetch1 b).1 ∧ (fetch1 a).2.2 = (fetch1 b).2.2) ∧
    ((fetch2 a).1 = (fetch2 b).1 ∧ (fetch2 a).2.2 = (fetch2 b).2.2) ∧
    ((fetch3 a).1 = (fetch3 b).1 ∧ (fetch3 a).2.2 = (fetch3 b).2.2) := by
  have h1 : (fetch1 a).1 = (fetch1 b).1 ∧ (fetch1 a).2.2 = (fetch1 b).2.2 := by
    unfold fetch1
    rw [hr, hl]
    have := getNextPointRec_indep b.m_latestPoint (b.m_gpxReader.pending.length + 2)
      b.m_gpxReader a.m_segmentStartTime b.m_segmentStartTime
    exact ⟨this.1, this.2.1⟩
  have h2 : (fetch2 a).1 = (fetch2 b).1 ∧ (fetch2 a).2.2 = (fetch2 b).2.2 := by
    unfold fetch2
    rw [h1.2, hl]
    have := getNextPointRec_indep b.m_latestPoint ((fetch1 b).2.2.pending.length + 2)
      (fetch1 b).2.2 a.m_segmentEndTime b.m_segmentEndTime
    exact ⟨this.1, this.2.1⟩
  have h3 : (fetch3 a).1 = (fetch3 b).1 ∧ (fetch3 a).2.2 = (fetch3 b).2.2 := by
    unfold fetch3
    rw [h2.2, hl]
    have := getNextPointRec_indep b.m_latestPoint ((fetch2 b).2.2.pending.length + 2)
      (fetch2 b).2.2 a.m_nextSegmentEndTime b.m_nextSegmentEndTime
    exact ⟨this.1, this.2.1⟩
  exact ⟨h1, h2, h3⟩

theorem initialize_ok_congr (a b : GPSSimulator) (hr : a.m_gpxReader = b.m_gpxReader)
    (hl : a.m_latestPoint = b.m_latestPoint) :
    (initializeInterpolationValues a).1 = (initializeInterpolationValues b).1 := by
  obtain ⟨h1, h2, h3⟩ := fetches_points_agree a b hr hl
  have ha := initialize_ok_iff a
  have hb := initialize_ok_iff b
  rw [h1.1, h2.1, h3.1] at ha
  cases hx : (initializeInterpolationValues a).1 <;>
    cases hy : (initializeInterpolationValues b).1 <;> simp_all

/-- A successful initialisation puts the window on the first three points ahead of the
reader. -/
theorem initialize_onLog (s : GPSSimulator) (hl : s.m_latestPoint = Point.empty)
    (hok : (initializeInterpolationValues s).1 = true) :
    OnLog s.m_gpxReader.ahead (initializeInterpolationValues s).2 := by
  obtain ⟨n1, n2, n3⟩ := (initialize_ok_iff s).1 hok
  have f1 := getNextPointRec_ahead (s.m_gpxReader.pending.length + 1) s.m_gpxReader
    s.m_segmentStartTime
  have f2 := getNextPointRec_ahead ((fetch1 s).2.2.pending.length + 1) (fetch1 s).2.2
    s.m_segmentEndTime
  have f3 := getNextPointRec_ahead ((fetch2 s).2.2.pending.length + 1) (fetch2 s).2.2
    s.m_nextSegmentEndTime
  have e1 : fetch1 s = getNextPointRec Point.empty (s.m_gpxReader.pending.length + 1 + 1)
      s.m_gpxReader s.m_segmentStartTime := by rw [fetch1, hl]
  have e2 : fetch2 s = getNextPointRec Point.empty ((fetch1 s).2.2.pending.length + 1 + 1)
      (fetch1 s).2.2 s.m_segmentEndTime := by rw [fetch2, hl]
  have e3 : fetch3 s = getNextPointRec Point.empty ((fetch2 s).2.2.pending.length + 1 + 1)
      (fetch2 s).2.2 s.m_nextSegmentEndTime := by rw [fetch3, hl]
  rw [← e1] at f1
  rw [← e2] at f2
  rw [← e3] at f3
  have c1 := cons_of_headD _ _ f1.1 n1
  have t1 : (fetch1 s).2.2.ahead = s.m_gpxReader.ahead.tail := by
    rcases f1.2 with h | h
    · exact h
    · exfalso
      rw [h] at f2
      have := f2.1
      simp at this
      rw [this] at n2
      simp [Point.isEmpty] at n2
  have c2 := cons_of_headD _ _ f2.1 n2
  have t2 : (fetch2 s).2.2.ahead = (fetch1 s).2.2.ahead.tail := by
    rcases f2.2 with h | h
    · exact h
    · exfalso
      rw [h] at f3
      have := f3.1
      simp at this
      rw [this] at n3
      simp [Point.isEmpty] at n3
  have c3 := cons_of_headD _ _ f3.1 n3
  have hseg := initialize_eq s
  have hcond : ((fetch1 s).1.isEmpty || (fetch2 s).1.isEmpty || (fetch3 s).1.isEmpty)
      = false := by simp [n1, n2, n3]
  rw [hcond] at hseg
  simp only [Bool.false_eq_true, if_false] at hseg
  refine ⟨[], (fetch1 s).1, (fetch2 s).1, (fetch3 s).1, (fetch2 s).2.2.ahead.tail, ?_,
    by rw [hseg], by rw [hseg], ?_⟩
  · rw [List.nil_append]
    conv_lhs => rw [c1, ← t1, c2, ← t2, c3]
  · rw [hseg]
    exact f3.2

/-- A successful window advance moves the window one point along the log. -/
theorem update_onLog (P : List Point) (s : GPSSimulator)
    (hl : s.m_latestPoint = Point.empty)
    (hok : (updateInterpolationParameters s).1 = true) (h : OnLog P s) :
    OnLog P (updateInterpolationParameters s).2 := by
  obtain ⟨pre, a, b, c, rest, hP, hcur, hnext, hahead⟩ := h
  have hne := (update_ok_iff s).1 hok
  obtain ⟨_, _, _, u4, u5, u6, _⟩ := update_window_fields s hok
  have f := getNextPointRec_ahead (s.m_gpxReader.pending.length + 1) s.m_gpxReader
    s.m_nextSegmentEndTime
  have e : fetchNext s = getNextPointRec Point.empty (s.m_gpxReader.pending.length + 1 + 1)
      s.m_gpxReader s.m_nextSegmentEndTime := by rw [fetchNext, hl]
  rw [← e] at f
  have c1 := cons_of_headD _ _ f.1 hne
  have hrest : s.m_gpxReader.ahead = rest := by
    rcases hahead with h | h
    · exact h
    · rw [h] at c1; simp at c1
  refine ⟨pre ++ [a], b, c, (fetchNext s).1, rest.tail, ?_, ?_, ?_, ?_⟩
  · rw [hP]
    rw [hrest] at c1
    conv_lhs => rw [c1]
    simp
  · rw [u4, hnext]
  · rw [u5, hnext]
  · rw [u6, ← hrest]
    exact f.2

theorem ahead_clearAndAddData (data : Document) :
    (QXmlStreamReader.clearAndAddData data).ahead = logPoints data.tokens := by
  simp [QXmlStreamReader.clearAndAddData, QXmlStreamReader.ahead, QXmlStreamReader.atEnd,
    QXmlStreamReader.stream]

/-- A tick keeps the window on three consecutive points of the log: it leaves the window,
moves it one point on, or rebuilds it on the first three points. -/
theorem handleTimerEvent_onLog (s0 s : GPSSimulator)
    (hcursor : s0.m_gpxReader = QXmlStreamReader.clearAndAddData s0.m_gpxData)
    (hlatest : s0.m_latestPoint = Point.empty)
    (hok : (initializeInterpolationValues s0).1 = true)
    (hd : s.m_gpxData = s0.m_gpxData) (hl : s.m_latestPoint = Point.empty)
    (h : OnLog (logPoints s0.m_gpxData.tokens) s) :
    OnLog (logPoints s0.m_gpxData.tokens) (handleTimerEvent s).1 := by
  cases hr : loopRestart s
  · rcases handleTimerEvent_cases s hr with ⟨_, hst⟩ | ⟨_, huok, hst⟩
    · rw [hst]
      exact h
    · rw [hst]
      exact update_onLog _ (advanceClock s) hl huok h
  · rw [handleTimerEvent_restart s hr]
    have hrr : (rewound s).m_gpxReader = s0.m_gpxReader := by
      rw [hcursor, ← hd]; rfl
    have hrl : (rewound s).m_latestPoint = s0.m_latestPoint := by
      rw [(rewound_sameSetup s).2.2.2.2.2.1, hl, hlatest]
    have hrok : (initializeInterpolationValues (rewound s)).1 = true := by
      rw [initialize_ok_congr _ _ hrr hrl]; exact hok
    have := initialize_onLog (rewound s) (by rw [hrl, hlatest]) hrok
    rw [hrr, hcursor, ahead_clearAndAddData] at this
    exact this

theorem runTicks_succ (n : Nat) (s : GPSSimulator) :
    (runTicks (n + 1) s).1 = (handleTimerEvent (runTicks n s).1).1 := by
  induction n generalizing s with
  | zero => rfl
  | succ k ih =>
    conv_lhs => rw [runTicks]
    simp only
    rw [ih]
    rfl

theorem runTicks_onLog (s0 : GPSSimulator) (n : Nat)
    (hcursor : s0.m_gpxReader = QXmlStreamReader.clearAndAddData s0.m_gpxData)
    (hlatest : s0.m_latestPoint = Point.empty)
    (hok : (initializeInterpolationValues s0).1 = true) :
    OnLog (logPoints s0.m_gpxData.tokens) (runTicks n (startSimulation s0)).1 := by
  have hstart := startSimulation_of_ok s0 hok
  have hinit := initialize_onLog s0 hlatest hok
  rw [hcursor, ahead_clearAndAddData] at hinit
  have hseg := initialize_eq s0
  obtain ⟨n1, n2, n3⟩ := (initialize_ok_iff s0).1 hok
  have hcond : ((fetch1 s0).1.isEmpty || (fetch2 s0).1.isEmpty || (fetch3 s0).1.isEmpty)
      = false := by simp [n1, n2, n3]
  rw [hcond] at hseg
  simp only [Bool.false_eq_true, if_false] at hseg
  induction n with
  | zero =>
    obtain ⟨pre, a, b, c, rest, hP, hc, hn, ha⟩ := hinit
    rw [hseg] at hc hn ha
    refine ⟨pre, a, b, c, rest, hP, ?_, ?_, ?_⟩
    · show (startSimulation s0).m_currentSegment = _
      rw [hstart]; exact hc
    · show (startSimulation s0).m_nextSegment = _
      rw [hstart]; exact hn
    · show (startSimulation s0).m_gpxReader.ahead = _ ∨ (startSimulation s0).m_gpxReader.ahead = _
      rw [hstart]; exact ha
  | succ k ih =>
    rw [runTicks_succ]
    have h1 := runTicks_sameSetup k (startSimulation s0)
    have hd : (runTicks k (startSimulation s0)).1.m_gpxData = s0.m_gpxData := by
      rw [h1.2.1, hstart]
    have hl : (runTicks k (startSimulation s0)).1.m_latestPoint = Point.empty := by
      rw [h1.2.2.2.2.2.1, hstart]; exact hlatest
    exact handleTimerEvent_onLog s0 _ hcursor hlatest hok hd hl ih

theorem onLog_index (P : List Point) (s : GPSSimulator) (h : OnLog P s) :
    ∃ k : Nat, k + 2 < P.length ∧
      P[k]? = some s.m_currentSegment.startPoint ∧
      P[k + 1]? = some s.m_currentSegment.endPoint ∧
      P[k + 2]? = some s.m_nextSegment.endPoint := by
  obtain ⟨pre, a, b, c, rest, hP, hcur, hnext, _⟩ := h
  refine ⟨pre.length, ?_, ?_, ?_, ?_⟩
  · rw [hP]; simp
  · rw [hP, hcur, List.getElem?_append_right (le_refl _)]; simp
  · rw [hP, hcur, List.getElem?_append_right (by omega)]; simp
  · rw [hP, hnext, List.getElem?_append_right (by omega)]; simp

/-- C20: on a log played from a successful start, with the cursor at the beginning of the
buffered data and nothing to discard, every tick that emits does so with the window on
three consecutive points of the log: for some index `k` with `k + 2` below the number `n`
of point records, the current segment joins the points `k` and `k + 1` (counted from 0)
and the next segment ends at point `k + 2`. There are at least three records, the emitted
position is point `k` or point `k + 1`, and the final segment, from point `n - 2` to point
`n - 1`, is never the current one. -/
theorem emitting_segment_not_final (s0 : GPSSimulator) (n : Nat) (e : PositionUpdate)
    (hcursor : s0.m_gpxReader = QXmlStreamReader.clearAndAddData s0.m_gpxData)
    (hlatest : s0.m_latestPoint = Point.empty)
    (hok : (initializeInterpolationValues s0).1 = true)
    (hemit : (handleTimerEvent (runTicks n (startSimulation s0)).1).2 = [e]) :
    3 ≤ pointRecords s0.m_gpxData.tokens ∧
    ∃ k : Nat, k + 2 < pointRecords s0.m_gpxData.tokens ∧
      (logPoints s0.m_gpxData.tokens)[k]?
        = some (handleTimerEvent (runTicks n (startSimulation s0)).1).1.m_currentSegment.startPoint ∧
      (logPoints s0.m_gpxData.tokens)[k + 1]?
        = some (handleTimerEvent (runTicks n (startSimulation s0)).1).1.m_currentSegment.endPoint ∧
      (logPoints s0.m_gpxData.tokens)[k + 2]?
        = some (handleTimerEvent (runTicks n (startSimulation s0)).1).1.m_nextSegment.endPoint ∧
      ((logPoints s0.m_gpxData.tokens)[k]? = some e.position ∨
        (logPoints s0.m_gpxData.tokens)[k + 1]? = some e.position) := by
  have hlog := runTicks_onLog s0 (n + 1) hcursor hlatest hok
  rw [runTicks_succ] at hlog
  obtain ⟨k, hk, h0, h1, h2⟩ := onLog_index _ _ hlog
  rw [logPoints_length] at hk
  have hpos := emitted_position_by_normalizedTime _ e hemit
  refine ⟨by omega, k, hk, h0, h1, h2, ?_⟩
  rw [hpos]
  split
  · exact Or.inl h0
  · exact Or.inr h1

/-- C20 at the eleventh tick of the four-point log (A 0 s, B 10 s, C 20 s, D 30 s): the
tick advances the window and emits B from the segment B to C, the points 1 and 2 of the
four; the final segment C to D is the next segment, not the current one. -/
theorem emitting_segment_not_final_witness :
    3 ≤ pointRecords (simulatorOn fourPointLog).m_gpxData.tokens ∧
    ∃ k : Nat, k + 2 < pointRecords (simulatorOn fourPointLog).m_gpxData.tokens ∧
      (logPoints (simulatorOn fourPointLog).m_gpxData.tokens)[k]?
        = some (handleTimerEvent (runTicks 10
            (startSimulation (simulatorOn fourPointLog))).1).1.m_currentSegment.startPoint ∧
      (logPoints (simulatorOn fourPointLog).m_gpxData.tokens)[k + 1]?
        = some (handleTimerEvent (runTicks 10
            (startSimulation (simulatorOn fourPointLog))).1).1.m_currentSegment.endPoint ∧
      (logPoints (simulatorOn fourPointLog).m_gpxData.tokens)[k + 2]?
        = some (handleTimerEvent (runTicks 10
            (startSimulation (simulatorOn fourPointLog))).1).1.m_nextSegment.endPoint ∧
      ((logPoints (simulatorOn fourPointLog).m_gpxData.tokens)[k]? = some pointB ∨
        (logPoints (simulatorOn fourPointLog).m_gpxData.tokens)[k + 1]? = some pointB) :=
  emitting_segment_not_final (simulatorOn fourPointLog) 10
    ⟨pointB, Heading.angleTo ⟨pointB, pointC⟩ ⟨-180, 0, 180, 0⟩⟩
    (by decide) (by decide) (by decide) (by decide)
